import Mathlib

/-!
# Velocity limits: a verification development of `cmd/pkg/account/service.go`

The Go package `account` keeps, per customer, a ledger of fund loads in a keyed
store and accepts or rejects each new load against a duplicate check, a daily
count and amount limit and a weekly amount limit.

The embedding follows the Go source function by function and keeps its names:

* `F64` models the `float64` of `Fund.LoadAmount`: addition is IEEE-754
  binary64 addition (round to nearest, ties to even) and `gt` is Go's `>`.
* `Time` models `time.Time` for a fixed zone offset, with `Weekday`, `AddDate`
  and `Format` for the one layout the package uses, `"01/02/2019"`.
* `TxMap` models `map[string][]Fund`, `Cache` the go-cache store the package
  reads with `Get` and writes with `Set`.
* `find`, `checkIfLoadExists`, `checkDailyLimit`, `checkWeeklyLimit` and
  `LoadFund` are the functions of `service.go`.
* `fundRequest`, `FundResponse` and `FundHandler.Run` are those of `handler.go`,
  `processFunds` is the loop of `main.go`.
* `ObjStore` is the store with the `Transactions` map objects kept apart from
  the entries, and `ObjStore.LoadFund` is `LoadFund` on it. `Cache` holds every
  account with a map of its own; it is what an `ObjStore` shows (`ObjStore.view`)
  when no two entries share a map object, as in every store built by `LoadFund`
  calls from the empty store (`objLoadFunds_refines`).

What the embedding leaves out: the store's time-based expiry of entries (no
entry expires during a run), and sharing of the backing array of a slice
between store entries.
-/

namespace VelocityLimits

/-! ## float64 -/

/-- Number of binary digits of `n`, by halving; the first argument bounds the
number of steps. -/
def bitLenAux : Nat → Nat → Nat
  | 0, _ => 0
  | fuel + 1, n => if n = 0 then 0 else bitLenAux fuel (n / 2) + 1

/-- Number of binary digits of `n` (`0` for `0`). -/
def bitLen (n : Nat) : Nat := bitLenAux n n

/-- A `float64`. A finite value is `fin neg k`, standing for
`(-1)^neg * k * 2^(-1074)`: every finite binary64 number is an integer multiple
of the smallest subnormal `2^(-1074)`. The values that are binary64 numbers are
those with `k < 2^2098` whose `k` has at most 53 significant bits. -/
inductive F64 where
  | nan : F64
  | inf (neg : Bool) : F64
  | fin (neg : Bool) (k : Nat) : F64
deriving DecidableEq, Repr

namespace F64

/-- Round the rational `num / den`, in units of `2^(-1074)`, to the nearest
binary64 number, ties to even: below `2^53` units the spacing is one unit, above
it the spacing is `2^shift` units where `shift` is the number of bits beyond 53.
A result of `2^2098` units (`2^1024`) or more overflows to infinity. -/
def round (neg : Bool) (num den : Nat) : F64 :=
  let shift := bitLen (num / den) - 53
  let d := den <<< shift
  let q := num / d
  let r := num % d
  let q1 := if d < 2 * r ∨ (2 * r = d ∧ q % 2 = 1) then q + 1 else q
  let k := q1 <<< shift
  if 1 <<< 2098 ≤ k then inf neg else fin neg k

/-- The signed number of units of a finite value. -/
def signed (neg : Bool) (k : Nat) : Int := if neg then -(k : Int) else (k : Int)

/-- Go's `x + y` on `float64`: the exact sum, rounded. An exact zero sum is `+0`
unless both operands are negative (then both are `-0`). -/
def add : F64 → F64 → F64
  | nan, _ => nan
  | _, nan => nan
  | inf a, inf b => if a = b then inf a else nan
  | inf a, fin _ _ => inf a
  | fin _ _, inf b => inf b
  | fin a x, fin b y =>
    let s := signed a x + signed b y
    if s = 0 then fin (a && b) 0 else round (decide (s < 0)) s.natAbs 1

/-- Go's `x > y` on `float64`: false whenever an operand is NaN. -/
def gt : F64 → F64 → Bool
  | nan, _ => false
  | _, nan => false
  | inf a, inf b => !a && b
  | inf a, fin _ _ => !a
  | fin _ _, inf b => b
  | fin a x, fin b y => decide (signed b y < signed a x)

/-- The `float64` nearest to the decimal `digits / 10^scale` (with sign `neg`):
the value of a Go floating-point literal such as `4999.99`, and of
`strconv.ParseFloat` on a plain decimal string. -/
def ofDecimal (neg : Bool) (digits scale : Nat) : F64 :=
  round neg (digits <<< 1074) (10 ^ scale)

/-- The zero value of a `float64` variable (`var totalAmount float64`). -/
def zero : F64 := fin false 0

end F64

/-! ## time.Time -/

/-- A `time.Time` in a zone with a fixed offset: the instant as seconds and
nanoseconds since the Unix epoch, and the zone offset in seconds east of UTC. -/
structure Time where
  sec : Int
  nsec : Nat
  offset : Int
deriving DecidableEq, Repr

/-- Proleptic Gregorian date `(year, month, day)` of the day `z` days after
1970-01-01. -/
def civilOfDays (z : Int) : Int × Int × Int :=
  let z1 := z + 719468
  let era := z1 / 146097
  let doe := z1 % 146097
  let yoe := (doe - doe / 1460 + doe / 36524 - doe / 146096) / 365
  let doy := doe - (365 * yoe + yoe / 4 - yoe / 100)
  let mp := (5 * doy + 2) / 153
  let d := doy - (153 * mp + 2) / 5 + 1
  let m := if mp < 10 then mp + 3 else mp - 9
  let y := yoe + era * 400
  (if m ≤ 2 then y + 1 else y, m, d)

/-- Days from 1970-01-01 to the proleptic Gregorian date `y`-`m`-`d`, for a
month in `1..12`; the day may lie outside the month and then counts on
linearly, as in Go's `time.Date`. -/
def daysOfCivil (y m d : Int) : Int :=
  let y1 := if m ≤ 2 then y - 1 else y
  let era := y1 / 400
  let yoe := y1 % 400
  let mp := if m ≤ 2 then m + 9 else m - 3
  let doy := (153 * mp + 2) / 5 + d - 1
  let doe := yoe * 365 + yoe / 4 - yoe / 100 + doy
  era * 146097 + doe - 719468

/-- Go's `time.Date(year, month, day, hour, min, sec, nsec, loc)` for a zone
with a fixed offset: values outside their usual range are normalised. -/
def Date (year month day hour min sec nsec : Int) (offset : Int) : Time :=
  let m0 := month - 1
  let y := year + m0 / 12
  let m := m0 % 12 + 1
  let s := sec + nsec / 1000000000
  { sec := daysOfCivil y m day * 86400 + hour * 3600 + min * 60 + s - offset
    nsec := (nsec % 1000000000).toNat
    offset := offset }

namespace Time

/-- Wall-clock seconds since 1970-01-01T00:00:00 in the zone of `t`. -/
def abs (t : Time) : Int := t.sec + t.offset

/-- Wall-clock day number of `t`, in days since 1970-01-01. -/
def days (t : Time) : Int := t.abs / 86400

def Year (t : Time) : Int := (civilOfDays t.days).1

def Month (t : Time) : Int := (civilOfDays t.days).2.1

def Day (t : Time) : Int := (civilOfDays t.days).2.2

def Hour (t : Time) : Int := t.abs % 86400 / 3600

def Minute (t : Time) : Int := t.abs % 3600 / 60

def Second (t : Time) : Int := t.abs % 60

/-- Go's `t.Weekday()`: Sunday = 0, Monday = 1, ..., Saturday = 6
(1970-01-01 was a Thursday). -/
def Weekday (t : Time) : Nat := ((t.days + 4) % 7).toNat

/-- Go's `t.AddDate(years, months, days)`: the date fields are shifted and the
result renormalised by `Date`. -/
def AddDate (t : Time) (years months days : Int) : Time :=
  Date (t.Year + years) (t.Month + months) (t.Day + days)
    t.Hour t.Minute t.Second t.nsec t.offset

/-- A number in decimal, zero-padded to two digits. -/
def pad2 (n : Int) : String :=
  if n < 10 then "0" ++ toString n.toNat else toString n.toNat

/-- The text Go's layout `"01/02/2019"` gives for a month and a day of month:
month in two digits, `/`, day in two digits, `/`, day without padding, month in
two digits, `9`. -/
def formatMonthDay (month day : Int) : String :=
  pad2 month ++ "/" ++ pad2 day ++ "/" ++ toString day.toNat ++ pad2 month ++ "9"

/-- Go's `t.Format("01/02/2019")`, the layout of every call in the package.
Go reads a layout as a sequence of reference-time fields; this one splits into
`01` (month, two digits), `/`, `02` (day of month, two digits), `/`, `2` (day
of month, no padding), `01` (month, two digits) and the literal `9`. No year
field occurs in it: `2019` is not the reference year `2006`. -/
def Format (t : Time) : String :=
  formatMonthDay t.Month t.Day

end Time

/-! ## The data model of `service.go` -/

/-- Go's constant `DailyNumberOfLoadsLimit = 3`. -/
def DailyNumberOfLoadsLimit : Nat := 3

/-- Go's constant `DailyFundLimit = 5000.00`, as the `float64` it is compared with. -/
def DailyFundLimit : F64 := F64.ofDecimal false 500000 2

/-- Go's constant `WeeklyFundLimit = 20000.00`, as the `float64` it is compared with. -/
def WeeklyFundLimit : F64 := F64.ofDecimal false 2000000 2

/-- Go's `Fund`: one load request. -/
structure Fund where
  ID : String
  CustomerID : String
  LoadAmount : F64
  Time : Time
deriving DecidableEq, Repr

/-- Go's `map[string][]Fund`, as the list of its key/bucket pairs; a Go map
holds every key at most once. -/
structure TxMap where
  entries : List (String × List Fund)
deriving DecidableEq, Repr

namespace TxMap

/-- The nil map, the zero value of the field `Transactions`. -/
def empty : TxMap := ⟨[]⟩

/-- Go's `len(m)`: the number of keys. -/
def len (m : TxMap) : Nat := m.entries.length

/-- Bucket of key `k` in a list of pairs; the nil slice when the key is absent. -/
def lookup (k : String) : List (String × List Fund) → List Fund
  | [] => []
  | (k1, v) :: rest => if k1 = k then v else lookup k rest

/-- Go's `m[k]`: the bucket stored under `k`, the nil slice when there is none. -/
def get (m : TxMap) (k : String) : List Fund := lookup k m.entries

/-- Store `v` under `k` in a list of pairs: replace the bucket of `k`, or add
the key. -/
def insert (k : String) (v : List Fund) : List (String × List Fund) → List (String × List Fund)
  | [] => [(k, v)]
  | (k1, v1) :: rest => if k1 = k then (k, v) :: rest else (k1, v1) :: insert k v rest

/-- Go's `m[k] = v`. -/
def set (m : TxMap) (k : String) (v : List Fund) : TxMap := ⟨insert k v m.entries⟩

end TxMap

/-- Go's `CustomerAccount`: the ledger of one customer. -/
structure CustomerAccount where
  ID : String
  LoadIDs : List String
  Transactions : TxMap
deriving DecidableEq, Repr

/-- The go-cache store `*cache.Cache`, as the map from key to the account
stored under it, every account with the content of its `Transactions` map. A
store in which two entries hold one map object is a value of `ObjStore` below. -/
def Cache : Type := String → Option CustomerAccount

namespace Cache

/-- The store `cache.New` returns. -/
def empty : Cache := fun _ => none

/-- Go's `c.Get(k)`: `some x` when found. -/
def Get (c : Cache) (k : String) : Option CustomerAccount := c k

/-- Go's `c.Set(k, x, cache.DefaultExpiration)`. -/
def Set (c : Cache) (k : String) (x : CustomerAccount) : Cache :=
  fun j => if j = k then some x else c j

/-- The effect on the store of a write into the `Transactions` map object of an
account, Go maps being references: the entries under `k1` and `k2` hold that
map object and show the map `tx` afterwards; no other entry changes. -/
def writeTx (c : Cache) (k1 k2 : String) (tx : TxMap) : Cache :=
  fun j =>
    if j = k1 ∨ j = k2 then (c j).map (fun x => { x with Transactions := tx }) else c j

end Cache

/-! ## The functions of `service.go` -/

/-- Go's `find`. -/
def find : List String → String → Bool
  | [], _ => false
  | value :: rest, needle => if value = needle then true else find rest needle

/-- Go's `totalAmount += load.LoadAmount` over the loads of one bucket, from
the running total `total`. -/
def sumLoads (total : F64) (loads : List Fund) : F64 :=
  loads.foldl (fun acc load => F64.add acc load.LoadAmount) total

namespace CustomerAccount

/-- Go's `checkIfLoadExists`; `none` is the nil error. -/
def checkIfLoadExists (a : CustomerAccount) (loadID : String) : Option String :=
  if find a.LoadIDs loadID then some ("loadID: " ++ loadID ++ " exists") else none

/-- Go's `checkDailyLimit`; `none` is the nil error. -/
def checkDailyLimit (a : CustomerAccount) (fund : Fund) : Option String :=
  let date := fund.Time.Format
  if DailyNumberOfLoadsLimit ≤ (a.Transactions.get date).length then
    some ("accountID: " ++ a.ID ++ " exceed daily number of loads limit when process loadID: "
      ++ fund.ID)
  else
    let totalAmount := sumLoads F64.zero (a.Transactions.get date)
    if F64.gt (F64.add totalAmount fund.LoadAmount) DailyFundLimit then
      some ("accountID: " ++ a.ID ++ " exceed daily fund limit when process loadID: " ++ fund.ID)
    else none

/-- The running total of `checkWeeklyLimit` after the loop
`for i := 0; i < int(fund.Time.Weekday()); i++`: the buckets of the request's
date and of the `Weekday() - 1` dates before it, added in that order. -/
def weeklyTotal (a : CustomerAccount) (fund : Fund) : F64 :=
  (List.range fund.Time.Weekday).foldl
    (fun (total : F64) (i : Nat) =>
      sumLoads total (a.Transactions.get (fund.Time.AddDate 0 0 (-(i : Int))).Format))
    F64.zero

/-- Go's `checkWeeklyLimit`; `none` is the nil error. -/
def checkWeeklyLimit (a : CustomerAccount) (fund : Fund) : Option String :=
  if F64.gt (F64.add (a.weeklyTotal fund) fund.LoadAmount) WeeklyFundLimit then
    some ("accountID: " ++ a.ID ++ " exceed weekly fund limit when process loadID: " ++ fund.ID)
  else none

end CustomerAccount

/-- The account `LoadFund` works on (lines 38 to 44): the one stored under
`fund.CustomerID`, or a fresh one with that ID. -/
def accountFor (fund : Fund) (c : Cache) : CustomerAccount :=
  match c.Get fund.CustomerID with
  | some x => x
  | none => { ID := fund.CustomerID, LoadIDs := [], Transactions := TxMap.empty }

/-- Go's `LoadFund`: the returned pair `(bool, error)` and the store afterwards.

The receiver is overwritten in the first statement, so it is no argument here.
In the last branch Go writes into the map object of the account it read
(`a.Transactions[date] = append(...)`). Two entries of the store hold that
object, the one the account was read from (`fund.CustomerID`) and the one
stored at line 51 (`a.ID`), and both show the write, before `c.Set` stores the
account under `a.ID` once more. -/
def LoadFund (fund : Fund) (c : Cache) : (Bool × Option String) × Cache :=
  let a := accountFor fund c
  match a.checkIfLoadExists fund.ID with
  | some err => ((true, some err), c)
  | none =>
    let a1 : CustomerAccount := { a with LoadIDs := a.LoadIDs ++ [fund.ID] }
    let c1 := c.Set a1.ID a1
    match a1.checkDailyLimit fund with
    | some err => ((false, some err), c1)
    | none =>
      match a1.checkWeeklyLimit fund with
      | some err => ((false, some err), c1)
      | none =>
        let date := fund.Time.Format
        if a1.Transactions.len = 0 then
          let a2 : CustomerAccount := { a1 with Transactions := TxMap.empty.set date [fund] }
          ((false, none), c1.Set a2.ID a2)
        else
          let tx := a1.Transactions.set date (a1.Transactions.get date ++ [fund])
          let a2 : CustomerAccount := { a1 with Transactions := tx }
          let c2 := c1.writeTx fund.CustomerID a1.ID tx
          ((false, none), c2.Set a2.ID a2)

/-- The store after a sequence of calls of `LoadFund`, in order. -/
def LoadFunds (funds : List Fund) (c : Cache) : Cache :=
  funds.foldl (fun st fund => (LoadFund fund st).2) c

/-! ## Notions used in the statements -/

/-- The account `LoadFund` stores at line 51: the account it works on, with the
request's ID appended to `LoadIDs`. -/
def seenAccount (fund : Fund) (c : Cache) : CustomerAccount :=
  { accountFor fund c with LoadIDs := (accountFor fund c).LoadIDs ++ [fund.ID] }

/-- The ledger map `LoadFund` stores when it accepts `fund` for the account
`a`: a new map with the one bucket when the map of `a` is empty, the map of `a`
with `fund` appended to the bucket of its day otherwise. -/
def recordedTx (a : CustomerAccount) (fund : Fund) : TxMap :=
  if a.Transactions.len = 0 then TxMap.empty.set fund.Time.Format [fund]
  else a.Transactions.set fund.Time.Format (a.Transactions.get fund.Time.Format ++ [fund])

/-- The account stored under `k`, if there is one, has the ID `k`. -/
def KeyedAt (c : Cache) (k : String) : Prop :=
  ∀ a, c.Get k = some a → a.ID = k

/-- Every account of the store is filed under its own ID. -/
def WellKeyed (c : Cache) : Prop := ∀ k, KeyedAt c k

/-- The ledger invariant of an account: every load ID that occurs in a bucket
of `Transactions` occurs in `LoadIDs`, and no load ID occurs in two entries of
`Transactions`, neither twice in one bucket nor in the buckets of two keys. -/
def Ledger (a : CustomerAccount) : Prop :=
  (∀ k, ∀ f ∈ a.Transactions.get k, f.ID ∈ a.LoadIDs)
  ∧ (∀ k, ((a.Transactions.get k).map Fund.ID).Nodup)
  ∧ (∀ k1 k2, k1 ≠ k2 →
      ∀ f1 ∈ a.Transactions.get k1, ∀ f2 ∈ a.Transactions.get k2, f1.ID ≠ f2.ID)

/-- Every stored account is filed under its own ID and satisfies the ledger
invariant. -/
def LedgerStore (c : Cache) : Prop :=
  ∀ k a, c.Get k = some a → a.ID = k ∧ Ledger a

/-- Month and day of month read back from the first five characters of a
day-key. -/
def keyMonthDay (s : String) : Int × Int :=
  match s.data.map (fun ch => (ch.toNat : Int) - 48) with
  | a :: b :: _ :: c :: d :: _ => (10 * a + b, 10 * c + d)
  | _ => (0, 0)

/-! ## Concrete inputs used in the examples -/

/-- The amount `10000.00`. -/
def amt10000 : F64 := F64.ofDecimal false 1000000 2

/-- Monday 2020-11-16, 09:00 UTC. -/
def monday : Time := Date 2020 11 16 9 0 0 0 0

/-- Tuesday 2020-11-17, 09:00 UTC. -/
def tuesday : Time := Date 2020 11 17 9 0 0 0 0

/-- Wednesday 2020-11-18, 00:00 UTC, the date of `TestExceedWeeklyAmountLimit`. -/
def wednesday : Time := Date 2020 11 18 0 0 0 0 0

/-- Sunday 2020-11-22, 09:00 UTC, the last day of the week of `monday`. -/
def sunday : Time := Date 2020 11 22 9 0 0 0 0

/-- An account of customer 18 with 10000.00 loaded on `monday` and 10000.00 on
`tuesday`, as in `TestExceedWeeklyAmountLimit`. -/
def weekAccount : CustomerAccount :=
  { ID := "18"
    LoadIDs := ["29360", "29361"]
    Transactions :=
      ⟨[(monday.Format, [⟨"29360", "18", amt10000, monday⟩]),
        (tuesday.Format, [⟨"29361", "18", amt10000, tuesday⟩])]⟩ }

/-- A request of customer 18 with ID 29370. -/
def request (amount : F64) (t : Time) : Fund :=
  { ID := "29370", CustomerID := "18", LoadAmount := amount, Time := t }

/-- An account of customer 18 whose bucket of `wednesday` holds the given
amounts, under load IDs 29360, 29361, ... -/
def dayAccount (amounts : List F64) : CustomerAccount :=
  { ID := "18"
    LoadIDs := (List.range amounts.length).map (fun i => toString (29360 + i))
    Transactions :=
      ⟨[(wednesday.Format,
          (List.range amounts.length).zipWith
            (fun i x => ⟨toString (29360 + i), "18", x, wednesday⟩) amounts)]⟩ }

/-- The store holding the single account `a`, under its own ID. -/
def storeOf (a : CustomerAccount) : Cache := Cache.empty.Set a.ID a

/-- Saturday 2020-11-21, 09:00 UTC. -/
def saturday : Time := Date 2020 11 21 9 0 0 0 0

/-- 2019-11-18, 23:30 UTC. -/
def nov18of2019 : Time := Date 2019 11 18 23 30 0 0 0

/-- An account of customer 18 with three loads of 1.00 recorded on 2019-11-18. -/
def lastYearAccount : CustomerAccount :=
  { ID := "18"
    LoadIDs := ["29360", "29361", "29362"]
    Transactions :=
      ⟨[(nov18of2019.Format,
          [⟨"29360", "18", F64.ofDecimal false 100 2, nov18of2019⟩,
           ⟨"29361", "18", F64.ofDecimal false 100 2, nov18of2019⟩,
           ⟨"29362", "18", F64.ofDecimal false 100 2, nov18of2019⟩])]⟩ }

namespace F64

/-- Go's `x <= y` on `float64`: false whenever an operand is NaN. -/
def le : F64 → F64 → Bool
  | nan, _ => false
  | _, nan => false
  | inf a, inf b => a || !b
  | inf a, fin _ _ => a
  | fin _ _, inf b => !b
  | fin a x, fin b y => decide (signed a x ≤ signed b y)

/-- The values of `F64` that are binary64 numbers: NaN, the infinities, and the
finite values below `2^1024` whose units have no bit set beyond the 53 leading
ones. Every `float64` of the Go program is one of them. -/
def isFloat : F64 → Bool
  | nan => true
  | inf _ => true
  | fin _ k => decide (k < 1 <<< 2098) && decide (k % (1 <<< (bitLen k - 53)) = 0)

end F64

/-! ## The handler of `handler.go` -/

/-- Go's `fundRequest`: the decoded request, every field a string. -/
structure fundRequest where
  ID : String
  CustomerID : String
  LoadAmount : String
  Time : String
deriving DecidableEq, Repr

/-- Go's `FundResponse`. -/
structure FundResponse where
  ID : String
  CustomerID : String
  Accepted : Bool
deriving DecidableEq, Repr

/-- Go's `FundResponse{}`, the response `main` does not write out. -/
def FundResponse.zero : FundResponse := { ID := "", CustomerID := "", Accepted := false }

/-- The library functions `FundHandler.Run` calls, `none` standing for a
non-nil error: `Unmarshal req` is `json.Unmarshal([]byte(req), &input)` on a
zero `fundRequest`, `ParseFloat s` is `strconv.ParseFloat(s, 64)` and `Parse s`
is `time.Parse(time.RFC3339, s)`. -/
structure Lib where
  Unmarshal : String → Option fundRequest
  ParseFloat : String → Option F64
  Parse : String → Option Time

/-- Go's `strings.TrimPrefix(s, p)`. -/
def TrimPrefix (s p : String) : String :=
  if p.data.isPrefixOf s.data then String.mk (s.data.drop p.data.length) else s

/-- Go's `h.validate.Struct(input)` for the tags of `fundRequest`: `required` on
a string field fails on the empty string. `true` stands for the nil error. -/
def validateStruct (input : fundRequest) : Bool :=
  decide (input.ID ≠ "") && decide (input.CustomerID ≠ "")
    && decide (input.LoadAmount ≠ "") && decide (input.Time ≠ "")

/-- The service of a handler: `h.service.LoadFund`, with the store it works on. -/
abbrev Service : Type := Fund → Cache → (Bool × Option String) × Cache

namespace FundHandler

/-- Go's `FundHandler.Run`: the response and the store `h.cache` afterwards.
The handler's three fields are arguments here: the validator is `validateStruct`,
the service is `service` and the cache is `c`. Logging is left out. -/
def Run (lib : Lib) (service : Service) (req : String) (c : Cache) : FundResponse × Cache :=
  match lib.Unmarshal req with
  | none => (FundResponse.zero, c)
  | some input =>
    if validateStruct input = false then (FundResponse.zero, c)
    else
      match lib.ParseFloat (TrimPrefix input.LoadAmount "$") with
      | none => (FundResponse.zero, c)
      | some amount =>
        match lib.Parse input.Time with
        | none => (FundResponse.zero, c)
        | some timestamp =>
          let fund : Fund :=
            { ID := input.ID, CustomerID := input.CustomerID, LoadAmount := amount,
              Time := timestamp }
          match service fund c with
          | ((true, _), c1) => (FundResponse.zero, c1)
          | ((false, some _), c1) =>
            ({ ID := fund.ID, CustomerID := fund.CustomerID, Accepted := false }, c1)
          | ((false, none), c1) =>
            ({ ID := fund.ID, CustomerID := fund.CustomerID, Accepted := true }, c1)

end FundHandler

/-- The loop of `main`: every input line goes through a handler on the one
store, and the responses other than `FundResponse{}` are written out, in order. -/
def processFunds (lib : Lib) : List String → Cache → List FundResponse × Cache
  | [], c => ([], c)
  | input :: rest, c =>
    let r := FundHandler.Run lib LoadFund input c
    let out := processFunds lib rest r.2
    if r.1 = FundResponse.zero then out else (r.1 :: out.1, out.2)

/-- The `Fund` that `Run` builds from a request text and passes to the service
(lines 42 to 66); `none` where `Run` returns before it reaches the service. -/
def requestFund (lib : Lib) (req : String) : Option Fund :=
  match lib.Unmarshal req with
  | none => none
  | some input =>
    if validateStruct input = false then none
    else
      match lib.ParseFloat (TrimPrefix input.LoadAmount "$") with
      | none => none
      | some amount =>
        match lib.Parse input.Time with
        | none => none
        | some timestamp =>
          some { ID := input.ID, CustomerID := input.CustomerID, LoadAmount := amount,
                 Time := timestamp }

/-- The response `Run` builds from what the service returned for `fund`
(lines 68 to 84). -/
def responseOf (fund : Fund) (ret : Bool × Option String) : FundResponse :=
  match ret with
  | (true, _) => FundResponse.zero
  | (false, some _) => { ID := fund.ID, CustomerID := fund.CustomerID, Accepted := false }
  | (false, none) => { ID := fund.ID, CustomerID := fund.CustomerID, Accepted := true }

/-! ## The library functions on the inputs of the examples

`goLib` gives the three library functions on the request texts the examples
use: JSON objects of string members, plain decimal numbers, and RFC 3339 times
with whole seconds. On a text outside these forms each function returns `none`;
Go fails on some of those texts and accepts others, which are not modelled, so
the general theorems are stated for every `Lib` and `goLib` serves the concrete
inputs only. -/

/-- The double quote. -/
def chQuote : Char := Char.ofNat 34

/-- The backslash. -/
def chBackslash : Char := Char.ofNat 92

/-- The opening brace. -/
def chOpen : Char := Char.ofNat 123

/-- The closing brace. -/
def chClose : Char := Char.ofNat 125

/-- Drop leading JSON white space. -/
def skipSpace : List Char → List Char
  | [] => []
  | ch :: rest =>
    if ch = ' ' ∨ ch = '\t' ∨ ch = '\n' ∨ ch = '\r' then skipSpace rest else ch :: rest

/-- The characters of a JSON string from behind its opening quote to its
closing quote, and the text behind it; `none` for a string that does not end,
that holds a control character, or that holds an escape (not modelled). -/
def readString : List Char → Option (List Char × List Char)
  | [] => none
  | ch :: rest =>
    if ch = chQuote then some ([], rest)
    else if ch = chBackslash ∨ ch.toNat < 32 then none
    else (readString rest).map (fun p => (ch :: p.1, p.2))

/-- The members `"key": "value"` of a JSON object from behind its opening brace
to its closing brace, and the text behind it. -/
def readMembers : Nat → List Char → Option (List (String × String) × List Char)
  | 0, _ => none
  | fuel + 1, cs =>
    match skipSpace cs with
    | q :: rest =>
      if q = chQuote then
        match readString rest with
        | none => none
        | some (key, rest1) =>
          match skipSpace rest1 with
          | ':' :: rest2 =>
            match skipSpace rest2 with
            | q2 :: rest3 =>
              if q2 = chQuote then
                match readString rest3 with
                | none => none
                | some (val, rest4) =>
                  match skipSpace rest4 with
                  | sep :: rest5 =>
                    if sep = ',' then
                      (readMembers fuel rest5).map
                        (fun p => ((String.mk key, String.mk val) :: p.1, p.2))
                    else if sep = chClose then some ([(String.mk key, String.mk val)], rest5)
                    else none
                  | [] => none
              else none
            | [] => none
          | _ => none
      else none
    | [] => none

/-- ASCII lower case of a letter. -/
def lowerASCII (ch : Char) : Char :=
  if 'A' ≤ ch ∧ ch ≤ 'Z' then Char.ofNat (ch.toNat + 32) else ch

/-- Store one member in the request the way `encoding/json` does for the tags
of `fundRequest`: the key is matched without regard to case, a key that names
no field is skipped. `none` for a key with a character outside ASCII (not
modelled). -/
def setField (input : fundRequest) (member : String × String) : Option fundRequest :=
  if member.1.data.all (fun ch => decide (ch.toNat < 128)) then
    let key := String.mk (member.1.data.map lowerASCII)
    if key = "id" then some { input with ID := member.2 }
    else if key = "customer_id" then some { input with CustomerID := member.2 }
    else if key = "load_amount" then some { input with LoadAmount := member.2 }
    else if key = "time" then some { input with Time := member.2 }
    else some input
  else none

/-- Store the members in order; a later member overwrites an earlier one. -/
def setFields : fundRequest → List (String × String) → Option fundRequest
  | input, [] => some input
  | input, member :: rest =>
    match setField input member with
    | none => none
    | some next => setFields next rest

/-- Go's `json.Unmarshal` into a zero `fundRequest`, for a JSON object whose
members are strings without escapes. -/
def goUnmarshal (req : String) : Option fundRequest :=
  match skipSpace req.data with
  | [] => none
  | open1 :: rest =>
    if open1 = chOpen then
      match skipSpace rest with
      | [] => none
      | first :: rest1 =>
        if first = chClose then
          if skipSpace rest1 = [] then some ⟨"", "", "", ""⟩ else none
        else
          match readMembers (rest.length + 1) rest with
          | none => none
          | some (members, tail) =>
            if skipSpace tail = [] then setFields ⟨"", "", "", ""⟩ members else none
    else none

/-- The value of a run of decimal digits read onto `acc`, the number of digits,
and the text behind them. -/
def readDigits : List Char → Nat → Nat → Nat × Nat × List Char
  | [], acc, n => (acc, n, [])
  | ch :: rest, acc, n =>
    if '0' ≤ ch ∧ ch ≤ '9' then readDigits rest (10 * acc + (ch.toNat - 48)) (n + 1)
    else (acc, n, ch :: rest)

/-- The range check of `strconv.ParseFloat`: a number that rounds to an
infinity is beyond the range of `float64` and gives the range error. -/
def inRange : F64 → Option F64
  | F64.inf _ => none
  | x => some x

/-- The magnitude of a plain decimal number: digits, with a decimal point
before, between or behind them. -/
def readDecimal (neg : Bool) (cs : List Char) : Option F64 :=
  match readDigits cs 0 0 with
  | (whole, n1, []) => if n1 = 0 then none else inRange (F64.ofDecimal neg whole 0)
  | (whole, n1, ch :: rest) =>
    if ch = '.' then
      match readDigits rest whole 0 with
      | (digits, n2, []) => if n1 + n2 = 0 then none else inRange (F64.ofDecimal neg digits n2)
      | _ => none
    else none

/-- Go's `strconv.ParseFloat(s, 64)` for a plain decimal number with an optional
sign: the nearest `float64`, and an error for a number beyond its range.
Exponents, hexadecimal numbers, underscores and the words for infinity and NaN
are not modelled. -/
def goParseFloat (s : String) : Option F64 :=
  match s.data with
  | [] => none
  | ch :: rest =>
    if ch = '-' then readDecimal true rest
    else if ch = '+' then readDecimal false rest
    else readDecimal false (ch :: rest)

/-- Exactly `n` decimal digits at the head of the text: their value and the text
behind them. -/
def readFixed : Nat → List Char → Nat → Option (Nat × List Char)
  | 0, cs, acc => some (acc, cs)
  | n + 1, ch :: rest, acc =>
    if '0' ≤ ch ∧ ch ≤ '9' then readFixed n rest (10 * acc + (ch.toNat - 48)) else none
  | _ + 1, [], _ => none

/-- The text behind the character `ch`, when the text starts with it. -/
def expect (ch : Char) : List Char → Option (List Char)
  | [] => none
  | first :: rest => if first = ch then some rest else none

/-- Days of the month `m` of the year `y`. -/
def daysIn (y m : Nat) : Nat :=
  if m = 2 then (if y % 4 = 0 ∧ (y % 100 ≠ 0 ∨ y % 400 = 0) then 29 else 28)
  else if m = 4 ∨ m = 6 ∨ m = 9 ∨ m = 11 then 30
  else 31

/-- Numbers of fixed widths in a row, each behind its separator when it has
one: their values and the text behind them. -/
def readFields : List (Option Char × Nat) → List Char → Option (List Nat × List Char)
  | [], cs => some ([], cs)
  | (sep, width) :: more, cs =>
    match (match sep with
      | none => some cs
      | some ch => expect ch cs) with
    | none => none
    | some cs1 =>
      match readFixed width cs1 0 with
      | none => none
      | some (v, cs2) =>
        match readFields more cs2 with
        | none => none
        | some (vs, cs3) => some (v :: vs, cs3)

/-- The zone behind the seconds: `Z`, or a sign with hours and minutes. The
result is the offset in seconds east of UTC. -/
def readZone : List Char → Option Int
  | [] => none
  | ch :: rest =>
    if ch = 'Z' then (if rest = [] then some 0 else none)
    else if ch = '+' ∨ ch = '-' then
      match readFields [(none, 2), (some ':', 2)] rest with
      | some ([hh, mm], []) =>
        if hh < 24 ∧ mm < 60 then
          some (if ch = '-' then -(((hh * 60 + mm) * 60 : Nat) : Int)
            else (((hh * 60 + mm) * 60 : Nat) : Int))
        else none
      | _ => none
    else none

/-- The date and clock fields are within their ranges. -/
def validFields (y m d hh mi ss : Nat) : Bool :=
  decide (1 ≤ m) && decide (m ≤ 12) && decide (1 ≤ d) && decide (d ≤ daysIn y m)
    && decide (hh < 24) && decide (mi < 60) && decide (ss < 60)

/-- Go's `time.Parse(time.RFC3339, s)` for a text of the form
`2006-01-02T15:04:05` followed by `Z` or by an offset `+07:00`, every field with
its full number of digits and within its range. Fractions of a second and
one-digit hours are not modelled. -/
def goParse (s : String) : Option Time :=
  match readFields [(none, 4), (some '-', 2), (some '-', 2), (some 'T', 2), (some ':', 2),
      (some ':', 2)] s.data with
  | some ([y, m, d, hh, mi, ss], rest) =>
    match readZone rest with
    | none => none
    | some offset =>
      if validFields y m d hh mi ss then some (Date y m d hh mi ss 0 offset) else none
  | _ => none

/-- The library functions on the inputs of the examples. -/
def goLib : Lib := { Unmarshal := goUnmarshal, ParseFloat := goParseFloat, Parse := goParse }

/-- A request text: `\x7b"id":"..","customer_id":"..","load_amount":"..","time":".."\x7d`. -/
def requestText (id customer amount time : String) : String :=
  "\x7b\"id\":\"" ++ id ++ "\",\"customer_id\":\"" ++ customer ++ "\",\"load_amount\":\""
    ++ amount ++ "\",\"time\":\"" ++ time ++ "\"\x7d"

/-- The day-key of the calendar day `z` days after 1970-01-01. -/
def dayKeyOf (z : Int) : String :=
  Time.formatMonthDay (civilOfDays z).2.1 (civilOfDays z).2.2

/-- Go's weekday number of the calendar day `z` days after 1970-01-01
(Sunday = 0). -/
def weekdayOf (z : Int) : Nat := ((z + 4) % 7).toNat

/-- The first request of the end-to-end scenario: load 1 of customer 18,
4000.00 on Monday 2020-01-06 at 10:00 UTC. -/
def line1 : String := requestText "1" "18" "$4000.00" "2020-01-06T10:00:00Z"

/-- The second request of the scenario: load 2 of customer 18, 2000.00 on the
same day at 11:00 UTC. -/
def line2 : String := requestText "2" "18" "$2000.00" "2020-01-06T11:00:00Z"

/-- The `Fund` of `line1`. -/
def fund1 : Fund :=
  { ID := "1", CustomerID := "18", LoadAmount := F64.ofDecimal false 400000 2,
    Time := Date 2020 1 6 10 0 0 0 0 }

/-- The `Fund` of `line2`. -/
def fund2 : Fund :=
  { ID := "2", CustomerID := "18", LoadAmount := F64.ofDecimal false 200000 2,
    Time := Date 2020 1 6 11 0 0 0 0 }

/-- A request with a negative amount: load 3 of customer 18, `$-5.00`. -/
def lineNegative : String := requestText "3" "18" "$-5.00" "2020-01-06T10:00:00Z"

/-- The text of `TestInvalidJsonString`, which is no JSON. -/
def lineNoJSON : String :=
  "\x7b:\"324\",\"load_amount\":\"$4810.91\",\"time\":\"2000-02-05T17:05:16Z\"\x7d"

/-- A request without the member `time`. -/
def lineNoTime : String :=
  "\x7b\"id\":\"16710\",\"customer_id\":\"783\",\"load_amount\":\"$750.87\"\x7d"

/-- Thursday 2020-11-19, 09:00 UTC. -/
def thursday : Time := Date 2020 11 19 9 0 0 0 0

/-- The amount `5000.00`. -/
def amt5000 : F64 := F64.ofDecimal false 500000 2

/-- Five loads of 5000.00 of customer 18 in the week of Monday 2020-11-16, in
the order of their times: Monday, Tuesday, Wednesday, Thursday and Sunday. -/
def weekLoads : List Fund :=
  [⟨"1", "18", amt5000, monday⟩, ⟨"2", "18", amt5000, tuesday⟩,
   ⟨"3", "18", amt5000, wednesday⟩, ⟨"4", "18", amt5000, thursday⟩,
   ⟨"5", "18", amt5000, sunday⟩]

/-- All loads recorded in a ledger map, bucket after bucket. -/
def TxMap.loads (m : TxMap) : List Fund := m.entries.flatMap (fun p => p.2)

/-- The times of a sequence of requests never go back. -/
def inTimeOrder : List Fund → Bool
  | [] => true
  | [_] => true
  | f :: g :: rest => decide (f.Time.sec ≤ g.Time.sec) && inTimeOrder (g :: rest)

/-! ## The daily caps as an invariant of the store -/

namespace F64

/-- The exact value of a finite `float64` in units of `2^(-1074)`; `none` for
NaN and the infinities. -/
def units : F64 → Option Int
  | fin neg k => some (signed neg k)
  | _ => none

end F64

/-- The exact sum of the amounts of a bucket, in units of `2^(-1074)`, when
every amount is finite. -/
def exactSum : List Fund → Option Int
  | [] => some 0
  | load :: rest =>
    match load.LoadAmount.units, exactSum rest with
    | some x, some s => some (x + s)
    | _, _ => none

/-- The daily caps as `checkDailyLimit` tests them, on every bucket of an
account: at most `DailyNumberOfLoadsLimit` loads, and the `float64` total of
the amounts, added in the order recorded from the zero total, not greater than
`DailyFundLimit`. -/
def DailyCaps (a : CustomerAccount) : Prop :=
  ∀ key, (a.Transactions.get key).length ≤ DailyNumberOfLoadsLimit
    ∧ F64.gt (sumLoads F64.zero (a.Transactions.get key)) DailyFundLimit = false

/-- Every stored account keeps the daily caps. -/
def CapsStore (c : Cache) : Prop := ∀ k a, c.Get k = some a → DailyCaps a

/-- The amount `0.0000000000001`, as `strconv.ParseFloat` reads it. -/
def amtTiny : F64 := F64.ofDecimal false 1 13

/-- Two loads of customer 18 on `monday`: 5000.00, then 0.0000000000001. -/
def capLoads : List Fund :=
  [⟨"1", "18", amt5000, monday⟩, ⟨"2", "18", amtTiny, monday⟩]

/-! ## The store with its map objects

A Go map is a reference: the `CustomerAccount` values in the store hold the
address of a map object, and two values may hold the same address. `Cache`
above keeps, for every key, the account with the content of its map; that is
the whole state as long as no two entries share a map object. `ObjStore` keeps
the map objects apart from the entries, so that a store whose entries share a
map object is a value of it, and `ObjStore.LoadFund` is `LoadFund` of
`service.go` on it, the write at line 65 going into the map object. -/

/-- A `CustomerAccount` as the store holds it: the field `Transactions` is the
address of a map object, `none` for the nil map. -/
structure AccountRef where
  ID : String
  LoadIDs : List String
  Transactions : Option Nat
deriving DecidableEq, Repr

/-- The go-cache store with the map objects its accounts refer to: the entry of
every key, the content of the map object at every address, and the address of
the map object the next `make` creates. -/
structure ObjStore where
  entries : String → Option AccountRef
  maps : Nat → TxMap
  next : Nat

namespace ObjStore

/-- The store `cache.New` returns, no map object made yet. -/
def empty : ObjStore := { entries := fun _ => none, maps := fun _ => TxMap.empty, next := 0 }

/-- Go's `c.Get(k)`. -/
def Get (s : ObjStore) (k : String) : Option AccountRef := s.entries k

/-- Go's `c.Set(k, x, cache.DefaultExpiration)`. -/
def Set (s : ObjStore) (k : String) (x : AccountRef) : ObjStore :=
  { s with entries := fun j => if j = k then some x else s.entries j }

/-- The content of the map a `Transactions` field refers to; the nil map reads
as the empty map. -/
def mapOf (s : ObjStore) (ref : Option Nat) : TxMap :=
  match ref with
  | none => TxMap.empty
  | some p => s.maps p

/-- The account a stored value shows: its fields, with the content of its map. -/
def deref (s : ObjStore) (a : AccountRef) : CustomerAccount :=
  { ID := a.ID, LoadIDs := a.LoadIDs, Transactions := s.mapOf a.Transactions }

/-- A write into the map object at the address `p`: its content is `tx`
afterwards. -/
def writeMap (s : ObjStore) (p : Nat) (tx : TxMap) : ObjStore :=
  { s with maps := fun q => if q = p then tx else s.maps q }

/-- Go's `make(map[string][]Fund)`: a new map object, empty, at the address
`s.next`. -/
def make (s : ObjStore) : ObjStore :=
  { s with maps := fun q => if q = s.next then TxMap.empty else s.maps q, next := s.next + 1 }

/-- The store of accounts the object store shows: under every key the account
of its entry, with the content of its map. -/
def view (s : ObjStore) : Cache := fun k => (s.entries k).map s.deref

/-- The stored value `LoadFund` works on (lines 38 to 44): the one under
`fund.CustomerID`, or a fresh one with that ID and the nil map. -/
def accountFor (fund : Fund) (s : ObjStore) : AccountRef :=
  match s.Get fund.CustomerID with
  | some x => x
  | none => { ID := fund.CustomerID, LoadIDs := [], Transactions := none }

/-- Go's `LoadFund`, on the store with its map objects: the returned pair
`(bool, error)` and the store afterwards. The checks read the account with the
content of its map. When the map is empty a new map object is made and the
account stored refers to it; otherwise the bucket is written into the map
object the account refers to, where every entry that holds its address shows
it. -/
def LoadFund (fund : Fund) (s : ObjStore) : (Bool × Option String) × ObjStore :=
  let a := accountFor fund s
  match (s.deref a).checkIfLoadExists fund.ID with
  | some err => ((true, some err), s)
  | none =>
    let a1 : AccountRef := { a with LoadIDs := a.LoadIDs ++ [fund.ID] }
    let s1 := s.Set a1.ID a1
    match (s1.deref a1).checkDailyLimit fund with
    | some err => ((false, some err), s1)
    | none =>
      match (s1.deref a1).checkWeeklyLimit fund with
      | some err => ((false, some err), s1)
      | none =>
        let date := fund.Time.Format
        if (s1.mapOf a1.Transactions).len = 0 then
          let s2 := s1.make
          let p := s1.next
          let s3 := s2.writeMap p ((s2.maps p).set date [fund])
          let a2 : AccountRef := { a1 with Transactions := some p }
          ((false, none), s3.Set a2.ID a2)
        else
          match a1.Transactions with
          | none => ((false, none), s1.Set a1.ID a1)
          | some p =>
            let s2 := s1.writeMap p ((s1.maps p).set date ((s1.maps p).get date ++ [fund]))
            ((false, none), s2.Set a1.ID a1)

/-- The store after a sequence of calls of `LoadFund`, in order. -/
def LoadFunds (funds : List Fund) (s : ObjStore) : ObjStore :=
  funds.foldl (fun st fund => (LoadFund fund st).2) s

/-- Every map address an entry holds has been made. -/
def Made (s : ObjStore) : Prop :=
  ∀ k a p, s.Get k = some a → a.Transactions = some p → p < s.next

/-- The entries under `k` and `j` hold no map object in common. -/
def Apart (s : ObjStore) (k j : String) : Prop :=
  ∀ a b p, s.Get k = some a → s.Get j = some b →
    a.Transactions = some p → b.Transactions ≠ some p

/-- No two entries of the store hold a map object in common. -/
def Unshared (s : ObjStore) : Prop := ∀ k j, k ≠ j → s.Apart k j

end ObjStore

/-- A store filed by ID whose entries 18 and 19 hold the one map object at the
address 0, with a load of 1000.00 of customer 18 on `monday` in it. -/
def sharedStore : ObjStore :=
  { entries := fun k =>
      if k = "18" then some ⟨"18", ["1"], some 0⟩
      else if k = "19" then some ⟨"19", [], some 0⟩
      else none
    maps := fun _ => ⟨[(monday.Format, [⟨"1", "18", F64.ofDecimal false 100000 2, monday⟩])]⟩
    next := 1 }

/-- The same two accounts, each with a map object of its own: entry 18 holds
the address 0 and entry 19 the address 1. -/
def apartStore : ObjStore :=
  { entries := fun k =>
      if k = "18" then some ⟨"18", ["1"], some 0⟩
      else if k = "19" then some ⟨"19", [], some 1⟩
      else none
    maps := fun _ => ⟨[(monday.Format, [⟨"1", "18", F64.ofDecimal false 100000 2, monday⟩])]⟩
    next := 2 }

/-! ## Basic facts -/

theorem find_eq_true_iff (haystack : List String) (needle : String) :
    find haystack needle = true ↔ needle ∈ haystack := by
  induction haystack with
  | nil => simp [find]
  | cons value rest ih =>
    by_cases h : value = needle
    · simp [find, h]
    · have h2 : ¬ needle = value := fun e => h e.symm
      simp [find, h, h2, ih]

theorem checkIfLoadExists_of_mem (a : CustomerAccount) (loadID : String)
    (h : loadID ∈ a.LoadIDs) :
    a.checkIfLoadExists loadID = some ("loadID: " ++ loadID ++ " exists") := by
  simp [CustomerAccount.checkIfLoadExists, (find_eq_true_iff a.LoadIDs loadID).2 h]

theorem checkIfLoadExists_of_not_mem (a : CustomerAccount) (loadID : String)
    (h : loadID ∉ a.LoadIDs) : a.checkIfLoadExists loadID = none := by
  have hf : find a.LoadIDs loadID = false := by
    cases hfind : find a.LoadIDs loadID with
    | false => rfl
    | true => exact absurd ((find_eq_true_iff a.LoadIDs loadID).1 hfind) h
  simp [CustomerAccount.checkIfLoadExists, hf]

theorem accountFor_of_get (fund : Fund) (c : Cache) (a : CustomerAccount)
    (h : c.Get fund.CustomerID = some a) : accountFor fund c = a := by
  simp [accountFor, h]

/-! ## Dates and day-keys -/

/-- Year of era and day of year in `civilOfDays`: the bounds that make the
conversion invertible. -/
theorem doy_bounds (doe yoe : Int) (h0 : 0 ≤ doe) (h1 : doe ≤ 146096)
    (hy : yoe = (doe - doe / 1460 + doe / 36524 - doe / 146096) / 365) :
    0 ≤ yoe ∧ yoe ≤ 399 ∧ 0 ≤ doe - (365 * yoe + yoe / 4 - yoe / 100) ∧
    doe - (365 * yoe + yoe / 4 - yoe / 100) ≤ 365 := by
  have hb : 0 ≤ yoe ∧ yoe ≤ 399 := by omega
  obtain ⟨hb0, hb1⟩ := hb
  have hc : 0 ≤ doe / 36524 ∧ doe / 36524 ≤ 4 := by omega
  have hg : 0 ≤ yoe / 100 ∧ yoe / 100 ≤ 3 := by omega
  obtain ⟨hc0, hc1⟩ := hc
  obtain ⟨hg0, hg1⟩ := hg
  refine ⟨hb0, hb1, ?_⟩
  generalize hcd : doe / 36524 = cc at *
  generalize hgd : yoe / 100 = gg at *
  interval_cases cc <;> interval_cases gg <;> omega

theorem civilOfDays_bounds (z : Int) :
    1 ≤ (civilOfDays z).2.1 ∧ (civilOfDays z).2.1 ≤ 12
    ∧ 1 ≤ (civilOfDays z).2.2 ∧ (civilOfDays z).2.2 ≤ 31 := by
  have hdoe0 : 0 ≤ (z + 719468) % 146097 := Int.emod_nonneg _ (by decide)
  have hdoe1 : (z + 719468) % 146097 ≤ 146096 := by omega
  obtain ⟨_, _, hd0, hd1⟩ := doy_bounds ((z + 719468) % 146097) _ hdoe0 hdoe1 rfl
  simp only [civilOfDays]
  generalize ((z + 719468) % 146097 - (365 * (((z + 719468) % 146097 - (z + 719468) % 146097 / 1460 + (z + 719468) % 146097 / 36524 - (z + 719468) % 146097 / 146096) / 365) + (((z + 719468) % 146097 - (z + 719468) % 146097 / 1460 + (z + 719468) % 146097 / 36524 - (z + 719468) % 146097 / 146096) / 365) / 4 - (((z + 719468) % 146097 - (z + 719468) % 146097 / 1460 + (z + 719468) % 146097 / 36524 - (z + 719468) % 146097 / 146096) / 365) / 100)) = doy at hd0 hd1 ⊢
  split_ifs <;> omega

theorem daysOfCivil_civilOfDays (z : Int) :
    daysOfCivil (civilOfDays z).1 (civilOfDays z).2.1 (civilOfDays z).2.2 = z := by
  have hdoe0 : 0 ≤ (z + 719468) % 146097 := Int.emod_nonneg _ (by decide)
  have hdoe1 : (z + 719468) % 146097 ≤ 146096 := by omega
  obtain ⟨hy0, hy1, hd0, hd1⟩ := doy_bounds ((z + 719468) % 146097) _ hdoe0 hdoe1 rfl
  simp only [civilOfDays, daysOfCivil]
  generalize hyoe : ((z + 719468) % 146097 - (z + 719468) % 146097 / 1460 + (z + 719468) % 146097 / 36524 - (z + 719468) % 146097 / 146096) / 365 = yoe at hy0 hy1 hd0 hd1 ⊢
  generalize hdoy : (z + 719468) % 146097 - (365 * yoe + yoe / 4 - yoe / 100) = doy at hd0 hd1 ⊢
  generalize hera : (z + 719468) / 146097 = era at *
  have hk : (yoe + era * 400) / 400 = era := by omega
  have hm : (yoe + era * 400) % 400 = yoe := by omega
  have hmp : 0 ≤ (5 * doy + 2) / 153 ∧ (5 * doy + 2) / 153 ≤ 11 := by omega
  generalize hmpd : (5 * doy + 2) / 153 = mp at *
  split_ifs <;> first
    | omega
    | (simp only [add_sub_cancel_right, hk, hm]; omega)

theorem daysOfCivil_add_day (y m d n : Int) :
    daysOfCivil y m (d + n) = daysOfCivil y m d + n := by
  simp only [daysOfCivil]
  omega

/-- Go's `t.AddDate(0, 0, n)` moves the wall-clock day number by `n` and keeps
the zone and the time of day, for a `Time` whose nanoseconds are below one
second. -/
theorem Time.AddDate_days (t : Time) (n : Int) (h : t.nsec < 1000000000) :
    (t.AddDate 0 0 n).days = t.days + n
    ∧ (t.AddDate 0 0 n).offset = t.offset
    ∧ (t.AddDate 0 0 n).abs % 86400 = t.abs % 86400 := by
  obtain ⟨hm1, hm12, _, _⟩ := civilOfDays_bounds t.days
  have hr := daysOfCivil_civilOfDays t.days
  have hlin := daysOfCivil_add_day (civilOfDays t.days).1 (civilOfDays t.days).2.1
    (civilOfDays t.days).2.2 n
  have hy : (civilOfDays t.days).1 + 0 + ((civilOfDays t.days).2.1 + 0 - 1) / 12
      = (civilOfDays t.days).1 := by omega
  have hmo : ((civilOfDays t.days).2.1 + 0 - 1) % 12 + 1 = (civilOfDays t.days).2.1 := by omega
  have hns : ((t.nsec : Nat) : Int) / 1000000000 = 0 := by omega
  simp only [Time.AddDate, Date, Time.days, Time.abs, Time.Year, Time.Month, Time.Day,
    Time.Hour, Time.Minute, Time.Second] at *
  rw [hy, hmo, hlin, hr, hns]
  refine ⟨?_, trivial, ?_⟩ <;> omega

set_option maxRecDepth 100000 in
theorem keyMonthDay_formatMonthDay :
    ∀ m < 13, ∀ d < 32,
      keyMonthDay (Time.formatMonthDay (Int.ofNat m) (Int.ofNat d))
        = (Int.ofNat m, Int.ofNat d) := by
  decide

/-- The day-keys of two times are equal exactly when the times agree in month
and day of month. -/
theorem Time.Format_eq_iff (t1 t2 : Time) :
    t1.Format = t2.Format ↔ (t1.Month = t2.Month ∧ t1.Day = t2.Day) := by
  constructor
  · intro h
    have key : ∀ t : Time, keyMonthDay t.Format = (t.Month, t.Day) := by
      intro t
      obtain ⟨hm1, hm12, hd1, hd31⟩ := civilOfDays_bounds t.days
      have hm : t.Month = Int.ofNat t.Month.toNat := by
        simp only [Time.Month, Int.ofNat_eq_coe]
        omega
      have hd : t.Day = Int.ofNat t.Day.toNat := by
        simp only [Time.Day, Int.ofNat_eq_coe]
        omega
      have hlt1 : t.Month.toNat < 13 := by
        simp only [Time.Month]
        omega
      have hlt2 : t.Day.toNat < 32 := by
        simp only [Time.Day]
        omega
      have := keyMonthDay_formatMonthDay _ hlt1 _ hlt2
      rw [← hm, ← hd] at this
      exact this
    have h2 := congrArg keyMonthDay h
    rw [key t1, key t2] at h2
    exact ⟨congrArg Prod.fst h2, congrArg Prod.snd h2⟩
  · rintro ⟨hm, hd⟩
    simp only [Time.Format, hm, hd]

/-! ## C1: a duplicate load ID -/

/-- C1. For every store and every request whose ID already occurs in the
LoadIDs of the account stored for `request.CustomerID`, `LoadFund` returns
`(true, error "loadID: <id> exists")` and the store afterwards is the store
before: no entry is written. -/
theorem LoadFund_duplicate (c : Cache) (fund : Fund) (a : CustomerAccount)
    (hget : c.Get fund.CustomerID = some a) (hmem : fund.ID ∈ a.LoadIDs) :
    LoadFund fund c = ((true, some ("loadID: " ++ fund.ID ++ " exists")), c) := by
  have ha : accountFor fund c = a := accountFor_of_get fund c a hget
  simp only [LoadFund, ha, checkIfLoadExists_of_mem a fund.ID hmem]

/-- C1 at the input of `TestLoadIDExists`: customer 18 has load 29360 recorded
and load 29360 is submitted again. -/
theorem LoadFund_duplicate_witness :
    LoadFund (⟨"29360", "18", F64.ofDecimal false 400000 2, wednesday⟩ : Fund)
        (storeOf ⟨"18", ["29360"],
          ⟨[(wednesday.Format, [⟨"29360", "18", F64.ofDecimal false 400000 2, wednesday⟩])]⟩⟩)
      = ((true, some "loadID: 29360 exists"),
        storeOf ⟨"18", ["29360"],
          ⟨[(wednesday.Format, [⟨"29360", "18", F64.ofDecimal false 400000 2, wednesday⟩])]⟩⟩) :=
  LoadFund_duplicate _ _ _ (by rfl) (by decide)

/-! ## C2: the daily limits -/

/-- The daily checks read the ledger only: the list of seen load IDs plays no
part in them. -/
theorem checkDailyLimit_loadIDs (a : CustomerAccount) (ids : List String) (fund : Fund) :
    ({ a with LoadIDs := ids } : CustomerAccount).checkDailyLimit fund
      = a.checkDailyLimit fund := rfl

theorem checkWeeklyLimit_loadIDs (a : CustomerAccount) (ids : List String) (fund : Fund) :
    ({ a with LoadIDs := ids } : CustomerAccount).checkWeeklyLimit fund
      = a.checkWeeklyLimit fund := rfl

/-- No `float64` is greater than itself. -/
theorem F64.gt_self (x : F64) : F64.gt x x = false := by
  cases x with
  | nan => rfl
  | inf n => cases n <;> rfl
  | fin n k => simp [F64.gt]

set_option maxRecDepth 100000 in
theorem gt_4999_99_plus_0_01 :
    F64.gt (F64.add (F64.ofDecimal false 499999 2) (F64.ofDecimal false 1 2)) DailyFundLimit
      = false := by decide

set_option maxRecDepth 100000 in
theorem gt_4999_99_plus_0_02 :
    F64.gt (F64.add (F64.ofDecimal false 499999 2) (F64.ofDecimal false 2 2)) DailyFundLimit
      = true := by decide

set_option maxRecDepth 100000 in
theorem zero_add_4999_99 :
    F64.add F64.zero (F64.ofDecimal false 499999 2) = F64.ofDecimal false 499999 2 := by
  decide

set_option maxRecDepth 100000 in
theorem add_4999_99_0_01 :
    F64.add (F64.ofDecimal false 499999 2) (F64.ofDecimal false 1 2) = DailyFundLimit := by
  decide

set_option maxRecDepth 100000 in
/-- C2 fails on the sum of the amounts: the history 0.02, 4999.97 sums to
exactly 4999.99 and with the request 0.01 the total is exactly 5000.00, which is
not over the limit, but the `float64` total is over 5000.00 and
`checkDailyLimit` returns the daily fund limit error. -/
theorem checkDailyLimit_exact_total_rejected :
    2 + 499997 = 499999 ∧ 499999 + 1 = 500000
    ∧ ((dayAccount [F64.ofDecimal false 2 2, F64.ofDecimal false 499997 2]).Transactions.get
        wednesday.Format).length = 2
    ∧ F64.gt (F64.add (F64.add (F64.add F64.zero (F64.ofDecimal false 2 2))
        (F64.ofDecimal false 499997 2)) (F64.ofDecimal false 1 2)) DailyFundLimit = true
    ∧ (dayAccount [F64.ofDecimal false 2 2, F64.ofDecimal false 499997 2]).checkDailyLimit
        (request (F64.ofDecimal false 1 2) wednesday)
      = some "accountID: 18 exceed daily fund limit when process loadID: 29370" := by
  decide

/-- C2, with the total as the code computes it. `checkDailyLimit` returns an
error if and only if the bucket of the request's day-key already holds at least
3 loads, or the `float64` total of the amounts in that bucket, added one by one
from zero with every addition rounded, plus the request's amount is strictly
greater than 5000.00. Count and total are taken over the bucket as stored,
without the request. A `float64` total equal to 5000.00 passes: on a history
whose total is 4999.99 (fewer than 3 loads), as the bucket holding the one load
4999.99 is, a load of 0.01 passes, its total being 5000.00, and a load of 0.02
fails with the daily fund limit error. -/
theorem checkDailyLimit_error_iff :
    (∀ (a : CustomerAccount) (fund : Fund),
      (a.checkDailyLimit fund ≠ none ↔
        (3 ≤ (a.Transactions.get fund.Time.Format).length ∨
          F64.gt (F64.add (sumLoads F64.zero (a.Transactions.get fund.Time.Format))
            fund.LoadAmount) DailyFundLimit = true)))
    ∧ (∀ (a : CustomerAccount) (fund : Fund),
        (a.Transactions.get fund.Time.Format).length < 3 →
        F64.add (sumLoads F64.zero (a.Transactions.get fund.Time.Format)) fund.LoadAmount
          = DailyFundLimit →
        a.checkDailyLimit fund = none)
    ∧ (∀ (a : CustomerAccount) (fund : Fund),
        (a.Transactions.get fund.Time.Format).length < 3 →
        sumLoads F64.zero (a.Transactions.get fund.Time.Format) = F64.ofDecimal false 499999 2 →
        (fund.LoadAmount = F64.ofDecimal false 1 2 →
          F64.add (sumLoads F64.zero (a.Transactions.get fund.Time.Format)) fund.LoadAmount
            = DailyFundLimit ∧ a.checkDailyLimit fund = none)
        ∧ (fund.LoadAmount = F64.ofDecimal false 2 2 →
          a.checkDailyLimit fund = some ("accountID: " ++ a.ID
            ++ " exceed daily fund limit when process loadID: " ++ fund.ID)))
    ∧ (∀ (a : CustomerAccount) (fund load : Fund),
        a.Transactions.get fund.Time.Format = [load] →
        load.LoadAmount = F64.ofDecimal false 499999 2 →
        (fund.LoadAmount = F64.ofDecimal false 1 2 → a.checkDailyLimit fund = none)
        ∧ (fund.LoadAmount = F64.ofDecimal false 2 2 →
          a.checkDailyLimit fund = some ("accountID: " ++ a.ID
            ++ " exceed daily fund limit when process loadID: " ++ fund.ID))) := by
  have part3 : ∀ (a : CustomerAccount) (fund : Fund),
      (a.Transactions.get fund.Time.Format).length < 3 →
      sumLoads F64.zero (a.Transactions.get fund.Time.Format) = F64.ofDecimal false 499999 2 →
      (fund.LoadAmount = F64.ofDecimal false 1 2 →
        F64.add (sumLoads F64.zero (a.Transactions.get fund.Time.Format)) fund.LoadAmount
          = DailyFundLimit ∧ a.checkDailyLimit fund = none)
      ∧ (fund.LoadAmount = F64.ofDecimal false 2 2 →
        a.checkDailyLimit fund = some ("accountID: " ++ a.ID
          ++ " exceed daily fund limit when process loadID: " ++ fund.ID)) := by
    intro a fund hc hsum
    refine ⟨?_, ?_⟩
    · intro hamt
      have hg := gt_4999_99_plus_0_01
      refine ⟨by rw [hsum, hamt]; exact add_4999_99_0_01, ?_⟩
      unfold CustomerAccount.checkDailyLimit DailyNumberOfLoadsLimit
      simp [Nat.not_le.2 hc, hsum, hamt, hg]
    · intro hamt
      have hg := gt_4999_99_plus_0_02
      unfold CustomerAccount.checkDailyLimit DailyNumberOfLoadsLimit
      simp [Nat.not_le.2 hc, hsum, hamt, hg]
  refine ⟨?_, ?_, part3, ?_⟩
  · intro a fund
    unfold CustomerAccount.checkDailyLimit DailyNumberOfLoadsLimit
    by_cases hc : 3 ≤ (a.Transactions.get fund.Time.Format).length
    · simp [hc]
    · by_cases hg : F64.gt (F64.add (sumLoads F64.zero (a.Transactions.get fund.Time.Format))
          fund.LoadAmount) DailyFundLimit = true
      · simp [hc, hg]
      · simp [hc, hg]
  · intro a fund hc hsum
    have hg : F64.gt DailyFundLimit DailyFundLimit = false := F64.gt_self _
    unfold CustomerAccount.checkDailyLimit DailyNumberOfLoadsLimit
    simp [Nat.not_le.2 hc, hsum, hg]
  · intro a fund load hb hl
    have hsum : sumLoads F64.zero (a.Transactions.get fund.Time.Format)
        = F64.ofDecimal false 499999 2 := by
      rw [hb]
      show F64.add F64.zero load.LoadAmount = _
      rw [hl]
      exact zero_add_4999_99
    have hc : (a.Transactions.get fund.Time.Format).length < 3 := by
      rw [hb]
      exact Nat.lt_succ_of_lt (Nat.lt_succ_self 1)
    exact ⟨fun h => ((part3 a fund hc hsum).1 h).2, (part3 a fund hc hsum).2⟩

set_option maxRecDepth 100000 in
/-- C2 at concrete inputs: on the history 1000.00, 2000.00 of
`TestExceedDailyAmountLimitWithMultiple` a load of 2000.01 is an error, as the
equivalence says; on the history 4999.99 a load of 0.01 passes and a load of
0.02 is an error. -/
theorem checkDailyLimit_error_iff_witness :
    (dayAccount [F64.ofDecimal false 100000 2, F64.ofDecimal false 200000 2]).checkDailyLimit
        (request (F64.ofDecimal false 200001 2) wednesday) ≠ none
    ∧ (dayAccount [F64.ofDecimal false 499999 2]).checkDailyLimit
        (request (F64.ofDecimal false 1 2) wednesday) = none
    ∧ (dayAccount [F64.ofDecimal false 499999 2]).checkDailyLimit
        (request (F64.ofDecimal false 2 2) wednesday)
        = some "accountID: 18 exceed daily fund limit when process loadID: 29370" :=
  ⟨(checkDailyLimit_error_iff.1 _ _).2 (Or.inr (by decide)),
   ((checkDailyLimit_error_iff.2.2.1 (dayAccount [F64.ofDecimal false 499999 2])
      (request (F64.ofDecimal false 1 2) wednesday) (by decide) (by decide)).1 rfl).2,
   (checkDailyLimit_error_iff.2.2.1 (dayAccount [F64.ofDecimal false 499999 2])
      (request (F64.ofDecimal false 2 2) wednesday) (by decide) (by decide)).2 rfl⟩

/-! ## C3: the weekly limit on a Sunday -/

set_option maxRecDepth 100000 in
/-- C3, at the input the claim itself names: 10000.00 recorded on Monday
2020-11-16 and 10000.00 on Tuesday 2020-11-17, and a request of 0.01 on the
Sunday of that week, 2020-11-22. `Weekday()` is 0 on a Sunday, the loop of
`checkWeeklyLimit` does not run, and the check passes: `LoadFund` accepts the
load. The same request on the Saturday or the Wednesday of that week is
rejected with the weekly fund limit error. -/
theorem checkWeeklyLimit_sunday_passes :
    monday.Weekday = 1 ∧ tuesday.Weekday = 2 ∧ sunday.Weekday = 0
    ∧ sunday.days = monday.days + 6
    ∧ weekAccount.weeklyTotal (request (F64.ofDecimal false 1 2) sunday) = F64.zero
    ∧ weekAccount.checkWeeklyLimit (request (F64.ofDecimal false 1 2) sunday) = none
    ∧ (LoadFund (request (F64.ofDecimal false 1 2) sunday) (storeOf weekAccount)).1
        = (false, none)
    ∧ weekAccount.checkWeeklyLimit (request (F64.ofDecimal false 1 2) saturday)
        = some "accountID: 18 exceed weekly fund limit when process loadID: 29370"
    ∧ weekAccount.checkWeeklyLimit (request (F64.ofDecimal false 1 2) wednesday)
        = some "accountID: 18 exceed weekly fund limit when process loadID: 29370" := by
  decide

/-! ## The store and the ledger map -/

theorem TxMap.lookup_insert_same (k : String) (v : List Fund) (l : List (String × List Fund)) :
    TxMap.lookup k (TxMap.insert k v l) = v := by
  induction l with
  | nil => simp [TxMap.insert, TxMap.lookup]
  | cons p rest ih =>
    obtain ⟨k1, v1⟩ := p
    by_cases h : k1 = k
    · simp [TxMap.insert, TxMap.lookup, h]
    · simp [TxMap.insert, TxMap.lookup, h, ih]

theorem TxMap.lookup_insert_other (k j : String) (v : List Fund)
    (l : List (String × List Fund)) (h : j ≠ k) :
    TxMap.lookup j (TxMap.insert k v l) = TxMap.lookup j l := by
  induction l with
  | nil =>
    have h2 : ¬ k = j := fun e => h e.symm
    simp [TxMap.insert, TxMap.lookup, h2]
  | cons p rest ih =>
    obtain ⟨k1, v1⟩ := p
    by_cases h1 : k1 = k
    · have h2 : ¬ k = j := fun e => h e.symm
      simp [TxMap.insert, TxMap.lookup, h1, h2]
    · by_cases h3 : k1 = j
      · subst h3
        simp [TxMap.insert, TxMap.lookup, h1]
      · simp [TxMap.insert, TxMap.lookup, h1, h3, ih]

theorem TxMap.get_set_same (m : TxMap) (k : String) (v : List Fund) :
    (m.set k v).get k = v := TxMap.lookup_insert_same k v m.entries

theorem TxMap.get_set_other (m : TxMap) (k j : String) (v : List Fund) (h : j ≠ k) :
    (m.set k v).get j = m.get j := TxMap.lookup_insert_other k j v m.entries h

theorem TxMap.get_of_len_zero (m : TxMap) (h : m.len = 0) (k : String) : m.get k = [] := by
  obtain ⟨l⟩ := m
  cases l with
  | nil => rfl
  | cons p rest => simp [TxMap.len] at h

theorem Cache.Get_Set_eq (c : Cache) (k : String) (x : CustomerAccount) :
    (c.Set k x).Get k = some x := by
  simp [Cache.Set, Cache.Get]

theorem Cache.Get_Set_ne (c : Cache) (k j : String) (x : CustomerAccount) (h : j ≠ k) :
    (c.Set k x).Get j = c.Get j := by
  simp [Cache.Set, Cache.Get, h]

theorem Cache.Get_writeTx_eq (c : Cache) (k1 k2 : String) (tx : TxMap) :
    (c.writeTx k1 k2 tx).Get k1 = (c.Get k1).map (fun x => { x with Transactions := tx }) := by
  simp [Cache.writeTx, Cache.Get]

theorem Cache.Get_writeTx_ne (c : Cache) (k1 k2 j : String) (tx : TxMap)
    (h1 : j ≠ k1) (h2 : j ≠ k2) : (c.writeTx k1 k2 tx).Get j = c.Get j := by
  simp [Cache.writeTx, Cache.Get, h1, h2]

theorem recordedTx_get_same (a : CustomerAccount) (fund : Fund) :
    (recordedTx a fund).get fund.Time.Format = a.Transactions.get fund.Time.Format ++ [fund] := by
  unfold recordedTx
  by_cases h : a.Transactions.len = 0
  · simp [h, TxMap.get_set_same, TxMap.get_of_len_zero a.Transactions h]
  · simp [h, TxMap.get_set_same]

theorem recordedTx_get_other (a : CustomerAccount) (fund : Fund) (k : String)
    (hk : k ≠ fund.Time.Format) : (recordedTx a fund).get k = a.Transactions.get k := by
  unfold recordedTx
  by_cases h : a.Transactions.len = 0
  · simp only [h, if_true, TxMap.get_set_other _ _ _ _ hk,
      TxMap.get_of_len_zero a.Transactions h]
    rfl
  · simp only [h, if_false, TxMap.get_set_other _ _ _ _ hk]

/-! ## What `LoadFund` does, case by case -/

/-- An account that is not filed under the request's customer ID was found in
the store: a fresh account carries the customer ID. -/
theorem accountFor_found_of_ne (fund : Fund) (c : Cache)
    (h : (accountFor fund c).ID ≠ fund.CustomerID) :
    c.Get fund.CustomerID = some (accountFor fund c) := by
  unfold accountFor at h ⊢
  cases hget : c.Get fund.CustomerID with
  | some x => rfl
  | none => rw [hget] at h; exact absurd rfl h

/-- A request whose ID the account has seen. -/
theorem LoadFund_of_seen (c : Cache) (fund : Fund)
    (hmem : fund.ID ∈ (accountFor fund c).LoadIDs) :
    LoadFund fund c = ((true, some ("loadID: " ++ fund.ID ++ " exists")), c) := by
  simp only [LoadFund, checkIfLoadExists_of_mem _ fund.ID hmem]

/-- A non-duplicate request that fails the daily check. -/
theorem LoadFund_of_daily (c : Cache) (fund : Fund) (err : String)
    (hnew : fund.ID ∉ (accountFor fund c).LoadIDs)
    (hd : (accountFor fund c).checkDailyLimit fund = some err) :
    LoadFund fund c
      = ((false, some err), c.Set (accountFor fund c).ID (seenAccount fund c)) := by
  have h1 := checkIfLoadExists_of_not_mem _ _ hnew
  have h2 : (seenAccount fund c).checkDailyLimit fund = some err := hd
  unfold seenAccount at h2
  simp only [LoadFund, h1, h2, seenAccount]

/-- A non-duplicate request that passes the daily check and fails the weekly one. -/
theorem LoadFund_of_weekly (c : Cache) (fund : Fund) (err : String)
    (hnew : fund.ID ∉ (accountFor fund c).LoadIDs)
    (hd : (accountFor fund c).checkDailyLimit fund = none)
    (hw : (accountFor fund c).checkWeeklyLimit fund = some err) :
    LoadFund fund c
      = ((false, some err), c.Set (accountFor fund c).ID (seenAccount fund c)) := by
  have h1 := checkIfLoadExists_of_not_mem _ _ hnew
  have h2 : (seenAccount fund c).checkDailyLimit fund = none := hd
  have h3 : (seenAccount fund c).checkWeeklyLimit fund = some err := hw
  unfold seenAccount at h2 h3
  simp only [LoadFund, h1, h2, h3, seenAccount]

/-- A non-duplicate request that passes both checks: the result, the entry
written under the account's ID, and the entries that are left alone. -/
theorem LoadFund_of_pass (c : Cache) (fund : Fund)
    (hnew : fund.ID ∉ (accountFor fund c).LoadIDs)
    (hd : (accountFor fund c).checkDailyLimit fund = none)
    (hw : (accountFor fund c).checkWeeklyLimit fund = none) :
    (LoadFund fund c).1 = (false, none)
    ∧ (LoadFund fund c).2.Get (accountFor fund c).ID
        = some { seenAccount fund c with Transactions := recordedTx (accountFor fund c) fund }
    ∧ (∀ k, k ≠ (accountFor fund c).ID → k ≠ fund.CustomerID →
        (LoadFund fund c).2.Get k = c.Get k)
    ∧ (fund.CustomerID ≠ (accountFor fund c).ID →
        ∃ tx, (LoadFund fund c).2.Get fund.CustomerID
          = some { accountFor fund c with Transactions := tx }) := by
  have h1 := checkIfLoadExists_of_not_mem _ _ hnew
  have h2 : (seenAccount fund c).checkDailyLimit fund = none := hd
  have h3 : (seenAccount fund c).checkWeeklyLimit fund = none := hw
  unfold seenAccount at h2 h3
  by_cases hlen : (accountFor fund c).Transactions.len = 0
  · simp only [LoadFund, h1, h2, h3, seenAccount, recordedTx, hlen, if_true]
    refine ⟨trivial, Cache.Get_Set_eq _ _ _, ?_, ?_⟩
    · intro k hk _
      rw [Cache.Get_Set_ne _ _ _ _ hk, Cache.Get_Set_ne _ _ _ _ hk]
    · intro hne
      refine ⟨(accountFor fund c).Transactions, ?_⟩
      rw [Cache.Get_Set_ne _ _ _ _ hne, Cache.Get_Set_ne _ _ _ _ hne]
      exact accountFor_found_of_ne fund c (fun e => hne e.symm)
  · simp only [LoadFund, h1, h2, h3, seenAccount, recordedTx, hlen, if_false]
    refine ⟨trivial, Cache.Get_Set_eq _ _ _, ?_, ?_⟩
    · intro k hk hk2
      rw [Cache.Get_Set_ne _ _ _ _ hk, Cache.Get_writeTx_ne _ _ _ _ _ hk2 hk,
        Cache.Get_Set_ne _ _ _ _ hk]
    · intro hne
      refine ⟨(accountFor fund c).Transactions.set fund.Time.Format
        ((accountFor fund c).Transactions.get fund.Time.Format ++ [fund]), ?_⟩
      rw [Cache.Get_Set_ne _ _ _ _ hne, Cache.Get_writeTx_eq, Cache.Get_Set_ne _ _ _ _ hne,
        accountFor_found_of_ne fund c (fun e => hne e.symm)]
      rfl

/-- The account stored for the request's customer is the one `LoadFund` wrote,
when the account it worked on is filed under its own ID. -/
theorem accountFor_of_written (fund : Fund) (c d : Cache) (b : CustomerAccount)
    (hkey : (accountFor fund c).ID = fund.CustomerID)
    (hb : d.Get (accountFor fund c).ID = some b) : accountFor fund d = b := by
  rw [hkey] at hb
  exact accountFor_of_get fund d b hb

/-! ## C4: an accepted load -/

/-- C4. For every store and every request whose ID is not in the stored
account's LoadIDs and that passes `checkDailyLimit` and `checkWeeklyLimit`,
`LoadFund` returns `(false, nil)` and stores, under the account's ID, the
account with the same ID, with LoadIDs = old LoadIDs followed by the request's
ID, with the bucket of the request's day-key = old bucket followed by the
request, and with every other bucket unchanged. The stored account is the one
under `request.CustomerID`, or the fresh empty one when there is none; where it
is filed under its own ID, the account written is the account stored for the
customer afterwards. -/
theorem LoadFund_accept (c : Cache) (fund : Fund)
    (hnew : fund.ID ∉ (accountFor fund c).LoadIDs)
    (hd : (accountFor fund c).checkDailyLimit fund = none)
    (hw : (accountFor fund c).checkWeeklyLimit fund = none) :
    (LoadFund fund c).1 = (false, none)
    ∧ ∃ b : CustomerAccount,
        (LoadFund fund c).2.Get (accountFor fund c).ID = some b
        ∧ b.ID = (accountFor fund c).ID
        ∧ b.LoadIDs = (accountFor fund c).LoadIDs ++ [fund.ID]
        ∧ b.Transactions.get fund.Time.Format
            = (accountFor fund c).Transactions.get fund.Time.Format ++ [fund]
        ∧ (∀ k, k ≠ fund.Time.Format →
            b.Transactions.get k = (accountFor fund c).Transactions.get k)
        ∧ ((accountFor fund c).ID = fund.CustomerID →
            accountFor fund (LoadFund fund c).2 = b) := by
  obtain ⟨hret, hstored, _, _⟩ := LoadFund_of_pass c fund hnew hd hw
  refine ⟨hret, _, hstored, rfl, rfl, recordedTx_get_same _ _,
    fun k hk => recordedTx_get_other _ _ k hk, ?_⟩
  intro hkey
  exact accountFor_of_written fund c _ _ hkey hstored

set_option maxRecDepth 100000 in
/-- C4 at a concrete input: customer 18 has 1000.00 and 2000.00 recorded on
Wednesday 2020-11-18 and loads another 2000.00 that day (total 5000.00). -/
theorem LoadFund_accept_witness :
    (LoadFund (request (F64.ofDecimal false 200000 2) wednesday)
        (storeOf (dayAccount [F64.ofDecimal false 100000 2, F64.ofDecimal false 200000 2]))).1
      = (false, none)
    ∧ ∃ b : CustomerAccount,
        (LoadFund (request (F64.ofDecimal false 200000 2) wednesday)
          (storeOf (dayAccount [F64.ofDecimal false 100000 2,
            F64.ofDecimal false 200000 2]))).2.Get "18" = some b
        ∧ b.LoadIDs = ["29360", "29361", "29370"]
        ∧ (b.Transactions.get wednesday.Format).map Fund.ID = ["29360", "29361", "29370"] := by
  obtain ⟨h1, b, h2, _, h4, h5, _, _⟩ :=
    LoadFund_accept
      (storeOf (dayAccount [F64.ofDecimal false 100000 2, F64.ofDecimal false 200000 2]))
      (request (F64.ofDecimal false 200000 2) wednesday)
      (by decide) (by decide) (by decide)
  have h6 : b.Transactions.get wednesday.Format = _ := h5
  exact ⟨h1, b, h2, h4, by rw [h6]; rfl⟩

/-! ## C5: a load rejected by a limit -/

/-- C5. For every store and every non-duplicate request that fails
`checkDailyLimit` or `checkWeeklyLimit`, `LoadFund` returns `(false, err)` with
a non-nil error (the daily check's error when that check fails, the weekly
check's otherwise), and stores, under the account's ID, the account with
LoadIDs = old LoadIDs followed by the request's ID and with `Transactions`
unchanged: the attempt is recorded as seen, the load in no day bucket. -/
theorem LoadFund_limit_reject (c : Cache) (fund : Fund)
    (hnew : fund.ID ∉ (accountFor fund c).LoadIDs)
    (hfail : (accountFor fund c).checkDailyLimit fund ≠ none
      ∨ (accountFor fund c).checkWeeklyLimit fund ≠ none) :
    (∃ err, (LoadFund fund c).1 = (false, some err)
      ∧ some err = ((accountFor fund c).checkDailyLimit fund).orElse
          (fun _ => (accountFor fund c).checkWeeklyLimit fund))
    ∧ (LoadFund fund c).2.Get (accountFor fund c).ID
        = some { ID := (accountFor fund c).ID
                 LoadIDs := (accountFor fund c).LoadIDs ++ [fund.ID]
                 Transactions := (accountFor fund c).Transactions }
    ∧ ((accountFor fund c).ID = fund.CustomerID →
        accountFor fund (LoadFund fund c).2
          = { ID := (accountFor fund c).ID
              LoadIDs := (accountFor fund c).LoadIDs ++ [fund.ID]
              Transactions := (accountFor fund c).Transactions }) := by
  have key : ∃ err, LoadFund fund c
        = ((false, some err), c.Set (accountFor fund c).ID (seenAccount fund c))
      ∧ some err = ((accountFor fund c).checkDailyLimit fund).orElse
          (fun _ => (accountFor fund c).checkWeeklyLimit fund) := by
    cases hd : (accountFor fund c).checkDailyLimit fund with
    | some e => exact ⟨e, LoadFund_of_daily c fund e hnew hd, rfl⟩
    | none =>
      cases hw : (accountFor fund c).checkWeeklyLimit fund with
      | some e => exact ⟨e, LoadFund_of_weekly c fund e hnew hd hw, rfl⟩
      | none =>
        rcases hfail with h | h
        · exact absurd hd h
        · exact absurd hw h
  obtain ⟨err, heq, herr⟩ := key
  have hstored : (LoadFund fund c).2.Get (accountFor fund c).ID = some (seenAccount fund c) := by
    rw [heq]
    exact Cache.Get_Set_eq _ _ _
  refine ⟨⟨err, by rw [heq], herr⟩, hstored, ?_⟩
  intro hkey
  exact accountFor_of_written fund c _ _ hkey hstored

set_option maxRecDepth 100000 in
/-- C5 at the input of `TestExceedDailyAmountLimitWithMultiple`: 1000.00 and
2000.00 recorded, a load of 2000.01 is rejected and only its ID is kept. -/
theorem LoadFund_limit_reject_witness :
    (∃ err, (LoadFund (request (F64.ofDecimal false 200001 2) wednesday)
        (storeOf (dayAccount [F64.ofDecimal false 100000 2, F64.ofDecimal false 200000 2]))).1
      = (false, some err)
      ∧ some err = some "accountID: 18 exceed daily fund limit when process loadID: 29370")
    ∧ (LoadFund (request (F64.ofDecimal false 200001 2) wednesday)
        (storeOf (dayAccount [F64.ofDecimal false 100000 2,
          F64.ofDecimal false 200000 2]))).2.Get "18"
      = some { ID := "18"
               LoadIDs := ["29360", "29361", "29370"]
               Transactions :=
                 (dayAccount [F64.ofDecimal false 100000 2,
                   F64.ofDecimal false 200000 2]).Transactions } := by
  obtain ⟨⟨err, h1, h2⟩, h3, _⟩ :=
    LoadFund_limit_reject
      (storeOf (dayAccount [F64.ofDecimal false 100000 2, F64.ofDecimal false 200000 2]))
      (request (F64.ofDecimal false 200001 2) wednesday)
      (by decide) (Or.inl (by decide))
  exact ⟨⟨err, h1, h2⟩, h3⟩

/-! ## C7: the fourth load of a day -/

/-- C7. For every stored account whose bucket of the request's day-key holds
exactly 3 recorded loads and every request with an ID not yet seen, whatever its
amount, `LoadFund` returns `(false, error "accountID: <account> exceed daily
number of loads limit when process loadID: <id>")`, and the account it stores
has the request's ID appended to LoadIDs and the same `Transactions`: the load
is added to no bucket. -/
theorem LoadFund_fourth_load (c : Cache) (fund : Fund) (a : CustomerAccount)
    (hget : c.Get fund.CustomerID = some a)
    (hcount : (a.Transactions.get fund.Time.Format).length = 3)
    (hnew : fund.ID ∉ a.LoadIDs) :
    (LoadFund fund c).1
      = (false, some ("accountID: " ++ a.ID
          ++ " exceed daily number of loads limit when process loadID: " ++ fund.ID))
    ∧ (LoadFund fund c).2.Get a.ID
        = some { ID := a.ID, LoadIDs := a.LoadIDs ++ [fund.ID], Transactions := a.Transactions }
    ∧ (a.ID = fund.CustomerID →
        (accountFor fund (LoadFund fund c).2).Transactions = a.Transactions) := by
  have ha : accountFor fund c = a := accountFor_of_get fund c a hget
  have hd : (accountFor fund c).checkDailyLimit fund
      = some ("accountID: " ++ a.ID
          ++ " exceed daily number of loads limit when process loadID: " ++ fund.ID) := by
    rw [ha]
    simp [CustomerAccount.checkDailyLimit, DailyNumberOfLoadsLimit, hcount]
  have hnew2 : fund.ID ∉ (accountFor fund c).LoadIDs := by rw [ha]; exact hnew
  have heq := LoadFund_of_daily c fund _ hnew2 hd
  have hstored : (LoadFund fund c).2.Get a.ID
      = some { ID := a.ID, LoadIDs := a.LoadIDs ++ [fund.ID],
               Transactions := a.Transactions } := by
    rw [heq, seenAccount, ha]
    exact Cache.Get_Set_eq _ _ _
  refine ⟨by rw [heq], hstored, ?_⟩
  intro hkey
  rw [hkey] at hstored
  rw [accountFor_of_get fund _ _ hstored]

set_option maxRecDepth 100000 in
/-- C7 at the input of `TestExceedDailyLoadsLimit`, with the amount raised from
1.00 to 50000.00: three loads of 1.00 are recorded, and the fourth request is
rejected for the number of loads although its amount breaks both amount limits. -/
theorem LoadFund_fourth_load_witness :
    (LoadFund (request (F64.ofDecimal false 5000000 2) wednesday)
        (storeOf (dayAccount [F64.ofDecimal false 100 2, F64.ofDecimal false 100 2,
          F64.ofDecimal false 100 2]))).1
      = (false,
          some "accountID: 18 exceed daily number of loads limit when process loadID: 29370")
    ∧ (LoadFund (request (F64.ofDecimal false 5000000 2) wednesday)
        (storeOf (dayAccount [F64.ofDecimal false 100 2, F64.ofDecimal false 100 2,
          F64.ofDecimal false 100 2]))).2.Get "18"
      = some { ID := "18"
               LoadIDs := ["29360", "29361", "29362", "29370"]
               Transactions :=
                 (dayAccount [F64.ofDecimal false 100 2, F64.ofDecimal false 100 2,
                   F64.ofDecimal false 100 2]).Transactions } := by
  obtain ⟨h1, h2, _⟩ :=
    LoadFund_fourth_load
      (storeOf (dayAccount [F64.ofDecimal false 100 2, F64.ofDecimal false 100 2,
        F64.ofDecimal false 100 2]))
      (request (F64.ofDecimal false 5000000 2) wednesday)
      (dayAccount [F64.ofDecimal false 100 2, F64.ofDecimal false 100 2,
        F64.ofDecimal false 100 2])
      (by rfl) (by decide) (by decide)
  exact ⟨h1, h2⟩

/-! ## C8: the day-key -/

set_option maxRecDepth 100000 in
/-- C8, at two timestamps one year apart. 2019-11-18 and 2020-11-18 differ in
the year and get the same day-key, `11/18/18119`: the key holds the month and
the day of month and no year. So three loads recorded on 2019-11-18 make
`LoadFund` reject a first load on 2020-11-18 for the daily number of loads.
In general two keys are equal exactly when month and day of month agree,
whatever the years. -/
theorem Format_same_key_across_years :
    (nov18of2019.Year, nov18of2019.Month, nov18of2019.Day) = (2019, 11, 18)
    ∧ (wednesday.Year, wednesday.Month, wednesday.Day) = (2020, 11, 18)
    ∧ nov18of2019.Format = "11/18/18119"
    ∧ wednesday.Format = "11/18/18119"
    ∧ (LoadFund (request (F64.ofDecimal false 100 2) wednesday) (storeOf lastYearAccount)).1
        = (false,
            some "accountID: 18 exceed daily number of loads limit when process loadID: 29370")
    ∧ (∀ t1 t2 : Time,
        t1.Format = t2.Format ↔ (t1.Month = t2.Month ∧ t1.Day = t2.Day)) :=
  ⟨by decide, by decide, by decide, by decide, by decide, Time.Format_eq_iff⟩

/-! ## Stores that file each account under its own ID -/

theorem accountFor_ID (fund : Fund) (c : Cache) (hkey : KeyedAt c fund.CustomerID) :
    (accountFor fund c).ID = fund.CustomerID := by
  unfold accountFor
  cases hget : c.Get fund.CustomerID with
  | some x => exact hkey x hget
  | none => rfl

/-- The three ways a call of `LoadFund` can go. -/
theorem LoadFund_cases (c : Cache) (fund : Fund) :
    (fund.ID ∈ (accountFor fund c).LoadIDs
      ∧ LoadFund fund c = ((true, some ("loadID: " ++ fund.ID ++ " exists")), c))
    ∨ (fund.ID ∉ (accountFor fund c).LoadIDs
      ∧ ∃ err, LoadFund fund c
          = ((false, some err), c.Set (accountFor fund c).ID (seenAccount fund c)))
    ∨ (fund.ID ∉ (accountFor fund c).LoadIDs
      ∧ (accountFor fund c).checkDailyLimit fund = none
      ∧ (accountFor fund c).checkWeeklyLimit fund = none) := by
  by_cases hmem : fund.ID ∈ (accountFor fund c).LoadIDs
  · exact Or.inl ⟨hmem, LoadFund_of_seen c fund hmem⟩
  · cases hd : (accountFor fund c).checkDailyLimit fund with
    | some e => exact Or.inr (Or.inl ⟨hmem, e, LoadFund_of_daily c fund e hmem hd⟩)
    | none =>
      cases hw : (accountFor fund c).checkWeeklyLimit fund with
      | some e => exact Or.inr (Or.inl ⟨hmem, e, LoadFund_of_weekly c fund e hmem hd hw⟩)
      | none => exact Or.inr (Or.inr ⟨hmem, rfl, rfl⟩)

/-- `LoadFund` writes no entry other than the one under the account's ID and,
when it accepts, the one the account was read from. -/
theorem LoadFund_frame (c : Cache) (fund : Fund) (k : String)
    (hk : k ≠ (accountFor fund c).ID) (hk2 : k ≠ fund.CustomerID) :
    (LoadFund fund c).2.Get k = c.Get k := by
  rcases LoadFund_cases c fund with ⟨_, h⟩ | ⟨_, e, h⟩ | ⟨hnew, hd, hw⟩
  · rw [h]
  · rw [h]
    exact Cache.Get_Set_ne _ _ _ _ hk
  · exact (LoadFund_of_pass c fund hnew hd hw).2.2.1 k hk hk2

/-- The entry `LoadFund` leaves under the ID of the account it worked on: the
store is untouched for a seen ID, and otherwise the entry has the request's ID
appended and the ledger either unchanged or extended by the request. -/
theorem LoadFund_written (c : Cache) (fund : Fund) :
    (fund.ID ∈ (accountFor fund c).LoadIDs ∧ (LoadFund fund c).2 = c)
    ∨ (fund.ID ∉ (accountFor fund c).LoadIDs
      ∧ ∃ b : CustomerAccount,
          (LoadFund fund c).2.Get (accountFor fund c).ID = some b
          ∧ b.ID = (accountFor fund c).ID
          ∧ b.LoadIDs = (accountFor fund c).LoadIDs ++ [fund.ID]
          ∧ (b.Transactions = (accountFor fund c).Transactions
            ∨ b.Transactions = recordedTx (accountFor fund c) fund)) := by
  rcases LoadFund_cases c fund with ⟨hmem, h⟩ | ⟨hnew, e, h⟩ | ⟨hnew, hd, hw⟩
  · exact Or.inl ⟨hmem, by rw [h]⟩
  · refine Or.inr ⟨hnew, seenAccount fund c, ?_, rfl, rfl, Or.inl rfl⟩
    rw [h]
    exact Cache.Get_Set_eq _ _ _
  · exact Or.inr ⟨hnew, _, (LoadFund_of_pass c fund hnew hd hw).2.1, rfl, rfl, Or.inr rfl⟩

theorem WellKeyed_empty : WellKeyed Cache.empty := by
  intro k a h
  simp [Cache.empty, Cache.Get] at h

theorem WellKeyed_LoadFund (c : Cache) (fund : Fund) (h : WellKeyed c) :
    WellKeyed (LoadFund fund c).2 := by
  have hid := accountFor_ID fund c (h fund.CustomerID)
  intro k a hget
  by_cases hk : k = fund.CustomerID
  · subst hk
    rcases LoadFund_written c fund with ⟨_, hsame⟩ | ⟨_, b, hb, hbid, _, _⟩
    · rw [hsame] at hget
      exact h _ a hget
    · rw [hid] at hb hbid
      rw [hb] at hget
      cases hget
      exact hbid
  · rw [LoadFund_frame c fund k (by rw [hid]; exact hk) hk] at hget
    exact h k a hget

theorem WellKeyed_LoadFunds (funds : List Fund) (c : Cache) (h : WellKeyed c) :
    WellKeyed (LoadFunds funds c) := by
  induction funds generalizing c with
  | nil => exact h
  | cons fund rest ih => exact ih _ (WellKeyed_LoadFund c fund h)

/-- Resubmission after a first call on a store that files the customer's
account under its own ID. -/
theorem LoadFund_resubmit (c : Cache) (fund : Fund) (hkey : KeyedAt c fund.CustomerID) :
    LoadFund fund (LoadFund fund c).2
      = ((true, some ("loadID: " ++ fund.ID ++ " exists")), (LoadFund fund c).2) := by
  have hid := accountFor_ID fund c hkey
  rcases LoadFund_written c fund with ⟨hmem, hsame⟩ | ⟨_, b, hb, _, hids, _⟩
  · rw [hsame]
    exact LoadFund_of_seen c fund hmem
  · rw [hid] at hb
    apply LoadFund_of_seen
    rw [accountFor_of_get fund _ b hb, hids]
    simp

/-! ## C6: resubmitting a request -/

/-- C6. For every store in which the account of the request's customer is filed
under its own ID, and so for every store reachable from the empty store by
calls of `LoadFund`, calling `LoadFund` on the same request a second time
returns `(true, error "loadID: <id> exists")`, whatever the first call returned,
and the store after the second call is the store after the first. -/
theorem LoadFund_twice :
    (∀ (c : Cache) (fund : Fund), KeyedAt c fund.CustomerID →
      LoadFund fund (LoadFund fund c).2
        = ((true, some ("loadID: " ++ fund.ID ++ " exists")), (LoadFund fund c).2))
    ∧ (∀ (funds : List Fund) (fund : Fund),
      WellKeyed (LoadFunds funds Cache.empty)
      ∧ LoadFund fund (LoadFund fund (LoadFunds funds Cache.empty)).2
        = ((true, some ("loadID: " ++ fund.ID ++ " exists")),
            (LoadFund fund (LoadFunds funds Cache.empty)).2)) := by
  refine ⟨LoadFund_resubmit, ?_⟩
  intro funds fund
  have hw := WellKeyed_LoadFunds funds Cache.empty WellKeyed_empty
  exact ⟨hw, LoadFund_resubmit _ fund (hw fund.CustomerID)⟩

theorem WellKeyed_storeOf (a : CustomerAccount) : WellKeyed (storeOf a) := by
  intro k x h
  by_cases hk : k = a.ID
  · subst hk
    rw [storeOf, Cache.Get_Set_eq] at h
    cases h
    rfl
  · rw [storeOf, Cache.Get_Set_ne _ _ _ _ hk] at h
    simp [Cache.empty, Cache.Get] at h

set_option maxRecDepth 100000 in
/-- C6 at the input of `TestExceedDailyAmountLimitWithMultiple`: the load of
2000.01 is rejected by the daily fund limit, and submitting it again is a
duplicate that leaves the store as the first call left it. -/
theorem LoadFund_twice_witness :
    KeyedAt (storeOf (dayAccount [F64.ofDecimal false 100000 2, F64.ofDecimal false 200000 2]))
      (request (F64.ofDecimal false 200001 2) wednesday).CustomerID
    ∧ (LoadFund (request (F64.ofDecimal false 200001 2) wednesday)
        (storeOf (dayAccount [F64.ofDecimal false 100000 2, F64.ofDecimal false 200000 2]))).1
      = (false, some "accountID: 18 exceed daily fund limit when process loadID: 29370")
    ∧ LoadFund (request (F64.ofDecimal false 200001 2) wednesday)
        (LoadFund (request (F64.ofDecimal false 200001 2) wednesday)
          (storeOf (dayAccount [F64.ofDecimal false 100000 2,
            F64.ofDecimal false 200000 2]))).2
      = ((true, some "loadID: 29370 exists"),
          (LoadFund (request (F64.ofDecimal false 200001 2) wednesday)
            (storeOf (dayAccount [F64.ofDecimal false 100000 2,
              F64.ofDecimal false 200000 2]))).2) :=
  ⟨WellKeyed_storeOf _ _, by decide,
    LoadFund_twice.1 _ (request (F64.ofDecimal false 200001 2) wednesday)
      (WellKeyed_storeOf _ _)⟩

/-! ## C9: the list of seen load IDs -/

/-- The entry under the request's customer ID keeps its LoadIDs when the
account read from it is filed under another ID. -/
theorem LoadFund_misfiled (c : Cache) (fund : Fund)
    (hne : (accountFor fund c).ID ≠ fund.CustomerID) :
    (accountFor fund (LoadFund fund c).2).LoadIDs = (accountFor fund c).LoadIDs := by
  have hfound := accountFor_found_of_ne fund c hne
  have hne2 : fund.CustomerID ≠ (accountFor fund c).ID := fun e => hne e.symm
  rcases LoadFund_cases c fund with ⟨_, h⟩ | ⟨_, e, h⟩ | ⟨hnew, hd, hw⟩
  · rw [h]
  · have hget : (LoadFund fund c).2.Get fund.CustomerID = some (accountFor fund c) := by
      rw [h]
      show (c.Set _ _).Get fund.CustomerID = _
      rw [Cache.Get_Set_ne _ _ _ _ hne2]
      exact hfound
    rw [accountFor_of_get fund _ _ hget]
  · obtain ⟨tx, htx⟩ := (LoadFund_of_pass c fund hnew hd hw).2.2.2 hne2
    rw [accountFor_of_get fund _ _ htx]

/-- C9. LoadIDs is append-only and duplicate-free under `LoadFund`: for every
store and request, the LoadIDs of the account stored for the request's customer
before the call (none when no account is stored) are a prefix of its LoadIDs
after the call, and if that list held no ID twice before the call it holds none
twice after it. -/
theorem LoadIDs_append_only (c : Cache) (fund : Fund) :
    (accountFor fund c).LoadIDs <+: (accountFor fund (LoadFund fund c).2).LoadIDs
    ∧ ((accountFor fund c).LoadIDs.Nodup →
        (accountFor fund (LoadFund fund c).2).LoadIDs.Nodup) := by
  by_cases hid : (accountFor fund c).ID = fund.CustomerID
  · rcases LoadFund_written c fund with ⟨_, hsame⟩ | ⟨hnew, b, hb, _, hids, _⟩
    · rw [hsame]
      exact ⟨List.prefix_refl _, fun h => h⟩
    · rw [accountFor_of_written fund c _ b hid hb, hids]
      refine ⟨List.prefix_append _ _, fun hnd => ?_⟩
      rw [List.nodup_append]
      refine ⟨hnd, List.nodup_singleton _, ?_⟩
      intro x hx hx2
      rw [List.mem_singleton] at hx2
      subst hx2
      exact hnew hx
  · rw [LoadFund_misfiled c fund hid]
    exact ⟨List.prefix_refl _, fun h => h⟩

/-! ## C10: the ledger invariant -/

/-- Seeing a new ID keeps the ledger invariant. -/
theorem Ledger_seen (a b : CustomerAccount) (id : String) (h : Ledger a)
    (hids : b.LoadIDs = a.LoadIDs ++ [id]) (htx : b.Transactions = a.Transactions) :
    Ledger b := by
  obtain ⟨h1, h2, h3⟩ := h
  refine ⟨?_, ?_, ?_⟩
  · intro k f hf
    rw [htx] at hf
    rw [hids]
    exact List.mem_append_left _ (h1 k f hf)
  · intro k
    rw [htx]
    exact h2 k
  · intro k1 k2 hk f1 hf1 f2 hf2
    rw [htx] at hf1 hf2
    exact h3 k1 k2 hk f1 hf1 f2 hf2

/-- Recording a load with a new ID keeps the ledger invariant. -/
theorem Ledger_recorded (a b : CustomerAccount) (fund : Fund) (h : Ledger a)
    (hnew : fund.ID ∉ a.LoadIDs)
    (hids : b.LoadIDs = a.LoadIDs ++ [fund.ID])
    (htx : b.Transactions = recordedTx a fund) : Ledger b := by
  obtain ⟨h1, h2, h3⟩ := h
  have hfresh : ∀ k, ∀ f ∈ a.Transactions.get k, f.ID ≠ fund.ID := by
    intro k f hf e
    exact hnew (e ▸ h1 k f hf)
  have hget : ∀ k, ∀ f ∈ b.Transactions.get k,
      f ∈ a.Transactions.get k ∨ (k = fund.Time.Format ∧ f = fund) := by
    intro k f hf
    rw [htx] at hf
    by_cases hk : k = fund.Time.Format
    · subst hk
      rw [recordedTx_get_same, List.mem_append, List.mem_singleton] at hf
      rcases hf with hf | hf
      · exact Or.inl hf
      · exact Or.inr ⟨rfl, hf⟩
    · rw [recordedTx_get_other a fund k hk] at hf
      exact Or.inl hf
  refine ⟨?_, ?_, ?_⟩
  · intro k f hf
    rw [hids]
    rcases hget k f hf with hf | ⟨_, hf⟩
    · exact List.mem_append_left _ (h1 k f hf)
    · subst hf
      simp
  · intro k
    rw [htx]
    by_cases hk : k = fund.Time.Format
    · subst hk
      rw [recordedTx_get_same, List.map_append, List.nodup_append]
      refine ⟨h2 _, by simp, ?_⟩
      intro x hx hx2
      rw [List.map_singleton, List.mem_singleton] at hx2
      rw [List.mem_map] at hx
      obtain ⟨f, hf, hfx⟩ := hx
      exact hfresh _ f hf (hfx.trans hx2)
    · rw [recordedTx_get_other a fund k hk]
      exact h2 k
  · intro k1 k2 hk f1 hf1 f2 hf2
    rcases hget k1 f1 hf1 with hf1 | ⟨hk1, hf1⟩
    · rcases hget k2 f2 hf2 with hf2 | ⟨_, hf2⟩
      · exact h3 k1 k2 hk f1 hf1 f2 hf2
      · subst hf2
        exact hfresh k1 f1 hf1
    · rcases hget k2 f2 hf2 with hf2 | ⟨hk2, _⟩
      · subst hf1
        exact fun e => hfresh k2 f2 hf2 e.symm
      · exact absurd (hk1.trans hk2.symm) hk

/-- The account `LoadFund` writes for a request with a new ID satisfies the
ledger invariant when the account it worked on does. -/
theorem Ledger_written (c : Cache) (fund : Fund) (b : CustomerAccount)
    (h : Ledger (accountFor fund c))
    (hnew : fund.ID ∉ (accountFor fund c).LoadIDs)
    (hb : (LoadFund fund c).2.Get (accountFor fund c).ID = some b) : Ledger b := by
  rcases LoadFund_written c fund with ⟨hmem, _⟩ | ⟨_, b2, hb2, _, hids, htx⟩
  · exact absurd hmem hnew
  · rw [hb2] at hb
    cases hb
    rcases htx with htx | htx
    · exact Ledger_seen _ _ _ h hids htx
    · exact Ledger_recorded _ _ fund h hnew hids htx

/-- On a store that files the customer's account under its own ID, the account
stored for the customer satisfies the ledger invariant after the call when it
does before. -/
theorem Ledger_LoadFund (c : Cache) (fund : Fund) (hkey : KeyedAt c fund.CustomerID)
    (h : Ledger (accountFor fund c)) : Ledger (accountFor fund (LoadFund fund c).2) := by
  have hid := accountFor_ID fund c hkey
  rcases LoadFund_written c fund with ⟨_, hsame⟩ | ⟨hnew, b, hb, _, _, _⟩
  · rw [hsame]
    exact h
  · rw [accountFor_of_written fund c _ b hid hb]
    exact Ledger_written c fund b h hnew hb

theorem Ledger_fresh (id : String) :
    Ledger { ID := id, LoadIDs := [], Transactions := TxMap.empty } := by
  refine ⟨?_, ?_, ?_⟩
  · intro k f hf
    simp [TxMap.empty, TxMap.get, TxMap.lookup] at hf
  · intro k
    simp [TxMap.empty, TxMap.get, TxMap.lookup]
  · intro k1 k2 _ f1 hf1
    simp [TxMap.empty, TxMap.get, TxMap.lookup] at hf1

theorem LedgerStore_LoadFund (c : Cache) (fund : Fund) (h : LedgerStore c) :
    LedgerStore (LoadFund fund c).2 := by
  have hkey : KeyedAt c fund.CustomerID := fun a ha => (h _ a ha).1
  have hid := accountFor_ID fund c hkey
  have hled : Ledger (accountFor fund c) := by
    unfold accountFor
    cases hget : c.Get fund.CustomerID with
    | some x => exact (h _ x hget).2
    | none => exact Ledger_fresh _
  intro k a hget
  by_cases hk : k = fund.CustomerID
  · subst hk
    refine ⟨WellKeyed_LoadFund c fund (fun j x hx => (h j x hx).1) _ a hget, ?_⟩
    have := Ledger_LoadFund c fund hkey hled
    rw [accountFor_of_get fund _ a hget] at this
    exact this
  · rw [LoadFund_frame c fund k (by rw [hid]; exact hk) hk] at hget
    exact h k a hget

theorem LedgerStore_LoadFunds (funds : List Fund) (c : Cache) (h : LedgerStore c) :
    LedgerStore (LoadFunds funds c) := by
  induction funds generalizing c with
  | nil => exact h
  | cons fund rest ih => exact ih _ (LedgerStore_LoadFund c fund h)

/-- C10. `LoadFund` preserves the ledger invariant (every load ID in a bucket of
`Transactions` is in `LoadIDs`, and no load ID occurs in two entries of
`Transactions`): on a store that files the customer's account under its own ID,
if the account stored for the customer satisfies it before the call, the
account stored for the customer satisfies it after; on any store, the account
the call writes for a new ID satisfies it when the account read does. Hence
every account of every store reachable from the empty store satisfies it, and
is filed under its own ID. -/
theorem LoadFund_preserves_ledger :
    (∀ (c : Cache) (fund : Fund), KeyedAt c fund.CustomerID →
      Ledger (accountFor fund c) → Ledger (accountFor fund (LoadFund fund c).2))
    ∧ (∀ (c : Cache) (fund : Fund) (b : CustomerAccount),
      Ledger (accountFor fund c) → fund.ID ∉ (accountFor fund c).LoadIDs →
      (LoadFund fund c).2.Get (accountFor fund c).ID = some b → Ledger b)
    ∧ (∀ (funds : List Fund) (k : String) (a : CustomerAccount),
      (LoadFunds funds Cache.empty).Get k = some a → a.ID = k ∧ Ledger a) := by
  refine ⟨Ledger_LoadFund, fun c fund b h hnew hb => Ledger_written c fund b h hnew hb, ?_⟩
  intro funds
  have hempty : LedgerStore Cache.empty := by
    intro k a h
    simp [Cache.empty, Cache.Get] at h
  exact LedgerStore_LoadFunds funds Cache.empty hempty

/-- An account with a single bucket satisfies the ledger invariant when the IDs
of the bucket are distinct and all in `LoadIDs`. -/
theorem Ledger_single_bucket (id : String) (ids : List String) (key : String)
    (bucket : List Fund) (hsub : ∀ f ∈ bucket, f.ID ∈ ids)
    (hnd : (bucket.map Fund.ID).Nodup) :
    Ledger { ID := id, LoadIDs := ids, Transactions := ⟨[(key, bucket)]⟩ } := by
  have hget : ∀ k, (⟨[(key, bucket)]⟩ : TxMap).get k = if key = k then bucket else [] := by
    intro k
    simp [TxMap.get, TxMap.lookup]
  refine ⟨?_, ?_, ?_⟩
  · intro k f hf
    simp only [hget] at hf
    by_cases hk : key = k
    · rw [if_pos hk] at hf
      exact hsub f hf
    · rw [if_neg hk] at hf
      simp at hf
  · intro k
    simp only [hget]
    by_cases hk : key = k
    · rw [if_pos hk]
      exact hnd
    · rw [if_neg hk]
      simp
  · intro k1 k2 hk f1 hf1 f2 hf2
    simp only [hget] at hf1 hf2
    by_cases hk1 : key = k1
    · have hk2 : ¬ key = k2 := fun e => hk (hk1.symm.trans e)
      rw [if_neg hk2] at hf2
      simp at hf2
    · rw [if_neg hk1] at hf1
      simp at hf1

set_option maxRecDepth 100000 in
/-- C10 at a concrete input: customer 18 has the loads 29360 and 29361 recorded
on Wednesday 2020-11-18, which satisfies the ledger invariant, and load 29370
of 2000.00 is accepted that day; the stored account satisfies it afterwards. -/
theorem LoadFund_preserves_ledger_witness :
    KeyedAt (storeOf (dayAccount [F64.ofDecimal false 100000 2, F64.ofDecimal false 200000 2]))
      (request (F64.ofDecimal false 200000 2) wednesday).CustomerID
    ∧ Ledger (accountFor (request (F64.ofDecimal false 200000 2) wednesday)
        (storeOf (dayAccount [F64.ofDecimal false 100000 2, F64.ofDecimal false 200000 2])))
    ∧ (LoadFund (request (F64.ofDecimal false 200000 2) wednesday)
        (storeOf (dayAccount [F64.ofDecimal false 100000 2,
          F64.ofDecimal false 200000 2]))).1 = (false, none)
    ∧ Ledger (accountFor (request (F64.ofDecimal false 200000 2) wednesday)
        (LoadFund (request (F64.ofDecimal false 200000 2) wednesday)
          (storeOf (dayAccount [F64.ofDecimal false 100000 2,
            F64.ofDecimal false 200000 2]))).2) :=
  have hled : Ledger (accountFor (request (F64.ofDecimal false 200000 2) wednesday)
      (storeOf (dayAccount [F64.ofDecimal false 100000 2, F64.ofDecimal false 200000 2]))) :=
    Ledger_single_bucket "18" _ wednesday.Format _ (by decide) (by decide)
  ⟨WellKeyed_storeOf _ _, hled, by decide,
    LoadFund_preserves_ledger.1 _ _ (WellKeyed_storeOf _ _) hled⟩

/-! ## float64 facts -/

/-- Rounding leaves a binary64 number as it is. -/
theorem F64.round_of_isFloat (neg : Bool) (k : Nat) (h : F64.isFloat (F64.fin neg k) = true) :
    F64.round neg k 1 = F64.fin neg k := by
  simp only [F64.isFloat, Bool.and_eq_true, decide_eq_true_eq] at h
  obtain ⟨hlt, hmod⟩ := h
  unfold F64.round
  simp only [Nat.div_one]
  have hd : (1 <<< (bitLen k - 53)) = 2 ^ (bitLen k - 53) := by
    rw [Nat.shiftLeft_eq, Nat.one_mul]
  have hpos : 0 < (1 <<< (bitLen k - 53)) := by
    rw [hd]
    exact Nat.pow_pos (by decide)
  have hq : (k / (1 <<< (bitLen k - 53))) <<< (bitLen k - 53) = k := by
    rw [Nat.shiftLeft_eq, ← hd]
    exact Nat.div_mul_cancel (Nat.dvd_of_mod_eq_zero hmod)
  have hc : ¬ ((1 <<< (bitLen k - 53)) < 2 * (k % (1 <<< (bitLen k - 53)))
      ∨ (2 * (k % (1 <<< (bitLen k - 53))) = (1 <<< (bitLen k - 53))
        ∧ k / (1 <<< (bitLen k - 53)) % 2 = 1)) := by
    rw [hmod]
    omega
  rw [if_neg hc, hq, if_neg (Nat.not_le.2 hlt)]

/-- Adding a binary64 number to the zero a total starts from gives the number
back, up to the sign of a zero. -/
theorem F64.zero_add (x : F64) (h : F64.isFloat x = true) :
    F64.add F64.zero x = x ∨ (x = F64.fin true 0 ∧ F64.add F64.zero x = F64.zero) := by
  cases x with
  | nan => exact Or.inl rfl
  | inf n => exact Or.inl rfl
  | fin n k =>
    by_cases hk : k = 0
    · subst hk
      cases n
      · exact Or.inl rfl
      · exact Or.inr ⟨rfl, rfl⟩
    · left
      have hs : F64.signed false 0 + F64.signed n k ≠ 0 := by
        cases n <;> simp [F64.signed] <;> omega
      have hneg : decide (F64.signed false 0 + F64.signed n k < 0) = n := by
        cases n <;> simp [F64.signed]
        omega
      have habs : (F64.signed false 0 + F64.signed n k).natAbs = k := by
        cases n
        · simp [F64.signed]
        · simp [F64.signed]
      simp only [F64.zero, F64.add, hs, if_false, hneg, habs]
      exact F64.round_of_isFloat n k h

/-- The sign of a zero plays no part in a comparison. -/
theorem F64.gt_zero_sign (n : Bool) (y : F64) : F64.gt (F64.fin n 0) y = F64.gt F64.zero y := by
  cases y with
  | nan => rfl
  | inf b => rfl
  | fin b k => cases n <;> simp [F64.gt, F64.zero, F64.signed]

/-- The sign of a zero summand plays no part in whether the sum is over a limit. -/
theorem F64.gt_add_zero_sign (n : Bool) (y limit : F64) :
    F64.gt (F64.add (F64.fin n 0) y) limit = F64.gt (F64.add F64.zero y) limit := by
  cases y with
  | nan => rfl
  | inf b => rfl
  | fin b k =>
    have hs : F64.signed n 0 = F64.signed false 0 := by cases n <;> simp [F64.signed]
    simp only [F64.add, F64.zero, hs]
    split_ifs
    · rw [F64.gt_zero_sign, F64.gt_zero_sign (false && b)]
    · rfl

/-- For the limit tests the running total `0 + x` is `x`. -/
theorem F64.gt_zero_add (x limit : F64) (h : F64.isFloat x = true) :
    F64.gt (F64.add F64.zero x) limit = F64.gt x limit := by
  rcases F64.zero_add x h with h1 | ⟨h1, h2⟩
  · rw [h1]
  · rw [h2, h1, F64.gt_zero_sign]

theorem F64.gt_zero_add_add (x y limit : F64) (h : F64.isFloat x = true) :
    F64.gt (F64.add (F64.add F64.zero x) y) limit = F64.gt (F64.add x y) limit := by
  rcases F64.zero_add x h with h1 | ⟨h1, h2⟩
  · rw [h1]
  · rw [h2, h1, F64.gt_add_zero_sign]

/-- Go's `+` on `float64` is commutative. -/
theorem F64.add_comm (x y : F64) : F64.add x y = F64.add y x := by
  cases x with
  | nan => cases y <;> rfl
  | inf a =>
    cases y with
    | nan => rfl
    | inf b => cases a <;> cases b <;> rfl
    | fin b k => rfl
  | fin a j =>
    cases y with
    | nan => rfl
    | inf b => rfl
    | fin b k => simp only [F64.add, Int.add_comm (F64.signed a j), Bool.and_comm a b]

/-- For operands that are numbers, `x <= y` is the negation of `x > y`. -/
theorem F64.le_iff_not_gt (x y : F64) (hx : x ≠ F64.nan) (hy : y ≠ F64.nan) :
    F64.le x y = !F64.gt x y := by
  cases x with
  | nan => exact absurd rfl hx
  | inf a =>
    cases y with
    | nan => exact absurd rfl hy
    | inf b => cases a <;> cases b <;> rfl
    | fin b k => cases a <;> rfl
  | fin a j =>
    cases y with
    | nan => exact absurd rfl hy
    | inf b => cases b <;> rfl
    | fin b k =>
      simp only [F64.le, F64.gt]
      by_cases h : F64.signed a j ≤ F64.signed b k
      · simp [h, Int.not_lt.2 h]
      · simp [h, Int.not_le.1 h]

/-- An amount that is at most a limit is not over a limit that is no smaller. -/
theorem F64.gt_false_of_le (x : F64) (p q : Nat) (hpq : p ≤ q)
    (h : F64.le x (F64.fin false p) = true) : F64.gt x (F64.fin false q) = false := by
  cases x with
  | nan => rfl
  | inf a => cases a <;> simp_all [F64.le, F64.gt]
  | fin a j =>
    simp only [F64.le, F64.gt, F64.signed, decide_eq_true_eq, decide_eq_false_iff_not] at *
    cases a <;> simp_all <;> omega

set_option maxRecDepth 100000 in
theorem DailyFundLimit_eq : DailyFundLimit = F64.fin false (5000 <<< 1074) := by decide

set_option maxRecDepth 100000 in
theorem WeeklyFundLimit_eq : WeeklyFundLimit = F64.fin false (20000 <<< 1074) := by decide

theorem limits_le : 5000 <<< 1074 ≤ 20000 <<< 1074 := by decide

/-! ## Requests of different customers, on the store of accounts -/

/-- The result of `LoadFund` and the entry it leaves under the account's ID are
functions of the request and of the account it works on. -/
theorem LoadFund_of_account (c1 c2 : Cache) (fund : Fund)
    (hacc : accountFor fund c1 = accountFor fund c2)
    (hget : c1.Get (accountFor fund c1).ID = c2.Get (accountFor fund c1).ID) :
    (LoadFund fund c1).1 = (LoadFund fund c2).1
    ∧ (LoadFund fund c1).2.Get (accountFor fund c1).ID
        = (LoadFund fund c2).2.Get (accountFor fund c1).ID := by
  by_cases hmem : fund.ID ∈ (accountFor fund c1).LoadIDs
  · have h := LoadFund_of_seen c1 fund hmem
    have h2 := LoadFund_of_seen c2 fund (hacc ▸ hmem)
    rw [h, h2]
    exact ⟨rfl, hget⟩
  · have hnew := hmem
    cases hd : (accountFor fund c1).checkDailyLimit fund with
    | some e1 =>
      have h1 := LoadFund_of_daily c1 fund e1 hnew hd
      have h2 := LoadFund_of_daily c2 fund e1 (hacc ▸ hnew) (hacc ▸ hd)
      rw [h1, h2]
      refine ⟨rfl, ?_⟩
      show (c1.Set _ _).Get _ = (c2.Set _ _).Get _
      rw [Cache.Get_Set_eq, ← hacc, Cache.Get_Set_eq, seenAccount, seenAccount, hacc]
    | none =>
      cases hw : (accountFor fund c1).checkWeeklyLimit fund with
      | some e1 =>
        have h1 := LoadFund_of_weekly c1 fund e1 hnew hd hw
        have h2 := LoadFund_of_weekly c2 fund e1 (hacc ▸ hnew) (hacc ▸ hd) (hacc ▸ hw)
        rw [h1, h2]
        refine ⟨rfl, ?_⟩
        show (c1.Set _ _).Get _ = (c2.Set _ _).Get _
        rw [Cache.Get_Set_eq, ← hacc, Cache.Get_Set_eq, seenAccount, seenAccount, hacc]
      | none =>
        obtain ⟨r1, s1, _, _⟩ := LoadFund_of_pass c1 fund hnew hd hw
        obtain ⟨r2, s2, _, _⟩ :=
          LoadFund_of_pass c2 fund (hacc ▸ hnew) (hacc ▸ hd) (hacc ▸ hw)
        rw [r1, r2, s1]
        rw [← hacc] at s2
        rw [s2, seenAccount, seenAccount, hacc]
        exact ⟨rfl, rfl⟩

/-- On the store of accounts, which holds every account with a map of its own:
when the account of the request's customer X is filed under its own ID,
`LoadFund` leaves the entry of every key other than X unchanged, and on two such
stores that agree on the entry of X it returns the same pair and leaves the
same entry under X. -/
theorem LoadFund_independent :
    (∀ (c : Cache) (fund : Fund) (k : String),
      KeyedAt c fund.CustomerID → k ≠ fund.CustomerID →
      (LoadFund fund c).2.Get k = c.Get k)
    ∧ (∀ (c1 c2 : Cache) (fund : Fund),
      KeyedAt c1 fund.CustomerID → KeyedAt c2 fund.CustomerID →
      c1.Get fund.CustomerID = c2.Get fund.CustomerID →
      (LoadFund fund c1).1 = (LoadFund fund c2).1
      ∧ (LoadFund fund c1).2.Get fund.CustomerID
          = (LoadFund fund c2).2.Get fund.CustomerID) := by
  constructor
  · intro c fund k hkey hk
    have hid := accountFor_ID fund c hkey
    exact LoadFund_frame c fund k (by rw [hid]; exact hk) hk
  · intro c1 c2 fund hk1 hk2 hget
    have hacc : accountFor fund c1 = accountFor fund c2 := by
      simp only [accountFor, hget]
    have hid := accountFor_ID fund c1 hk1
    have := LoadFund_of_account c1 c2 fund hacc (by rw [hid]; exact hget)
    rw [hid] at this
    exact this

set_option maxRecDepth 100000 in
/-- On the store of accounts, at a concrete input: the store holds customer 18
and, in the second store, customer 7 as well; a load for customer 18 gets the
same result in both and leaves the entry of customer 7 alone. -/
theorem LoadFund_independent_witness :
    (LoadFund (request (F64.ofDecimal false 200000 2) wednesday)
        ((storeOf (dayAccount [F64.ofDecimal false 100000 2])).Set "7"
          ⟨"7", ["1"], TxMap.empty⟩)).2.Get "7"
      = some ⟨"7", ["1"], TxMap.empty⟩
    ∧ (LoadFund (request (F64.ofDecimal false 200000 2) wednesday)
        (storeOf (dayAccount [F64.ofDecimal false 100000 2]))).1
      = (LoadFund (request (F64.ofDecimal false 200000 2) wednesday)
        ((storeOf (dayAccount [F64.ofDecimal false 100000 2])).Set "7"
          ⟨"7", ["1"], TxMap.empty⟩)).1 :=
  ⟨(LoadFund_independent.1 _ (request (F64.ofDecimal false 200000 2) wednesday) "7"
      (fun a h => by
        have h2 : some (dayAccount [F64.ofDecimal false 100000 2]) = some a := h
        cases h2
        rfl)
      (by decide)).trans (by rfl),
   (LoadFund_independent.2 (storeOf (dayAccount [F64.ofDecimal false 100000 2]))
      ((storeOf (dayAccount [F64.ofDecimal false 100000 2])).Set "7" ⟨"7", ["1"], TxMap.empty⟩)
      (request (F64.ofDecimal false 200000 2) wednesday)
      (WellKeyed_storeOf _ _)
      (fun a h => by
        have h2 : some (dayAccount [F64.ofDecimal false 100000 2]) = some a := h
        cases h2
        rfl)
      (by rfl)).1⟩

/-! ## A customer without an account -/

theorem accountFor_of_none (fund : Fund) (c : Cache) (h : c.Get fund.CustomerID = none) :
    accountFor fund c
      = { ID := fund.CustomerID, LoadIDs := [], Transactions := TxMap.empty } := by
  simp [accountFor, h]

theorem foldl_no_loads (a : CustomerAccount) (fund : Fund)
    (h : ∀ k, a.Transactions.get k = []) (l : List Nat) (total : F64) :
    l.foldl (fun (total : F64) (i : Nat) =>
        sumLoads total (a.Transactions.get (fund.Time.AddDate 0 0 (-(i : Int))).Format)) total
      = total := by
  induction l generalizing total with
  | nil => rfl
  | cons i rest ih =>
    rw [List.foldl_cons, h, ih]
    rfl

/-- With no load recorded the loop of `checkWeeklyLimit` leaves the total at zero. -/
theorem weeklyTotal_of_no_loads (a : CustomerAccount) (fund : Fund)
    (h : ∀ k, a.Transactions.get k = []) : a.weeklyTotal fund = F64.zero :=
  foldl_no_loads a fund h _ _

theorem TxMap.get_empty (k : String) : TxMap.empty.get k = [] := rfl

/-- The first request of a customer, with an amount that is a number: it is
accepted when the amount is at most 5000.00, and then the account is stored with
the one load. -/
theorem LoadFund_first_le (c : Cache) (fund : Fund)
    (hnone : c.Get fund.CustomerID = none)
    (hfl : F64.isFloat fund.LoadAmount = true)
    (hle : F64.le fund.LoadAmount DailyFundLimit = true) :
    (LoadFund fund c).1 = (false, none)
    ∧ (LoadFund fund c).2.Get fund.CustomerID
        = some { ID := fund.CustomerID, LoadIDs := [fund.ID],
                 Transactions := ⟨[(fund.Time.Format, [fund])]⟩ } := by
  have hacc := accountFor_of_none fund c hnone
  have hnew : fund.ID ∉ (accountFor fund c).LoadIDs := by rw [hacc]; simp
  have hd : (accountFor fund c).checkDailyLimit fund = none := by
    rw [hacc]
    have hg : F64.gt (F64.add F64.zero fund.LoadAmount) DailyFundLimit = false := by
      rw [F64.gt_zero_add _ _ hfl, DailyFundLimit_eq]
      rw [DailyFundLimit_eq] at hle
      exact F64.gt_false_of_le _ _ _ (Nat.le_refl _) hle
    simp [CustomerAccount.checkDailyLimit, DailyNumberOfLoadsLimit, TxMap.get_empty,
      sumLoads, hg]
  have hw : (accountFor fund c).checkWeeklyLimit fund = none := by
    rw [hacc]
    have hg : F64.gt (F64.add F64.zero fund.LoadAmount) WeeklyFundLimit = false := by
      rw [F64.gt_zero_add _ _ hfl, WeeklyFundLimit_eq]
      rw [DailyFundLimit_eq] at hle
      exact F64.gt_false_of_le _ _ _ limits_le hle
    have hz := weeklyTotal_of_no_loads
      { ID := fund.CustomerID, LoadIDs := [], Transactions := TxMap.empty } fund
      (fun k => TxMap.get_empty k)
    simp [CustomerAccount.checkWeeklyLimit, hz, hg]
  obtain ⟨hret, hstored, _, _⟩ := LoadFund_of_pass c fund hnew hd hw
  refine ⟨hret, ?_⟩
  rw [hacc] at hstored
  rw [hstored, seenAccount, hacc]
  rfl

/-- The first request of a customer, with an amount that is a number and not at
most 5000.00: the daily fund limit rejects it and the account is stored with
the ID alone. -/
theorem LoadFund_first_gt (c : Cache) (fund : Fund)
    (hnone : c.Get fund.CustomerID = none)
    (hfl : F64.isFloat fund.LoadAmount = true)
    (hgt : F64.gt fund.LoadAmount DailyFundLimit = true) :
    (LoadFund fund c).1
      = (false, some ("accountID: " ++ fund.CustomerID
          ++ " exceed daily fund limit when process loadID: " ++ fund.ID))
    ∧ (LoadFund fund c).2.Get fund.CustomerID
        = some { ID := fund.CustomerID, LoadIDs := [fund.ID], Transactions := TxMap.empty } := by
  have hacc := accountFor_of_none fund c hnone
  have hnew : fund.ID ∉ (accountFor fund c).LoadIDs := by rw [hacc]; simp
  have hd : (accountFor fund c).checkDailyLimit fund
      = some ("accountID: " ++ fund.CustomerID
          ++ " exceed daily fund limit when process loadID: " ++ fund.ID) := by
    rw [hacc]
    have hg : F64.gt (F64.add F64.zero fund.LoadAmount) DailyFundLimit = true := by
      rw [F64.gt_zero_add _ _ hfl]
      exact hgt
    simp [CustomerAccount.checkDailyLimit, DailyNumberOfLoadsLimit, TxMap.get_empty,
      sumLoads, hg]
  have heq := LoadFund_of_daily c fund _ hnew hd
  rw [heq, hacc]
  refine ⟨rfl, ?_⟩
  show (c.Set _ _).Get _ = _
  rw [Cache.Get_Set_eq, seenAccount, hacc]
  rfl

/-- A second request on the day of the one recorded load, with another ID, whose
amount brings the day's total over 5000.00. -/
theorem LoadFund_second_over (c : Cache) (first second : Fund)
    (hget : c.Get second.CustomerID
      = some { ID := second.CustomerID, LoadIDs := [first.ID],
               Transactions := ⟨[(first.Time.Format, [first])]⟩ })
    (hid : first.ID ≠ second.ID)
    (hday : first.Time.days = second.Time.days)
    (hfl : F64.isFloat first.LoadAmount = true)
    (hsum : F64.gt (F64.add first.LoadAmount second.LoadAmount) DailyFundLimit = true) :
    (LoadFund second c).1
      = (false, some ("accountID: " ++ second.CustomerID
          ++ " exceed daily fund limit when process loadID: " ++ second.ID)) := by
  have hacc := accountFor_of_get second c _ hget
  have hkey : second.Time.Format = first.Time.Format := by
    simp only [Time.Format, Time.Month, Time.Day, hday]
  have hnew : second.ID ∉ (accountFor second c).LoadIDs := by
    rw [hacc]
    simp only [List.mem_singleton]
    exact fun e => hid e.symm
  have hd : (accountFor second c).checkDailyLimit second
      = some ("accountID: " ++ second.CustomerID
          ++ " exceed daily fund limit when process loadID: " ++ second.ID) := by
    rw [hacc]
    have hg : F64.gt (F64.add (F64.add F64.zero first.LoadAmount) second.LoadAmount)
        DailyFundLimit = true := by
      rw [F64.gt_zero_add_add _ _ _ hfl]
      exact hsum
    simp [CustomerAccount.checkDailyLimit, DailyNumberOfLoadsLimit, TxMap.get, TxMap.lookup,
      hkey, sumLoads, hg]
  rw [LoadFund_of_daily c second _ hnew hd]

set_option maxRecDepth 100000 in
theorem isFloat_3000 : F64.isFloat (F64.ofDecimal false 300000 2) = true := by decide

set_option maxRecDepth 100000 in
theorem isFloat_2500 : F64.isFloat (F64.ofDecimal false 250000 2) = true := by decide

set_option maxRecDepth 100000 in
theorem le_3000 : F64.le (F64.ofDecimal false 300000 2) DailyFundLimit = true := by decide

set_option maxRecDepth 100000 in
theorem le_2500 : F64.le (F64.ofDecimal false 250000 2) DailyFundLimit = true := by decide

set_option maxRecDepth 100000 in
theorem gt_3000_plus_2500 :
    F64.gt (F64.add (F64.ofDecimal false 300000 2) (F64.ofDecimal false 250000 2))
      DailyFundLimit = true := by decide

/-! ## Rounding bounds -/

theorem bitLenAux_lt (fuel : Nat) : ∀ n : Nat, n ≤ fuel → n < 2 ^ bitLenAux fuel n := by
  induction fuel with
  | zero =>
    intro n h
    have : n = 0 := by omega
    subst this
    simp [bitLenAux]
  | succ fuel ih =>
    intro n h
    unfold bitLenAux
    by_cases h0 : n = 0
    · simp [h0]
    · rw [if_neg h0, Nat.pow_succ]
      have := ih (n / 2) (by omega)
      omega

theorem bitLenAux_le (fuel : Nat) : ∀ n b : Nat, n < 2 ^ b → bitLenAux fuel n ≤ b := by
  induction fuel with
  | zero =>
    intro n b _
    simp [bitLenAux]
  | succ fuel ih =>
    intro n b h
    unfold bitLenAux
    by_cases h0 : n = 0
    · simp [h0]
    · rw [if_neg h0]
      cases b with
      | zero => simp at h; omega
      | succ b =>
        rw [Nat.pow_succ] at h
        have := ih (n / 2) b (by omega)
        omega

theorem bitLen_lt (n : Nat) : n < 2 ^ bitLen n := bitLenAux_lt n n (Nat.le_refl n)

theorem bitLen_le (n b : Nat) (h : n < 2 ^ b) : bitLen n ≤ b := bitLenAux_le n n b h

/-- The result of rounding: with `s` the shift and `d = den * 2^s` the spacing
times the denominator, the units are `q1 * 2^s` where `q1` is the quotient
`num / d` or, only when there is a remainder, the quotient plus one. -/
theorem F64.round_eq (neg : Bool) (num den : Nat) (hden : 0 < den) :
    ∃ q1 : Nat,
      F64.round neg num den
        = (if 1 <<< 2098 ≤ q1 * 2 ^ (bitLen (num / den) - 53) then F64.inf neg
           else F64.fin neg (q1 * 2 ^ (bitLen (num / den) - 53)))
      ∧ (q1 = num / (den * 2 ^ (bitLen (num / den) - 53))
        ∨ (q1 = num / (den * 2 ^ (bitLen (num / den) - 53)) + 1
          ∧ 0 < num % (den * 2 ^ (bitLen (num / den) - 53)))) := by
  have hdpos : 0 < den * 2 ^ (bitLen (num / den) - 53) :=
    Nat.mul_pos hden (Nat.pow_pos (by decide))
  have hsh : ∀ a : Nat, a <<< (bitLen (num / den) - 53) = a * 2 ^ (bitLen (num / den) - 53) :=
    fun a => Nat.shiftLeft_eq a _
  unfold F64.round
  simp only [hsh]
  split_ifs with h1 h2 h2
  · exact ⟨_, by rw [if_pos h2], Or.inr ⟨rfl, by omega⟩⟩
  · exact ⟨_, by rw [if_neg h2], Or.inr ⟨rfl, by omega⟩⟩
  · exact ⟨_, by rw [if_pos h2], Or.inl rfl⟩
  · exact ⟨_, by rw [if_neg h2], Or.inl rfl⟩

/-- Rounding does not go above a number of the grid that the exact value does
not exceed: if `num / den ≤ g * 2^s` then the result is at most `g * 2^s`
units. -/
theorem F64.round_le_grid (neg : Bool) (num den g : Nat) (hden : 0 < den)
    (hg : num ≤ g * 2 ^ (bitLen (num / den) - 53) * den)
    (hfin : g * 2 ^ (bitLen (num / den) - 53) < 1 <<< 2098) :
    ∃ k, F64.round neg num den = F64.fin neg k ∧ k ≤ g * 2 ^ (bitLen (num / den) - 53) := by
  obtain ⟨q1, hr, hq⟩ := F64.round_eq neg num den hden
  generalize bitLen (num / den) - 53 = s at *
  have hdpos : 0 < den * 2 ^ s := Nat.mul_pos hden (Nat.pow_pos (by decide))
  have hq1 : q1 ≤ g := by
    have hdiv := Nat.div_add_mod num (den * 2 ^ s)
    have hmod := Nat.mod_lt num hdpos
    have hle : num / (den * 2 ^ s) ≤ g := by
      apply Nat.div_le_of_le_mul
      calc num ≤ g * 2 ^ s * den := hg
        _ = den * 2 ^ s * g := by ring
    rcases hq with hq | ⟨hq, hpos⟩
    · omega
    · by_contra hcon
      have heq : num / (den * 2 ^ s) = g := by omega
      rw [heq] at hdiv
      have : den * 2 ^ s * g = g * 2 ^ s * den := by ring
      omega
  have hk : q1 * 2 ^ s ≤ g * 2 ^ s := Nat.mul_le_mul_right _ hq1
  refine ⟨q1 * 2 ^ s, ?_, hk⟩
  rw [hr, if_neg (Nat.not_le.2 (Nat.lt_of_le_of_lt hk hfin))]

/-- Rounding does not go below a number of the grid that the exact value
reaches: if `g * 2^s ≤ num / den` then the result is at least `g * 2^s`
units, or infinite. -/
theorem F64.round_ge_grid (neg : Bool) (num den g : Nat) (hden : 0 < den)
    (hg : g * 2 ^ (bitLen (num / den) - 53) * den ≤ num) :
    F64.round neg num den = F64.inf neg
    ∨ ∃ k, F64.round neg num den = F64.fin neg k
        ∧ g * 2 ^ (bitLen (num / den) - 53) ≤ k := by
  obtain ⟨q1, hr, hq⟩ := F64.round_eq neg num den hden
  generalize bitLen (num / den) - 53 = s at *
  have hdpos : 0 < den * 2 ^ s := Nat.mul_pos hden (Nat.pow_pos (by decide))
  have hle : g ≤ num / (den * 2 ^ s) := by
    rw [Nat.le_div_iff_mul_le hdpos]
    calc g * (den * 2 ^ s) = g * 2 ^ s * den := by ring
      _ ≤ num := hg
  have hq1 : g ≤ q1 := by
    rcases hq with hq | ⟨hq, _⟩ <;> omega
  have hk : g * 2 ^ s ≤ q1 * 2 ^ s := Nat.mul_le_mul_right _ hq1
  by_cases hov : 1 <<< 2098 ≤ q1 * 2 ^ s
  · left
    rw [hr, if_pos hov]
  · right
    exact ⟨q1 * 2 ^ s, by rw [hr, if_neg hov], hk⟩

/-- Rounding stays within one spacing below the exact value: the result times
`den`, plus `den * 2^s`, is above `num`. -/
theorem F64.round_lower (neg : Bool) (num den : Nat) (hden : 0 < den) :
    F64.round neg num den = F64.inf neg
    ∨ ∃ k, F64.round neg num den = F64.fin neg k
        ∧ num < k * den + den * 2 ^ (bitLen (num / den) - 53) := by
  obtain ⟨q1, hr, hq⟩ := F64.round_eq neg num den hden
  generalize bitLen (num / den) - 53 = s at *
  have hdpos : 0 < den * 2 ^ s := Nat.mul_pos hden (Nat.pow_pos (by decide))
  have hdiv := Nat.div_add_mod num (den * 2 ^ s)
  have hmod := Nat.mod_lt num hdpos
  have hq1 : num / (den * 2 ^ s) ≤ q1 := by
    rcases hq with hq | ⟨hq, _⟩ <;> omega
  have hmul : den * 2 ^ s * (num / (den * 2 ^ s)) ≤ den * 2 ^ s * q1 :=
    Nat.mul_le_mul_left _ hq1
  by_cases hov : 1 <<< 2098 ≤ q1 * 2 ^ s
  · left
    rw [hr, if_pos hov]
  · right
    refine ⟨q1 * 2 ^ s, by rw [hr, if_neg hov], ?_⟩
    have : q1 * 2 ^ s * den = den * 2 ^ s * q1 := by ring
    omega

/-- Every result of rounding is a binary64 number. -/
theorem F64.isFloat_round (neg : Bool) (num den : Nat) (hden : 0 < den) :
    F64.isFloat (F64.round neg num den) = true := by
  obtain ⟨q1, hr, hq⟩ := F64.round_eq neg num den hden
  have hn := bitLen_lt (num / den)
  have hq53 : num / (den * 2 ^ (bitLen (num / den) - 53)) < 2 ^ 53 := by
    rw [← Nat.div_div_eq_div_mul, Nat.div_lt_iff_lt_mul (Nat.pow_pos (by decide)), ← pow_add]
    exact Nat.lt_of_lt_of_le hn (Nat.pow_le_pow_right (by decide) (by omega))
  generalize bitLen (num / den) - 53 = s at *
  have hq1 : q1 ≤ 2 ^ 53 := by
    rcases hq with hq | ⟨hq, _⟩ <;> omega
  rw [hr]
  split_ifs with hov
  · rfl
  · have hk : q1 * 2 ^ s < 2 ^ (54 + s) := by
      have h1 : q1 * 2 ^ s ≤ 2 ^ 53 * 2 ^ s := Nat.mul_le_mul_right _ hq1
      have h2 : 2 ^ (54 + s) = 2 * (2 ^ 53 * 2 ^ s) := by
        rw [show 54 + s = (53 + s) + 1 by omega, pow_succ, pow_add]
        ring
      have h3 : 0 < 2 ^ 53 * 2 ^ s := Nat.mul_pos (Nat.pow_pos (by decide)) (Nat.pow_pos (by decide))
      omega
    have hb := bitLen_le _ _ hk
    have hdvd : 2 ^ (bitLen (q1 * 2 ^ s) - 53) ∣ q1 * 2 ^ s := by
      by_cases hlt : q1 < 2 ^ 53
      · have hk2 : q1 * 2 ^ s < 2 ^ (53 + s) := by
          rw [pow_add]
          exact Nat.mul_lt_mul_of_pos_right hlt (Nat.pow_pos (by decide))
        have hb2 := bitLen_le _ _ hk2
        exact Dvd.dvd.mul_left (Nat.pow_dvd_pow 2 (by omega)) q1
      · have hq53 : q1 = 2 ^ 53 := by omega
        rw [hq53, ← pow_add] at hb ⊢
        exact Nat.pow_dvd_pow 2 (by omega)
    have hone : (1 : Nat) <<< (bitLen (q1 * 2 ^ s) - 53) = 2 ^ (bitLen (q1 * 2 ^ s) - 53) := by
      rw [Nat.shiftLeft_eq, Nat.one_mul]
    simp only [F64.isFloat, hone, Bool.and_eq_true, decide_eq_true_eq]
    exact ⟨Nat.not_le.1 hov, Nat.mod_eq_zero_of_dvd hdvd⟩

/-! ## Amounts of two decimals up to the daily limit -/

theorem pow_1074 : (2 : Nat) ^ 1074 = 1099511627776 * 2 ^ 1034 := by
  have h40 : (2 : Nat) ^ 40 = 1099511627776 := by norm_num
  rw [show (1074 : Nat) = 40 + 1034 from rfl, pow_add, h40]

set_option exponentiation.threshold 4096 in
/-- The `float64` of an amount of `c` cents, `c` at most 500000: a binary64
number of at most 5000.00, less than `2^(-40)` below `c / 100`. -/
theorem ofDecimal_cents (c : Nat) (hc : c ≤ 500000) :
    ∃ k, F64.ofDecimal false c 2 = F64.fin false k
      ∧ F64.isFloat (F64.fin false k) = true
      ∧ k ≤ 5000 * 2 ^ 1074
      ∧ c * 2 ^ 1074 < k * 100 + 100 * 2 ^ 1034 := by
  have hof : F64.ofDecimal false c 2 = F64.round false (c * 2 ^ 1074) 100 := by
    have h100 : 10 ^ 2 = 100 := by norm_num
    have h1 : F64.ofDecimal false c 2 = F64.round false (c <<< 1074) (10 ^ 2) := rfl
    exact h1.trans ((congrArg (fun n => F64.round false n (10 ^ 2)) (Nat.shiftLeft_eq c 1074)).trans
      (congrArg (F64.round false (c * 2 ^ 1074)) h100))
  have hfl := F64.isFloat_round false (c * 2 ^ 1074) 100 (by decide)
  have hPpos : 0 < 2 ^ 1034 := Nat.pow_pos (by decide)
  have hcU : c * 2 ^ 1074 ≤ 500000 * 2 ^ 1074 := Nat.mul_le_mul_right _ hc
  have hn : c * 2 ^ 1074 / 100 < 2 ^ 1087 := by
    have h1 : (2 : Nat) ^ 1087 = 2 ^ 13 * 2 ^ 1074 := by
      rw [show (1087 : Nat) = 13 + 1074 from rfl, pow_add]
    have h13 : (2 : Nat) ^ 13 = 8192 := by norm_num
    rw [h1, h13]
    have := Nat.div_le_self (c * 2 ^ 1074) 100
    have h2 : c * 2 ^ 1074 / 100 ≤ 500000 * 2 ^ 1074 / 100 := Nat.div_le_div_right hcU
    have h3 : 500000 * 2 ^ 1074 / 100 = 5000 * 2 ^ 1074 := by
      rw [show 500000 * 2 ^ 1074 = 100 * (5000 * 2 ^ 1074) by ring]
      exact Nat.mul_div_cancel_left _ (by decide)
    have hUpos : 0 < 2 ^ 1074 := Nat.pow_pos (by decide)
    generalize (2 : Nat) ^ 1074 = U at *
    omega
  have hs : bitLen (c * 2 ^ 1074 / 100) - 53 ≤ 1034 := by
    have := bitLen_le _ _ hn
    omega
  have hgrid : 5000 * 2 ^ (1074 - (bitLen (c * 2 ^ 1074 / 100) - 53))
      * 2 ^ (bitLen (c * 2 ^ 1074 / 100) - 53) = 5000 * 2 ^ 1074 := by
    rw [mul_assoc, ← pow_add, Nat.sub_add_cancel (by omega)]
  have hspace : 2 ^ (bitLen (c * 2 ^ 1074 / 100) - 53) ≤ 2 ^ 1034 :=
    Nat.pow_le_pow_right (by decide) hs
  have hlimit : 5000 * 2 ^ 1074 < 1 <<< 2098 := by
    rw [Nat.shiftLeft_eq, Nat.one_mul]
    have h1 : (2 : Nat) ^ 2098 = 2 ^ 1024 * 2 ^ 1074 := by
      rw [show (2098 : Nat) = 1024 + 1074 from rfl, pow_add]
    rw [h1]
    apply Nat.mul_lt_mul_of_pos_right _ (Nat.pow_pos (by decide))
    calc 5000 < 2 ^ 13 := by norm_num
      _ ≤ 2 ^ 1024 := Nat.pow_le_pow_right (by decide) (by decide)
  obtain ⟨k, hk, hle⟩ := F64.round_le_grid false (c * 2 ^ 1074) 100
    (5000 * 2 ^ (1074 - (bitLen (c * 2 ^ 1074 / 100) - 53))) (by decide)
    (by
      rw [hgrid]
      generalize (2 : Nat) ^ 1074 = U at *
      omega)
    (by rw [hgrid]; exact hlimit)
  rw [hgrid] at hle
  rcases F64.round_lower false (c * 2 ^ 1074) 100 (by decide) with hinf | ⟨k2, hk2, hlow⟩
  · rw [hk] at hinf
    cases hinf
  · rw [hk] at hk2 hfl
    have hkk : k = k2 := by
      cases hk2
      rfl
    subst hkk
    refine ⟨k, by rw [hof, hk], hfl, hle, ?_⟩
    generalize 2 ^ (bitLen (c * 2 ^ 1074 / 100) - 53) = d at *
    generalize (2 : Nat) ^ 1034 = P at *
    generalize (c * 2 ^ 1074) = X at *
    omega

set_option exponentiation.threshold 4096 in
/-- An amount of two decimals up to 5000.00 is at most the daily limit as a
`float64` too. -/
theorem le_cents (c : Nat) (hc : c ≤ 500000) :
    F64.le (F64.ofDecimal false c 2) DailyFundLimit = true := by
  obtain ⟨k, hk, _, hle, _⟩ := ofDecimal_cents c hc
  rw [hk, DailyFundLimit_eq, Nat.shiftLeft_eq]
  simp only [F64.le, F64.signed, Bool.false_eq_true, if_false, decide_eq_true_eq]
  exact Nat.cast_le.2 hle

set_option exponentiation.threshold 4096 in
/-- Two amounts of two decimals, each up to 5000.00, whose exact sum is over
5000.00: their `float64` sum is over the daily limit. -/
theorem gt_cents_sum (ca cb : Nat) (ha : ca ≤ 500000) (hb : cb ≤ 500000)
    (hsum : 500000 < ca + cb) :
    F64.gt (F64.add (F64.ofDecimal false ca 2) (F64.ofDecimal false cb 2)) DailyFundLimit
      = true := by
  obtain ⟨ka, hka, _, hale, halow⟩ := ofDecimal_cents ca ha
  obtain ⟨kb, hkb, _, hble, hblow⟩ := ofDecimal_cents cb hb
  have hU := pow_1074
  have hPpos : 0 < 2 ^ 1034 := Nat.pow_pos (by decide)
  have hcU : 500001 * 2 ^ 1074 ≤ (ca + cb) * 2 ^ 1074 := Nat.mul_le_mul_right _ (by omega)
  rw [Nat.add_mul] at hcU
  have hbig : 500000 * 2 ^ 1074 + 200 * 2 ^ 1034 ≤ 100 * (ka + kb) := by
    generalize (2 : Nat) ^ 1074 = U at *
    generalize (2 : Nat) ^ 1034 = P at *
    generalize ca * U = X at *
    generalize cb * U = Y at *
    omega
  have hn : (ka + kb) / 1 < 2 ^ 1088 := by
    have h1 : (2 : Nat) ^ 1088 = 2 ^ 14 * 2 ^ 1074 := by
      rw [show (1088 : Nat) = 14 + 1074 from rfl, pow_add]
    have h14 : (2 : Nat) ^ 14 = 16384 := by norm_num
    have hUpos : 0 < 2 ^ 1074 := Nat.pow_pos (by decide)
    rw [Nat.div_one, h1, h14]
    generalize (2 : Nat) ^ 1074 = U at *
    omega
  have hs : bitLen ((ka + kb) / 1) - 53 ≤ 1035 := by
    have := bitLen_le _ _ hn
    omega
  have hspace : 2 ^ (bitLen ((ka + kb) / 1) - 53) ≤ 2 * 2 ^ 1034 := by
    have h := Nat.pow_le_pow_right (show 0 < 2 by decide) hs
    rw [show (1035 : Nat) = 1034 + 1 from rfl, pow_succ] at h
    omega
  have hgrid : (5000 * 2 ^ (1074 - (bitLen ((ka + kb) / 1) - 53)) + 1)
      * 2 ^ (bitLen ((ka + kb) / 1) - 53) * 1
      = 5000 * 2 ^ 1074 + 2 ^ (bitLen ((ka + kb) / 1) - 53) := by
    rw [Nat.mul_one, Nat.add_mul, Nat.one_mul, mul_assoc, ← pow_add,
      Nat.sub_add_cancel (by omega)]
  have hround := F64.round_ge_grid false (ka + kb) 1
    (5000 * 2 ^ (1074 - (bitLen ((ka + kb) / 1) - 53)) + 1) (by decide)
    (by
      rw [hgrid]
      generalize 2 ^ (bitLen ((ka + kb) / 1) - 53) = d at *
      generalize (2 : Nat) ^ 1074 = U at *
      generalize (2 : Nat) ^ 1034 = P at *
      omega)
  have hpos : 0 < ka + kb := by
    generalize (2 : Nat) ^ 1074 = U at *
    generalize (2 : Nat) ^ 1034 = P at *
    omega
  have hadd : F64.add (F64.fin false ka) (F64.fin false kb) = F64.round false (ka + kb) 1 := by
    have hs0 : ¬ ((ka : Int) + (kb : Int) = 0) := by omega
    have hneg : decide ((ka : Int) + (kb : Int) < 0) = false := by
      rw [decide_eq_false_iff_not]
      omega
    have habs : ((ka : Int) + (kb : Int)).natAbs = ka + kb := by omega
    simp only [F64.add, F64.signed, Bool.false_eq_true, if_false, hs0, hneg, habs]
  rw [hka, hkb, hadd, DailyFundLimit_eq, Nat.shiftLeft_eq]
  rcases hround with hinf | ⟨k, hk, hge⟩
  · rw [hinf]
    rfl
  · rw [hk]
    rw [Nat.mul_one] at hgrid
    rw [hgrid] at hge
    have hdpos : 0 < 2 ^ (bitLen ((ka + kb) / 1) - 53) := Nat.pow_pos (by decide)
    simp only [F64.gt, F64.signed, Bool.false_eq_true, if_false, decide_eq_true_eq]
    have hlt : 5000 * 2 ^ 1074 < k := by omega
    exact Nat.cast_lt.2 hlt

/-! ## C12: the order of two requests -/

/-- Two requests of one customer on one day, the first on a store without an
account of the customer: the first is accepted and the second is rejected by
the daily fund limit. -/
theorem LoadFund_first_then_second (c : Cache) (first second : Fund)
    (hnone : c.Get first.CustomerID = none)
    (hcust : second.CustomerID = first.CustomerID)
    (hid : first.ID ≠ second.ID)
    (hday : first.Time.days = second.Time.days)
    (hfl : F64.isFloat first.LoadAmount = true)
    (hle : F64.le first.LoadAmount DailyFundLimit = true)
    (hsum : F64.gt (F64.add first.LoadAmount second.LoadAmount) DailyFundLimit = true) :
    (LoadFund first c).1 = (false, none)
    ∧ (LoadFund second (LoadFund first c).2).1
        = (false, some ("accountID: " ++ first.CustomerID
            ++ " exceed daily fund limit when process loadID: " ++ second.ID)) := by
  obtain ⟨hret, hstored⟩ := LoadFund_first_le c first hnone hfl hle
  refine ⟨hret, ?_⟩
  rw [← hcust] at hstored ⊢
  exact LoadFund_second_over _ first second hstored hid hday hfl hsum

set_option maxRecDepth 100000 in
/-- C12 fails in its general clause: the amounts a = 5000.00 and
b = 0.0000000000001 are between 0 and 5000.00 and their sum is over 5000.00,
and for a customer with no stored account the second request is accepted in
both orders, the `float64` total being 5000.00. -/
theorem LoadFund_second_accepted_both_orders :
    F64.le F64.zero amt5000 = true ∧ F64.le amt5000 DailyFundLimit = true
    ∧ F64.le F64.zero amtTiny = true ∧ F64.le amtTiny DailyFundLimit = true
    ∧ (exactSum capLoads).map (fun s => decide (((5000 <<< 1074 : Nat) : Int) < s)) = some true
    ∧ Cache.empty.Get "18" = none
    ∧ (LoadFund ⟨"1", "18", amt5000, monday⟩ Cache.empty).1 = (false, none)
    ∧ (LoadFund ⟨"2", "18", amtTiny, monday⟩
        (LoadFund ⟨"1", "18", amt5000, monday⟩ Cache.empty).2).1 = (false, none)
    ∧ (LoadFund ⟨"2", "18", amtTiny, monday⟩ Cache.empty).1 = (false, none)
    ∧ (LoadFund ⟨"1", "18", amt5000, monday⟩
        (LoadFund ⟨"2", "18", amtTiny, monday⟩ Cache.empty).2).1 = (false, none) := by
  decide

/-- C12, with the sum of the general clause as the code computes it. Order
sensitivity: for a customer with no stored account and two requests A (amount
3000) and B (amount 2500) with distinct IDs on the same day, `LoadFund(A)` then
`LoadFund(B)` accepts A and rejects B with the daily fund limit error, and
`LoadFund(B)` then `LoadFund(A)` accepts B and rejects A with it. More
generally, for any two same-day amounts a and b that are numbers at most
5000.00 each and whose `float64` sum a + b is over 5000.00 the first submitted
is accepted and the second rejected; this includes all amounts of two decimals
from 0.00 to 5000.00 whose exact sum is over 5000.00. (That the amounts are not
negative is not needed.) -/
theorem LoadFund_order_sensitive :
    (∀ (c : Cache) (A B : Fund),
      c.Get A.CustomerID = none → B.CustomerID = A.CustomerID → A.ID ≠ B.ID →
      A.Time.days = B.Time.days →
      F64.isFloat A.LoadAmount = true → F64.isFloat B.LoadAmount = true →
      F64.le A.LoadAmount DailyFundLimit = true → F64.le B.LoadAmount DailyFundLimit = true →
      F64.gt (F64.add A.LoadAmount B.LoadAmount) DailyFundLimit = true →
      ((LoadFund A c).1 = (false, none)
        ∧ (LoadFund B (LoadFund A c).2).1
            = (false, some ("accountID: " ++ A.CustomerID
                ++ " exceed daily fund limit when process loadID: " ++ B.ID)))
      ∧ ((LoadFund B c).1 = (false, none)
        ∧ (LoadFund A (LoadFund B c).2).1
            = (false, some ("accountID: " ++ A.CustomerID
                ++ " exceed daily fund limit when process loadID: " ++ A.ID))))
    ∧ (∀ (c : Cache) (A B : Fund),
      c.Get A.CustomerID = none → B.CustomerID = A.CustomerID → A.ID ≠ B.ID →
      A.Time.days = B.Time.days →
      A.LoadAmount = F64.ofDecimal false 300000 2 →
      B.LoadAmount = F64.ofDecimal false 250000 2 →
      ((LoadFund A c).1 = (false, none)
        ∧ (LoadFund B (LoadFund A c).2).1
            = (false, some ("accountID: " ++ A.CustomerID
                ++ " exceed daily fund limit when process loadID: " ++ B.ID)))
      ∧ ((LoadFund B c).1 = (false, none)
        ∧ (LoadFund A (LoadFund B c).2).1
            = (false, some ("accountID: " ++ A.CustomerID
                ++ " exceed daily fund limit when process loadID: " ++ A.ID))))
    ∧ (∀ (c : Cache) (A B : Fund) (ca cb : Nat),
      c.Get A.CustomerID = none → B.CustomerID = A.CustomerID → A.ID ≠ B.ID →
      A.Time.days = B.Time.days →
      A.LoadAmount = F64.ofDecimal false ca 2 →
      B.LoadAmount = F64.ofDecimal false cb 2 →
      ca ≤ 500000 → cb ≤ 500000 → 500000 < ca + cb →
      ((LoadFund A c).1 = (false, none)
        ∧ (LoadFund B (LoadFund A c).2).1
            = (false, some ("accountID: " ++ A.CustomerID
                ++ " exceed daily fund limit when process loadID: " ++ B.ID)))
      ∧ ((LoadFund B c).1 = (false, none)
        ∧ (LoadFund A (LoadFund B c).2).1
            = (false, some ("accountID: " ++ A.CustomerID
                ++ " exceed daily fund limit when process loadID: " ++ A.ID)))) := by
  have general : ∀ (c : Cache) (A B : Fund),
      c.Get A.CustomerID = none → B.CustomerID = A.CustomerID → A.ID ≠ B.ID →
      A.Time.days = B.Time.days →
      F64.isFloat A.LoadAmount = true → F64.isFloat B.LoadAmount = true →
      F64.le A.LoadAmount DailyFundLimit = true → F64.le B.LoadAmount DailyFundLimit = true →
      F64.gt (F64.add A.LoadAmount B.LoadAmount) DailyFundLimit = true →
      ((LoadFund A c).1 = (false, none)
        ∧ (LoadFund B (LoadFund A c).2).1
            = (false, some ("accountID: " ++ A.CustomerID
                ++ " exceed daily fund limit when process loadID: " ++ B.ID)))
      ∧ ((LoadFund B c).1 = (false, none)
        ∧ (LoadFund A (LoadFund B c).2).1
            = (false, some ("accountID: " ++ A.CustomerID
                ++ " exceed daily fund limit when process loadID: " ++ A.ID))) := by
    intro c A B hnone hcust hid hday hfa hfb hla hlb hsum
    refine ⟨LoadFund_first_then_second c A B hnone hcust hid hday hfa hla hsum, ?_⟩
    have hnoneB : c.Get B.CustomerID = none := by rw [hcust]; exact hnone
    have hsumB : F64.gt (F64.add B.LoadAmount A.LoadAmount) DailyFundLimit = true := by
      rw [F64.add_comm]
      exact hsum
    have := LoadFund_first_then_second c B A hnoneB hcust.symm (fun e => hid e.symm)
      hday.symm hfb hlb hsumB
    rw [hcust] at this
    exact this
  refine ⟨general, ?_, ?_⟩
  · intro c A B hnone hcust hid hday ha hb
    exact general c A B hnone hcust hid hday (by rw [ha]; exact isFloat_3000)
      (by rw [hb]; exact isFloat_2500) (by rw [ha]; exact le_3000) (by rw [hb]; exact le_2500)
      (by rw [ha, hb]; exact gt_3000_plus_2500)
  · intro c A B ca cb hnone hcust hid hday ha hb hca hcb hsum
    exact general c A B hnone hcust hid hday
      (by rw [ha]; exact F64.isFloat_round false _ _ (Nat.pow_pos (by decide)))
      (by rw [hb]; exact F64.isFloat_round false _ _ (Nat.pow_pos (by decide)))
      (by rw [ha]; exact le_cents ca hca) (by rw [hb]; exact le_cents cb hcb)
      (by rw [ha, hb]; exact gt_cents_sum ca cb hca hcb hsum)

set_option maxRecDepth 100000 in
/-- C12 at a concrete input: customer 18 has no account; load 1 of 3000.00 and
load 2 of 2500.00 arrive on Monday 2020-11-16. -/
theorem LoadFund_order_sensitive_witness :
    (LoadFund (⟨"1", "18", F64.ofDecimal false 300000 2, monday⟩ : Fund) Cache.empty).1
      = (false, none)
    ∧ (LoadFund (⟨"2", "18", F64.ofDecimal false 250000 2, monday⟩ : Fund)
        (LoadFund (⟨"1", "18", F64.ofDecimal false 300000 2, monday⟩ : Fund) Cache.empty).2).1
      = (false, some "accountID: 18 exceed daily fund limit when process loadID: 2")
    ∧ (LoadFund (⟨"2", "18", F64.ofDecimal false 250000 2, monday⟩ : Fund) Cache.empty).1
      = (false, none)
    ∧ (LoadFund (⟨"1", "18", F64.ofDecimal false 300000 2, monday⟩ : Fund)
        (LoadFund (⟨"2", "18", F64.ofDecimal false 250000 2, monday⟩ : Fund) Cache.empty).2).1
      = (false, some "accountID: 18 exceed daily fund limit when process loadID: 1") := by
  obtain ⟨⟨h1, h2⟩, h3, h4⟩ :=
    LoadFund_order_sensitive.1 Cache.empty
      (⟨"1", "18", F64.ofDecimal false 300000 2, monday⟩ : Fund)
      (⟨"2", "18", F64.ofDecimal false 250000 2, monday⟩ : Fund)
      rfl rfl (by decide) rfl (by decide) (by decide) (by decide) (by decide) (by decide)
  exact ⟨h1, h2, h3, h4⟩

/-! ## C19: the first request of a customer -/

set_option maxRecDepth 100000 in
/-- C19 fails for an amount that is no number: NaN is not at most 5000.00, and
a first request with the amount NaN is accepted, NaN being over no limit. -/
theorem LoadFund_first_NaN_accepted :
    F64.le F64.nan DailyFundLimit = false
    ∧ Cache.empty.Get (request F64.nan wednesday).CustomerID = none
    ∧ (LoadFund (request F64.nan wednesday) Cache.empty).1 = (false, none) := by
  decide

/-- NaN is greater than nothing. -/
theorem F64.gt_nan (y : F64) : F64.gt F64.nan y = false := by
  cases y <;> rfl

/-- The total `0 + NaN` is over no limit. -/
theorem F64.gt_zero_add_nan (limit : F64) :
    F64.gt (F64.add F64.zero F64.nan) limit = false :=
  F64.gt_nan limit

/-- The first request of a customer, with an amount that is over no limit, as
the amount NaN is: it is accepted and the account is stored with the one load. -/
theorem LoadFund_first_not_gt (c : Cache) (fund : Fund)
    (hnone : c.Get fund.CustomerID = none)
    (hd0 : F64.gt (F64.add F64.zero fund.LoadAmount) DailyFundLimit = false)
    (hw0 : F64.gt (F64.add F64.zero fund.LoadAmount) WeeklyFundLimit = false) :
    (LoadFund fund c).1 = (false, none)
    ∧ (LoadFund fund c).2.Get fund.CustomerID
        = some { ID := fund.CustomerID, LoadIDs := [fund.ID],
                 Transactions := ⟨[(fund.Time.Format, [fund])]⟩ } := by
  have hacc := accountFor_of_none fund c hnone
  have hnew : fund.ID ∉ (accountFor fund c).LoadIDs := by rw [hacc]; simp
  have hd : (accountFor fund c).checkDailyLimit fund = none := by
    rw [hacc]
    simp [CustomerAccount.checkDailyLimit, DailyNumberOfLoadsLimit, TxMap.get_empty,
      sumLoads, hd0]
  have hw : (accountFor fund c).checkWeeklyLimit fund = none := by
    rw [hacc]
    have hz := weeklyTotal_of_no_loads
      { ID := fund.CustomerID, LoadIDs := [], Transactions := TxMap.empty } fund
      (fun k => TxMap.get_empty k)
    simp [CustomerAccount.checkWeeklyLimit, hz, hw0]
  obtain ⟨hret, hstored, _, _⟩ := LoadFund_of_pass c fund hnew hd hw
  refine ⟨hret, ?_⟩
  rw [hacc] at hstored
  rw [hstored, seenAccount, hacc]
  rfl

/-- C19, with the amount NaN set apart. For a customer with no entry in the
store `LoadFund` works on a fresh account with ID = `request.CustomerID` and an
empty ledger. A request whose amount is a number is accepted if and only if the
amount is at most 5000.00, and a request whose amount is NaN is accepted. When
the request is accepted the stored account is `{ID: customer, LoadIDs:
[request id], Transactions: {day-key: [request]}}`. When it is not, the error
is the daily fund limit error, whatever the amount (the daily check runs before
the weekly one), and the stored account is `{ID: customer, LoadIDs:
[request id]}` with no `Transactions`. -/
theorem LoadFund_first_request (c : Cache) (fund : Fund)
    (hnone : c.Get fund.CustomerID = none)
    (hfl : F64.isFloat fund.LoadAmount = true) :
    accountFor fund c = { ID := fund.CustomerID, LoadIDs := [], Transactions := TxMap.empty }
    ∧ (fund.LoadAmount ≠ F64.nan →
        ((LoadFund fund c).1 = (false, none) ↔ F64.le fund.LoadAmount DailyFundLimit = true))
    ∧ (fund.LoadAmount = F64.nan → (LoadFund fund c).1 = (false, none))
    ∧ ((LoadFund fund c).1 = (false, none) →
        (LoadFund fund c).2.Get fund.CustomerID
          = some { ID := fund.CustomerID, LoadIDs := [fund.ID],
                   Transactions := ⟨[(fund.Time.Format, [fund])]⟩ })
    ∧ ((LoadFund fund c).1 ≠ (false, none) →
        (LoadFund fund c).1
          = (false, some ("accountID: " ++ fund.CustomerID
              ++ " exceed daily fund limit when process loadID: " ++ fund.ID))
        ∧ (LoadFund fund c).2.Get fund.CustomerID
            = some { ID := fund.CustomerID, LoadIDs := [fund.ID],
                     Transactions := TxMap.empty })
    ∧ (F64.le fund.LoadAmount DailyFundLimit = true →
        (LoadFund fund c).1 = (false, none)
        ∧ (LoadFund fund c).2.Get fund.CustomerID
            = some { ID := fund.CustomerID, LoadIDs := [fund.ID],
                     Transactions := ⟨[(fund.Time.Format, [fund])]⟩ })
    ∧ (fund.LoadAmount ≠ F64.nan → F64.le fund.LoadAmount DailyFundLimit = false →
        (LoadFund fund c).1
          = (false, some ("accountID: " ++ fund.CustomerID
              ++ " exceed daily fund limit when process loadID: " ++ fund.ID))
        ∧ (LoadFund fund c).2.Get fund.CustomerID
            = some { ID := fund.CustomerID, LoadIDs := [fund.ID],
                     Transactions := TxMap.empty }) := by
  have hlim : DailyFundLimit ≠ F64.nan := by
    rw [DailyFundLimit_eq]
    exact fun h => F64.noConfusion h
  have hcases : F64.gt fund.LoadAmount DailyFundLimit = true
      ∨ ((LoadFund fund c).1 = (false, none)
        ∧ (LoadFund fund c).2.Get fund.CustomerID
            = some { ID := fund.CustomerID, LoadIDs := [fund.ID],
                     Transactions := ⟨[(fund.Time.Format, [fund])]⟩ }) := by
    cases hg : F64.gt fund.LoadAmount DailyFundLimit with
    | true => exact Or.inl rfl
    | false =>
      right
      by_cases hnan : fund.LoadAmount = F64.nan
      · exact LoadFund_first_not_gt c fund hnone (by rw [hnan]; exact F64.gt_zero_add_nan _)
          (by rw [hnan]; exact F64.gt_zero_add_nan _)
      · have hle : F64.le fund.LoadAmount DailyFundLimit = true := by
          rw [F64.le_iff_not_gt _ _ hnan hlim, hg]
          rfl
        exact LoadFund_first_le c fund hnone hfl hle
  have hrej : F64.gt fund.LoadAmount DailyFundLimit = true →
      (LoadFund fund c).1
        = (false, some ("accountID: " ++ fund.CustomerID
            ++ " exceed daily fund limit when process loadID: " ++ fund.ID))
      ∧ (LoadFund fund c).2.Get fund.CustomerID
          = some { ID := fund.CustomerID, LoadIDs := [fund.ID],
                   Transactions := TxMap.empty } :=
    LoadFund_first_gt c fund hnone hfl
  have hgt_of_le_false : fund.LoadAmount ≠ F64.nan →
      F64.le fund.LoadAmount DailyFundLimit = false →
      F64.gt fund.LoadAmount DailyFundLimit = true := by
    intro hnum hle
    have hneg := F64.le_iff_not_gt fund.LoadAmount DailyFundLimit hnum hlim
    rw [hle] at hneg
    cases hg : F64.gt fund.LoadAmount DailyFundLimit with
    | true => rfl
    | false => rw [hg] at hneg; cases hneg
  refine ⟨accountFor_of_none fund c hnone, ?_, ?_, ?_, ?_,
    LoadFund_first_le c fund hnone hfl, fun hnum hle => hrej (hgt_of_le_false hnum hle)⟩
  · intro hnum
    constructor
    · intro hacc
      cases hle : F64.le fund.LoadAmount DailyFundLimit with
      | true => rfl
      | false =>
        rw [(hrej (hgt_of_le_false hnum hle)).1] at hacc
        cases hacc
    · intro hle
      exact (LoadFund_first_le c fund hnone hfl hle).1
  · intro hnan
    exact (LoadFund_first_not_gt c fund hnone (by rw [hnan]; exact F64.gt_zero_add_nan _)
          (by rw [hnan]; exact F64.gt_zero_add_nan _)).1
  · intro hacc
    rcases hcases with hg | ⟨_, hst⟩
    · rw [(hrej hg).1] at hacc
      cases hacc
    · exact hst
  · intro hnacc
    rcases hcases with hg | ⟨hacc, _⟩
    · exact hrej hg
    · exact absurd hacc hnacc

set_option maxRecDepth 100000 in
/-- C19 at the input of `TestExceedDailyAmountLimit`, a first load of 5000.01,
at a first load of 50000.00, which both get the daily fund limit error, at a
first load of 5000.00, and at a first load with the amount NaN, which are
accepted. -/
theorem LoadFund_first_request_witness :
    (LoadFund (request (F64.ofDecimal false 500001 2) wednesday) Cache.empty).1
      = (false, some "accountID: 18 exceed daily fund limit when process loadID: 29370")
    ∧ (LoadFund (request (F64.ofDecimal false 5000000 2) wednesday) Cache.empty).1
      = (false, some "accountID: 18 exceed daily fund limit when process loadID: 29370")
    ∧ (LoadFund (request (F64.ofDecimal false 500000 2) wednesday) Cache.empty).2.Get "18"
      = some { ID := "18", LoadIDs := ["29370"],
               Transactions :=
                 ⟨[(wednesday.Format, [request (F64.ofDecimal false 500000 2) wednesday])]⟩ }
    ∧ (LoadFund (request F64.nan wednesday) Cache.empty).1 = (false, none) :=
  ⟨((LoadFund_first_request Cache.empty (request (F64.ofDecimal false 500001 2) wednesday)
      rfl (by decide)).2.2.2.2.2.2 (by decide) (by decide)).1,
   ((LoadFund_first_request Cache.empty (request (F64.ofDecimal false 5000000 2) wednesday)
      rfl (by decide)).2.2.2.2.2.2 (by decide) (by decide)).1,
   ((LoadFund_first_request Cache.empty (request (F64.ofDecimal false 500000 2) wednesday)
      rfl (by decide)).2.2.2.2.2.1 (by decide)).2,
   (LoadFund_first_request Cache.empty (request F64.nan wednesday)
      rfl (by decide)).2.2.1 rfl⟩

/-! ## C20: the days `checkWeeklyLimit` sums -/

/-- The key of the date `i` days before the request is the day-key of that
calendar day. -/
theorem Format_AddDate (t : Time) (n : Int) (h : t.nsec < 1000000000) :
    (t.AddDate 0 0 n).Format = dayKeyOf (t.days + n) := by
  have hd := (Time.AddDate_days t n h).1
  simp only [Time.Format, Time.Month, Time.Day, dayKeyOf, hd]

theorem weeklyTotal_eq_days (a : CustomerAccount) (fund : Fund)
    (h : fund.Time.nsec < 1000000000) :
    a.weeklyTotal fund
      = (List.range fund.Time.Weekday).foldl
          (fun (total : F64) (i : Nat) =>
            sumLoads total (a.Transactions.get (dayKeyOf (fund.Time.days - (i : Int)))))
          F64.zero := by
  unfold CustomerAccount.weeklyTotal
  have hf : (fun (total : F64) (i : Nat) =>
        sumLoads total (a.Transactions.get (fund.Time.AddDate 0 0 (-(i : Int))).Format))
      = (fun (total : F64) (i : Nat) =>
        sumLoads total (a.Transactions.get (dayKeyOf (fund.Time.days - (i : Int))))) := by
    funext total i
    rw [Format_AddDate _ _ h, Int.sub_eq_add_neg]
  rw [hf]

theorem weekdayOf_window (z : Int) :
    weekdayOf z ≤ 6
    ∧ (1 ≤ weekdayOf z → weekdayOf (z - ((weekdayOf z : Nat) : Int) + 1) = 1)
    ∧ (∀ i : Nat, i < weekdayOf z → weekdayOf (z - (i : Int)) = weekdayOf z - i) := by
  simp only [weekdayOf]
  refine ⟨by omega, by omega, ?_⟩
  intro i hi
  omega

theorem checkWeeklyLimit_sunday (a : CustomerAccount) (fund : Fund)
    (hsun : fund.Time.Weekday = 0) :
    a.weeklyTotal fund = F64.zero
    ∧ (a.checkWeeklyLimit fund = none
        ↔ F64.gt (F64.add F64.zero fund.LoadAmount) WeeklyFundLimit = false) := by
  have hz : a.weeklyTotal fund = F64.zero := by
    simp [CustomerAccount.weeklyTotal, hsun]
  refine ⟨hz, ?_⟩
  unfold CustomerAccount.checkWeeklyLimit
  rw [hz]
  cases hg : F64.gt (F64.add F64.zero fund.LoadAmount) WeeklyFundLimit <;> simp

set_option maxRecDepth 100000 in
/-- C20 fails for an amount that is no number: on Sunday 2020-11-22 a request
with the amount NaN passes the weekly check, and NaN is not at most 20000.00. -/
theorem checkWeeklyLimit_sunday_NaN :
    sunday.Weekday = 0
    ∧ F64.le F64.nan WeeklyFundLimit = false
    ∧ weekAccount.checkWeeklyLimit (request F64.nan sunday) = none := by
  decide

/-- C20, with the Sunday test stated for an amount that is a number.
`checkWeeklyLimit` sums the buckets of the request's date and of the
`Weekday() - 1` dates before it, Go's weekday being Sunday = 0, Monday = 1, ...,
Saturday = 6: the keys are the day-keys of the calendar days `days - i` for
`i < Weekday()`, the day `days - i` has weekday `Weekday() - i`, so on Monday
through Saturday the days run from the request's day back to the Monday of its
week, and a day without recorded loads leaves the total as it is. On a Sunday
the loop body never runs: the total is zero whatever is recorded, the request
passes the weekly check if and only if its amount is not greater than 20000.00,
and for an amount that is a number that is: at most 20000.00. -/
theorem checkWeeklyLimit_days :
    (∀ (a : CustomerAccount) (fund : Fund), fund.Time.nsec < 1000000000 →
      a.weeklyTotal fund
        = (List.range fund.Time.Weekday).foldl
            (fun (total : F64) (i : Nat) =>
              sumLoads total (a.Transactions.get (dayKeyOf (fund.Time.days - (i : Int)))))
            F64.zero)
    ∧ (∀ t : Time, t.Weekday = weekdayOf t.days ∧ t.Weekday ≤ 6
      ∧ (∀ i : Nat, i < t.Weekday → weekdayOf (t.days - (i : Int)) = t.Weekday - i)
      ∧ (∀ i : Nat, i + 1 = t.Weekday → weekdayOf (t.days - (i : Int)) = 1))
    ∧ (∀ total : F64, sumLoads total [] = total)
    ∧ (∀ (a : CustomerAccount) (fund : Fund), fund.Time.Weekday = 0 →
      a.weeklyTotal fund = F64.zero
      ∧ (a.checkWeeklyLimit fund = none
          ↔ F64.gt (F64.add F64.zero fund.LoadAmount) WeeklyFundLimit = false))
    ∧ (∀ (a : CustomerAccount) (fund : Fund), fund.Time.Weekday = 0 →
      F64.isFloat fund.LoadAmount = true → fund.LoadAmount ≠ F64.nan →
      (a.checkWeeklyLimit fund = none ↔ F64.le fund.LoadAmount WeeklyFundLimit = true)) := by
  refine ⟨weeklyTotal_eq_days, ?_, fun _ => rfl, checkWeeklyLimit_sunday, ?_⟩
  · intro t
    obtain ⟨h6, _, hwin⟩ := weekdayOf_window t.days
    refine ⟨rfl, h6, hwin, ?_⟩
    intro i hi
    have h := hwin i (by show i < weekdayOf t.days; have : t.Weekday = weekdayOf t.days := rfl; omega)
    have h2 : t.Weekday = weekdayOf t.days := rfl
    omega
  · intro a fund hsun hfl hnum
    have hlim : WeeklyFundLimit ≠ F64.nan := by
      rw [WeeklyFundLimit_eq]
      exact fun h => F64.noConfusion h
    rw [(checkWeeklyLimit_sunday a fund hsun).2, F64.gt_zero_add _ _ hfl,
      F64.le_iff_not_gt _ _ hnum hlim]
    cases F64.gt fund.LoadAmount WeeklyFundLimit <;> simp

set_option maxRecDepth 100000 in
/-- C20 at concrete inputs: with 20000.00 recorded on Monday and Tuesday, a
request on Sunday 2020-11-22 passes the weekly check with the amount 20000.00
and fails it with 20000.01; on Wednesday 2020-11-18 the days summed are the
18th, the 17th and the 16th, a Monday. -/
theorem checkWeeklyLimit_days_witness :
    weekAccount.checkWeeklyLimit (request (F64.ofDecimal false 2000000 2) sunday) = none
    ∧ weekAccount.checkWeeklyLimit (request (F64.ofDecimal false 2000001 2) sunday) ≠ none
    ∧ wednesday.Weekday = 3
    ∧ weekdayOf (wednesday.days - 2) = 1
    ∧ dayKeyOf (wednesday.days - 2) = monday.Format :=
  ⟨(checkWeeklyLimit_days.2.2.2.2 weekAccount
      (request (F64.ofDecimal false 2000000 2) sunday) (by decide) (by decide) (by decide)).2
      (by decide),
   fun h => absurd ((checkWeeklyLimit_days.2.2.2.2 weekAccount
      (request (F64.ofDecimal false 2000001 2) sunday) (by decide) (by decide) (by decide)).1 h)
      (by decide),
   by decide,
   (checkWeeklyLimit_days.2.1 wednesday).2.2.2 2 (by decide),
   by decide⟩

/-! ## The handler -/

theorem validateStruct_eq_true (input : fundRequest) :
    validateStruct input = true
      ↔ (input.ID ≠ "" ∧ input.CustomerID ≠ "" ∧ input.LoadAmount ≠ "" ∧ input.Time ≠ "") := by
  simp [validateStruct, and_assoc]

theorem validateStruct_eq_false (input : fundRequest) :
    validateStruct input = false
      ↔ (input.ID = "" ∨ input.CustomerID = "" ∨ input.LoadAmount = "" ∨ input.Time = "") := by
  rw [← Bool.not_eq_true, validateStruct_eq_true]
  constructor
  · intro h
    by_contra hcon
    simp only [not_or] at hcon
    exact h hcon
  · rintro (h | h | h | h) ⟨h1, h2, h3, h4⟩
    · exact h1 h
    · exact h2 h
    · exact h3 h
    · exact h4 h

/-- `Run` is: build the `Fund`, call the service with it, turn what it returns
into the response. -/
theorem Run_eq (lib : Lib) (service : Service) (req : String) (c : Cache) :
    FundHandler.Run lib service req c
      = match requestFund lib req with
        | none => (FundResponse.zero, c)
        | some fund => (responseOf fund (service fund c).1, (service fund c).2) := by
  unfold FundHandler.Run requestFund
  cases lib.Unmarshal req with
  | none => rfl
  | some input =>
    simp only
    cases validateStruct input with
    | false => rfl
    | true =>
      cases lib.ParseFloat (TrimPrefix input.LoadAmount "$") with
      | none => rfl
      | some amount =>
        cases lib.Parse input.Time with
        | none => rfl
        | some timestamp =>
          rw [if_neg (by decide : ¬ (true = false)), if_neg (by decide : ¬ (true = false))]
          change _ = (responseOf (⟨input.ID, input.CustomerID, amount, timestamp⟩ : Fund)
            (service ⟨input.ID, input.CustomerID, amount, timestamp⟩ c).1,
            (service ⟨input.ID, input.CustomerID, amount, timestamp⟩ c).2)
          dsimp only
          generalize service ⟨input.ID, input.CustomerID, amount, timestamp⟩ c = r
          obtain ⟨⟨dup, err⟩, c1⟩ := r
          cases dup
          · cases err <;> rfl
          · rfl

theorem requestFund_of_wellformed (lib : Lib) (req : String) (input : fundRequest)
    (amount : F64) (timestamp : Time)
    (hjson : lib.Unmarshal req = some input)
    (hvalid : input.ID ≠ "" ∧ input.CustomerID ≠ "" ∧ input.LoadAmount ≠ "" ∧ input.Time ≠ "")
    (hamount : lib.ParseFloat (TrimPrefix input.LoadAmount "$") = some amount)
    (htime : lib.Parse input.Time = some timestamp) :
    requestFund lib req
      = some { ID := input.ID, CustomerID := input.CustomerID, LoadAmount := amount,
               Time := timestamp } := by
  have hv : validateStruct input = true := (validateStruct_eq_true input).2 hvalid
  simp [requestFund, hjson, hv, hamount, htime]

/-- `LoadFund` returns `true` exactly for a load ID the account has seen. -/
theorem LoadFund_true_iff (fund : Fund) (c : Cache) :
    (LoadFund fund c).1.1 = true ↔ fund.ID ∈ (accountFor fund c).LoadIDs := by
  rcases LoadFund_cases c fund with ⟨hmem, h⟩ | ⟨hnew, e, h⟩ | ⟨hnew, hd, hw⟩
  · rw [h]
    exact ⟨fun _ => hmem, fun _ => rfl⟩
  · rw [h]
    exact ⟨fun h2 => absurd h2 Bool.false_ne_true, fun h2 => absurd h2 hnew⟩
  · rw [(LoadFund_of_pass c fund hnew hd hw).1]
    exact ⟨fun h2 => absurd h2 Bool.false_ne_true, fun h2 => absurd h2 hnew⟩

theorem responseOf_eq_zero_iff (fund : Fund) (ret : Bool × Option String)
    (hid : fund.ID ≠ "") : responseOf fund ret = FundResponse.zero ↔ ret.1 = true := by
  obtain ⟨dup, err⟩ := ret
  cases dup
  · cases err <;> simp [responseOf, FundResponse.zero, hid]
  · simp [responseOf]

/-! ## C13: the response of `Run` -/

/-- C13. For every well-formed request (the text decodes, all four fields are
non-empty, amount and time parse) and every service, `Run` calls the service
with the `Fund` of the four values and its response is determined by what the
service returns: `(true, _)` gives the empty `FundResponse{}`, `(false, err)`
with a non-nil error gives `{ID, CustomerID, Accepted: false}` and `(false,
nil)` gives `{ID, CustomerID, Accepted: true}`. So the response is the empty
one exactly when the service returns `true`, with `LoadFund` exactly when the
load ID has been seen (a duplicate), and then `main` writes nothing; a limit
rejection by `LoadFund` is written out as `{ID, CustomerID, Accepted: false}`. -/
theorem Run_response (lib : Lib) (service : Service) (req : String) (c : Cache)
    (input : fundRequest) (amount : F64) (timestamp : Time)
    (hjson : lib.Unmarshal req = some input)
    (hvalid : input.ID ≠ "" ∧ input.CustomerID ≠ "" ∧ input.LoadAmount ≠ "" ∧ input.Time ≠ "")
    (hamount : lib.ParseFloat (TrimPrefix input.LoadAmount "$") = some amount)
    (htime : lib.Parse input.Time = some timestamp) :
    (FundHandler.Run lib service req c).2
        = (service ⟨input.ID, input.CustomerID, amount, timestamp⟩ c).2
    ∧ (∀ err, (service ⟨input.ID, input.CustomerID, amount, timestamp⟩ c).1 = (true, err) →
        (FundHandler.Run lib service req c).1 = FundResponse.zero)
    ∧ (∀ err, (service ⟨input.ID, input.CustomerID, amount, timestamp⟩ c).1
          = (false, some err) →
        (FundHandler.Run lib service req c).1
          = { ID := input.ID, CustomerID := input.CustomerID, Accepted := false })
    ∧ ((service ⟨input.ID, input.CustomerID, amount, timestamp⟩ c).1 = (false, none) →
        (FundHandler.Run lib service req c).1
          = { ID := input.ID, CustomerID := input.CustomerID, Accepted := true })
    ∧ ((FundHandler.Run lib service req c).1 = FundResponse.zero
        ↔ (service ⟨input.ID, input.CustomerID, amount, timestamp⟩ c).1.1 = true)
    ∧ ((FundHandler.Run lib LoadFund req c).1 = FundResponse.zero
        ↔ input.ID ∈ (accountFor ⟨input.ID, input.CustomerID, amount, timestamp⟩ c).LoadIDs)
    ∧ ((processFunds lib [req] c).1 = []
        ↔ input.ID ∈ (accountFor ⟨input.ID, input.CustomerID, amount, timestamp⟩ c).LoadIDs)
    ∧ (∀ err, (LoadFund ⟨input.ID, input.CustomerID, amount, timestamp⟩ c).1
          = (false, some err) →
        (processFunds lib [req] c).1
          = [{ ID := input.ID, CustomerID := input.CustomerID, Accepted := false }]) := by
  have hfund := requestFund_of_wellformed lib req input amount timestamp hjson hvalid
    hamount htime
  have hrun : ∀ s : Service, FundHandler.Run lib s req c
      = (responseOf ⟨input.ID, input.CustomerID, amount, timestamp⟩
          (s ⟨input.ID, input.CustomerID, amount, timestamp⟩ c).1,
         (s ⟨input.ID, input.CustomerID, amount, timestamp⟩ c).2) := by
    intro s
    rw [Run_eq, hfund]
  have hzero : ∀ s : Service, (FundHandler.Run lib s req c).1 = FundResponse.zero
      ↔ (s ⟨input.ID, input.CustomerID, amount, timestamp⟩ c).1.1 = true := by
    intro s
    rw [hrun s]
    exact responseOf_eq_zero_iff ⟨input.ID, input.CustomerID, amount, timestamp⟩ _ hvalid.1
  have hdup := LoadFund_true_iff ⟨input.ID, input.CustomerID, amount, timestamp⟩ c
  have hmain : (processFunds lib [req] c).1
      = if (FundHandler.Run lib LoadFund req c).1 = FundResponse.zero then []
        else [(FundHandler.Run lib LoadFund req c).1] := by
    simp only [processFunds]
    split_ifs <;> rfl
  refine ⟨by rw [hrun], ?_, ?_, ?_, hzero service, (hzero LoadFund).trans hdup, ?_, ?_⟩
  · intro err h
    rw [hrun, h]
    rfl
  · intro err h
    rw [hrun, h]
    rfl
  · intro h
    rw [hrun, h]
    rfl
  · rw [hmain, ← (hzero LoadFund).trans hdup]
    split_ifs with h
    · exact ⟨fun _ => h, fun _ => rfl⟩
    · exact ⟨fun h2 => absurd h2 (by simp), fun h2 => absurd h2 h⟩
  · intro err h
    have hne : ¬ (FundHandler.Run lib LoadFund req c).1 = FundResponse.zero := by
      rw [hzero LoadFund, h]
      exact Bool.false_ne_true
    rw [hmain, if_neg hne, hrun, h]
    rfl

set_option maxRecDepth 100000 in
/-- C13 at the second request of the scenario: after load 1 of 4000.00, load 2
of 2000.00 is rejected by `LoadFund` and `Run` answers `{2, 18, false}`. -/
theorem Run_response_witness :
    (LoadFund fund2 (LoadFund fund1 Cache.empty).2).1
      = (false, some "accountID: 18 exceed daily fund limit when process loadID: 2")
    ∧ (FundHandler.Run goLib LoadFund line2 (LoadFund fund1 Cache.empty).2).1
      = { ID := "2", CustomerID := "18", Accepted := false } :=
  ⟨by decide,
   (Run_response goLib LoadFund line2 (LoadFund fund1 Cache.empty).2
      ⟨"2", "18", "$2000.00", "2020-01-06T11:00:00Z"⟩ fund2.LoadAmount fund2.Time
      (by decide) (by decide) (by decide) (by decide)).2.2.1
      "accountID: 18 exceed daily fund limit when process loadID: 2" (by decide)⟩

/-! ## C14: the end-to-end scenario -/

set_option maxRecDepth 100000 in
/-- C14. On an initially empty store, through `Run` with `LoadFund` as the
service: the request (id 1, customer 18, 4000.00, Monday 2020-01-06T10:00:00Z)
is answered `{1, 18, accepted: true}`; then (id 2, customer 18, 2000.00,
2020-01-06T11:00:00Z) is answered `{2, 18, accepted: false}`, the error of
`LoadFund` being the daily fund limit error; then the first request again is
answered with the empty response, so `main` writes two lines; and the stored
account ends with LoadIDs `[1, 2]` and the single recorded load 1. -/
theorem scenario_end_to_end :
    requestFund goLib line1 = some fund1
    ∧ requestFund goLib line2 = some fund2
    ∧ fund1.Time.Weekday = 1
    ∧ (FundHandler.Run goLib LoadFund line1 Cache.empty).1
        = { ID := "1", CustomerID := "18", Accepted := true }
    ∧ (FundHandler.Run goLib LoadFund line2
        (FundHandler.Run goLib LoadFund line1 Cache.empty).2).1
        = { ID := "2", CustomerID := "18", Accepted := false }
    ∧ (LoadFund fund2 (FundHandler.Run goLib LoadFund line1 Cache.empty).2).1
        = (false, some "accountID: 18 exceed daily fund limit when process loadID: 2")
    ∧ (FundHandler.Run goLib LoadFund line1
        (FundHandler.Run goLib LoadFund line2
          (FundHandler.Run goLib LoadFund line1 Cache.empty).2).2).1
        = FundResponse.zero
    ∧ (LoadFund fund1
        (FundHandler.Run goLib LoadFund line2
          (FundHandler.Run goLib LoadFund line1 Cache.empty).2).2).1
        = (true, some "loadID: 1 exists")
    ∧ (processFunds goLib [line1, line2, line1] Cache.empty).1
        = [{ ID := "1", CustomerID := "18", Accepted := true },
           { ID := "2", CustomerID := "18", Accepted := false }]
    ∧ (processFunds goLib [line1, line2, line1] Cache.empty).2.Get "18"
        = some { ID := "18", LoadIDs := ["1", "2"],
                 Transactions := ⟨[("01/06/6019", [fund1])]⟩ } := by
  decide

/-! ## C15: malformed input -/

/-- C15. `Run` returns the empty `FundResponse{}` and the store as it was,
whatever the service, so without calling it, whenever the input is malformed:
the text does not decode (it is no JSON), or one of id, customer_id,
load_amount, time is missing or empty (a missing member leaves the field
empty), or load_amount with one leading `$` removed does not parse as a
number, or time does not parse as an RFC 3339 time. With the library functions
on the test inputs: `$$5745.70` keeps a `$` and is no number,
`20000-02-04T12:27:00Z` is no RFC 3339 time, the text of
`TestInvalidJsonString` does not decode, and a request with the time empty or
missing fails validation. -/
theorem Run_malformed :
    (∀ (lib : Lib) (service : Service) (req : String) (c : Cache),
      lib.Unmarshal req = none →
      FundHandler.Run lib service req c = (FundResponse.zero, c))
    ∧ (∀ (lib : Lib) (service : Service) (req : String) (c : Cache) (input : fundRequest),
      lib.Unmarshal req = some input →
      (input.ID = "" ∨ input.CustomerID = "" ∨ input.LoadAmount = "" ∨ input.Time = "") →
      FundHandler.Run lib service req c = (FundResponse.zero, c))
    ∧ (∀ (lib : Lib) (service : Service) (req : String) (c : Cache) (input : fundRequest),
      lib.Unmarshal req = some input →
      lib.ParseFloat (TrimPrefix input.LoadAmount "$") = none →
      FundHandler.Run lib service req c = (FundResponse.zero, c))
    ∧ (∀ (lib : Lib) (service : Service) (req : String) (c : Cache) (input : fundRequest),
      lib.Unmarshal req = some input →
      lib.Parse input.Time = none →
      FundHandler.Run lib service req c = (FundResponse.zero, c))
    ∧ (TrimPrefix "$$5745.70" "$" = "$5745.70" ∧ goLib.ParseFloat "$5745.70" = none
      ∧ goLib.Parse "20000-02-04T12:27:00Z" = none ∧ goLib.Unmarshal lineNoJSON = none
      ∧ goLib.Unmarshal lineNoTime = some ⟨"16710", "783", "$750.87", ""⟩)
    ∧ (∀ (service : Service) (c : Cache),
      FundHandler.Run goLib service
          (requestText "29360" "18" "$$5745.70" "2000-02-04T12:27:00Z") c
        = (FundResponse.zero, c)
      ∧ FundHandler.Run goLib service
          (requestText "29360" "18" "$5745.70" "20000-02-04T12:27:00Z") c
        = (FundResponse.zero, c)
      ∧ FundHandler.Run goLib service (requestText "16710" "783" "$750.87" "") c
        = (FundResponse.zero, c)
      ∧ FundHandler.Run goLib service lineNoTime c = (FundResponse.zero, c)
      ∧ FundHandler.Run goLib service lineNoJSON c = (FundResponse.zero, c)) := by
  have hjson : ∀ (lib : Lib) (service : Service) (req : String) (c : Cache),
      lib.Unmarshal req = none →
      FundHandler.Run lib service req c = (FundResponse.zero, c) := by
    intro lib service req c h
    simp only [FundHandler.Run, h]
  have hfield : ∀ (lib : Lib) (service : Service) (req : String) (c : Cache)
      (input : fundRequest), lib.Unmarshal req = some input →
      (input.ID = "" ∨ input.CustomerID = "" ∨ input.LoadAmount = "" ∨ input.Time = "") →
      FundHandler.Run lib service req c = (FundResponse.zero, c) := by
    intro lib service req c input h hempty
    have hv := (validateStruct_eq_false input).2 hempty
    simp only [FundHandler.Run, h, hv, if_true]
  have hamount : ∀ (lib : Lib) (service : Service) (req : String) (c : Cache)
      (input : fundRequest), lib.Unmarshal req = some input →
      lib.ParseFloat (TrimPrefix input.LoadAmount "$") = none →
      FundHandler.Run lib service req c = (FundResponse.zero, c) := by
    intro lib service req c input h hp
    simp only [FundHandler.Run, h, hp]
    split_ifs <;> rfl
  have htime : ∀ (lib : Lib) (service : Service) (req : String) (c : Cache)
      (input : fundRequest), lib.Unmarshal req = some input →
      lib.Parse input.Time = none →
      FundHandler.Run lib service req c = (FundResponse.zero, c) := by
    intro lib service req c input h hp
    simp only [FundHandler.Run, h, hp]
    split_ifs
    · rfl
    · cases lib.ParseFloat (TrimPrefix input.LoadAmount "$") <;> rfl
  refine ⟨hjson, hfield, hamount, htime, by decide, ?_⟩
  intro service c
  refine ⟨?_, ?_, ?_, ?_, ?_⟩
  · exact hamount goLib service _ c ⟨"29360", "18", "$$5745.70", "2000-02-04T12:27:00Z"⟩
      (by decide) (by decide)
  · exact htime goLib service _ c ⟨"29360", "18", "$5745.70", "20000-02-04T12:27:00Z"⟩
      (by decide) (by decide)
  · exact hfield goLib service _ c ⟨"16710", "783", "$750.87", ""⟩ (by decide)
      (Or.inr (Or.inr (Or.inr rfl)))
  · exact hfield goLib service _ c ⟨"16710", "783", "$750.87", ""⟩ (by decide)
      (Or.inr (Or.inr (Or.inr rfl)))
  · exact hjson goLib service _ c (by decide)

/-- C15 at the input of `TestInvalidDataForLoadAmount`, with `LoadFund` as the
service and the empty store. -/
theorem Run_malformed_witness :
    goLib.Unmarshal (requestText "29360" "18" "$$5745.70" "2000-02-04T12:27:00Z")
      = some ⟨"29360", "18", "$$5745.70", "2000-02-04T12:27:00Z"⟩
    ∧ goLib.ParseFloat (TrimPrefix "$$5745.70" "$") = none
    ∧ FundHandler.Run goLib LoadFund
        (requestText "29360" "18" "$$5745.70" "2000-02-04T12:27:00Z") Cache.empty
      = (FundResponse.zero, Cache.empty) :=
  ⟨by decide, by decide,
   Run_malformed.2.2.1 goLib LoadFund _ Cache.empty
     ⟨"29360", "18", "$$5745.70", "2000-02-04T12:27:00Z"⟩ (by decide) (by decide)⟩

/-! ## C16: the `Fund` passed to `LoadFund` -/

set_option maxRecDepth 100000 in
/-- C16 fails at a negative amount: for the load_amount `$-5.00`, and for
`-5.00`, `Run` builds a `Fund` with the amount -5.00 and calls the service with
it; `LoadFund` on the empty store accepts it and `Run` answers `{3, 18, true}`. -/
theorem Run_passes_negative_amount :
    requestFund goLib lineNegative
      = some { ID := "3", CustomerID := "18", LoadAmount := F64.ofDecimal true 500 2,
               Time := Date 2020 1 6 10 0 0 0 0 }
    ∧ requestFund goLib (requestText "3" "18" "-5.00" "2020-01-06T10:00:00Z")
      = some { ID := "3", CustomerID := "18", LoadAmount := F64.ofDecimal true 500 2,
               Time := Date 2020 1 6 10 0 0 0 0 }
    ∧ F64.gt F64.zero (F64.ofDecimal true 500 2) = true
    ∧ (FundHandler.Run goLib LoadFund lineNegative Cache.empty).1
      = { ID := "3", CustomerID := "18", Accepted := true }
    ∧ ((FundHandler.Run goLib LoadFund lineNegative Cache.empty).2.Get "18").map
        (fun a => a.LoadIDs) = some ["3"] := by
  decide

/-- C16, without the sign of the amount. Every `Fund` that `Run` passes to the
service has a non-empty ID and a non-empty CustomerID, taken from the decoded
request whose four fields are all non-empty; its LoadAmount is the `float64`
that `ParseFloat` returns for load_amount with one leading `$` removed, of
either sign, and its Time is the parsed time. `Run` calls the service with this
`Fund` and with no other, and not at all when there is none. -/
theorem Run_fund_fields (lib : Lib) (req : String) (fund : Fund)
    (h : requestFund lib req = some fund) :
    fund.ID ≠ "" ∧ fund.CustomerID ≠ ""
    ∧ (∃ input : fundRequest, lib.Unmarshal req = some input
        ∧ input.ID = fund.ID ∧ input.CustomerID = fund.CustomerID
        ∧ input.LoadAmount ≠ "" ∧ input.Time ≠ ""
        ∧ lib.ParseFloat (TrimPrefix input.LoadAmount "$") = some fund.LoadAmount
        ∧ lib.Parse input.Time = some fund.Time)
    ∧ (∀ (service : Service) (c : Cache),
        FundHandler.Run lib service req c
          = (responseOf fund (service fund c).1, (service fund c).2)) := by
  have hrun : ∀ (service : Service) (c : Cache),
      FundHandler.Run lib service req c
        = (responseOf fund (service fund c).1, (service fund c).2) := by
    intro service c
    rw [Run_eq, h]
  unfold requestFund at h
  cases hj : lib.Unmarshal req with
  | none => rw [hj] at h; cases h
  | some input =>
    rw [hj] at h
    simp only at h
    cases hv : validateStruct input with
    | false => rw [hv] at h; cases h
    | true =>
      rw [hv] at h
      obtain ⟨h1, h2, h3, h4⟩ := (validateStruct_eq_true input).1 hv
      cases hp : lib.ParseFloat (TrimPrefix input.LoadAmount "$") with
      | none => rw [hp] at h; cases h
      | some amount =>
        rw [hp] at h
        cases ht : lib.Parse input.Time with
        | none => rw [ht] at h; cases h
        | some timestamp =>
          rw [ht] at h
          have hf : fund = ⟨input.ID, input.CustomerID, amount, timestamp⟩ := by
            cases h
            rfl
          subst hf
          exact ⟨h1, h2, ⟨input, rfl, rfl, rfl, h3, h4, hp, ht⟩, hrun⟩

set_option maxRecDepth 100000 in
/-- C16 at the first request of the scenario. -/
theorem Run_fund_fields_witness :
    requestFund goLib line1 = some fund1
    ∧ fund1.ID ≠ "" ∧ fund1.CustomerID ≠ "" :=
  ⟨by decide, (Run_fund_fields goLib line1 fund1 (by decide)).1,
    (Run_fund_fields goLib line1 fund1 (by decide)).2.1⟩

/-! ## C17: the weekly cap in reachable states -/

set_option maxRecDepth 100000 in
/-- C17, at five requests of customer 18 on the empty store: 5000.00 on Monday
2020-11-16, Tuesday, Wednesday and Thursday, and 5000.00 on Sunday 2020-11-22 of
the same week, in the order of their times. Each is accepted, the Sunday one
because the weekly check sums nothing on a Sunday, and the account then holds
five recorded loads of that week, 25000.00 in all, over the weekly limit. -/
theorem weekly_cap_broken_on_sunday :
    inTimeOrder weekLoads = true
    ∧ (∀ f ∈ weekLoads, F64.le F64.zero f.LoadAmount = true)
    ∧ monday.Weekday = 1
    ∧ (∀ f ∈ weekLoads, monday.days ≤ f.Time.days ∧ f.Time.days ≤ monday.days + 6)
    ∧ (LoadFund ⟨"5", "18", amt5000, sunday⟩
        (LoadFunds (weekLoads.take 4) Cache.empty)).1 = (false, none)
    ∧ ((LoadFunds weekLoads Cache.empty).Get "18").map
        (fun a => a.Transactions.loads) = some weekLoads
    ∧ sumLoads F64.zero weekLoads = F64.ofDecimal false 2500000 2
    ∧ F64.gt (sumLoads F64.zero weekLoads) WeeklyFundLimit = true := by
  decide

/-! ## C18: the arithmetic of the amount tests -/

set_option maxRecDepth 100000 in
/-- C18 fails at the history 4857.56, 3.52 and the request 138.92: the exact
decimal total is 5000.00, which is not over the limit, and the `float64` total
is over 5000.00, so `checkDailyLimit` rejects the request and `LoadFund`
returns the daily fund limit error. -/
theorem checkDailyLimit_rounding :
    485756 + 352 + 13892 = 500000
    ∧ F64.gt (F64.add (F64.add (F64.add F64.zero (F64.ofDecimal false 485756 2))
        (F64.ofDecimal false 352 2)) (F64.ofDecimal false 13892 2)) DailyFundLimit = true
    ∧ (dayAccount [F64.ofDecimal false 485756 2, F64.ofDecimal false 352 2]).checkDailyLimit
        (request (F64.ofDecimal false 13892 2) wednesday)
      = some "accountID: 18 exceed daily fund limit when process loadID: 29370"
    ∧ (LoadFund (request (F64.ofDecimal false 13892 2) wednesday)
        (storeOf (dayAccount [F64.ofDecimal false 485756 2, F64.ofDecimal false 352 2]))).1
      = (false, some "accountID: 18 exceed daily fund limit when process loadID: 29370") := by
  decide

theorem sumLoads_append (total : F64) (loads : List Fund) (load : Fund) :
    sumLoads total (loads ++ [load]) = F64.add (sumLoads total loads) load.LoadAmount := by
  simp [sumLoads, List.foldl_append]

set_option maxRecDepth 100000 in
theorem checkDailyLimit_thirds :
    (dayAccount [F64.ofDecimal false 166667 2, F64.ofDecimal false 166667 2]).checkDailyLimit
        (request (F64.ofDecimal false 166666 2) wednesday) = none := by
  decide

/-- C18, for the arithmetic the code has. The amount comparisons of
`checkDailyLimit` and `checkWeeklyLimit` are carried out in `float64`
arithmetic: the running total starts at zero and takes the amounts of the
history one by one with a rounded addition, the request's amount is added with
a rounded addition, and the check rejects if and only if that `float64` sum is
strictly greater than the limit (the daily check after its count test). With
1666.67 and 1666.67 recorded, the request 1666.66 is accepted. -/
theorem limit_checks_in_float64 :
    (∀ total : F64, sumLoads total [] = total)
    ∧ (∀ (total : F64) (loads : List Fund) (load : Fund),
        sumLoads total (loads ++ [load]) = F64.add (sumLoads total loads) load.LoadAmount)
    ∧ (∀ (a : CustomerAccount) (fund : Fund),
        (a.Transactions.get fund.Time.Format).length < 3 →
        (a.checkDailyLimit fund ≠ none
          ↔ F64.gt (F64.add (sumLoads F64.zero (a.Transactions.get fund.Time.Format))
              fund.LoadAmount) DailyFundLimit = true))
    ∧ (∀ (a : CustomerAccount) (fund : Fund),
        a.checkWeeklyLimit fund ≠ none
          ↔ F64.gt (F64.add (a.weeklyTotal fund) fund.LoadAmount) WeeklyFundLimit = true)
    ∧ (dayAccount [F64.ofDecimal false 166667 2, F64.ofDecimal false 166667 2]).checkDailyLimit
        (request (F64.ofDecimal false 166666 2) wednesday) = none := by
  refine ⟨fun _ => rfl, sumLoads_append, ?_, ?_, checkDailyLimit_thirds⟩
  · intro a fund hc
    unfold CustomerAccount.checkDailyLimit DailyNumberOfLoadsLimit
    cases hg : F64.gt (F64.add (sumLoads F64.zero (a.Transactions.get fund.Time.Format))
        fund.LoadAmount) DailyFundLimit <;> simp [Nat.not_le.2 hc, hg]
  · intro a fund
    unfold CustomerAccount.checkWeeklyLimit
    cases hg : F64.gt (F64.add (a.weeklyTotal fund) fund.LoadAmount) WeeklyFundLimit <;>
      simp [hg]

set_option maxRecDepth 100000 in
/-- C18 at the history 1000.00, 2000.00 of
`TestExceedDailyAmountLimitWithMultiple` and the request 2000.01. -/
theorem limit_checks_in_float64_witness :
    (dayAccount [F64.ofDecimal false 100000 2, F64.ofDecimal false 200000 2]).checkDailyLimit
        (request (F64.ofDecimal false 200001 2) wednesday) ≠ none :=
  (limit_checks_in_float64.2.2.1 _ _ (by decide)).2 (by decide)

/-! ## C21: the daily caps in every reachable state -/

set_option maxRecDepth 100000 in
/-- C21 fails in exact arithmetic: on the empty store the loads 5000.00 and
0.0000000000001 of one customer on one day are both accepted, the second
because the `float64` total 5000.00 + 0.0000000000001 is 5000.00; the bucket
then holds both loads and the exact sum of their amounts is over 5000.00. -/
theorem daily_cap_exact_sum_exceeded :
    (LoadFund ⟨"1", "18", amt5000, monday⟩ Cache.empty).1 = (false, none)
    ∧ (LoadFund ⟨"2", "18", amtTiny, monday⟩
        (LoadFund ⟨"1", "18", amt5000, monday⟩ Cache.empty).2).1 = (false, none)
    ∧ F64.add (F64.add F64.zero amt5000) amtTiny = DailyFundLimit
    ∧ ((LoadFunds capLoads Cache.empty).Get "18").map
        (fun a => a.Transactions.get monday.Format) = some capLoads
    ∧ F64.units DailyFundLimit = some ((5000 <<< 1074 : Nat) : Int)
    ∧ (exactSum capLoads).map (fun s => decide (((5000 <<< 1074 : Nat) : Int) < s)) = some true := by
  decide

/-- What a passed daily check says about the bucket of the request's day. -/
theorem checkDailyLimit_none (a : CustomerAccount) (fund : Fund)
    (h : a.checkDailyLimit fund = none) :
    (a.Transactions.get fund.Time.Format).length < DailyNumberOfLoadsLimit
    ∧ F64.gt (F64.add (sumLoads F64.zero (a.Transactions.get fund.Time.Format))
        fund.LoadAmount) DailyFundLimit = false := by
  unfold CustomerAccount.checkDailyLimit at h
  simp only at h
  split_ifs at h with h1 h2
  exact ⟨Nat.not_le.1 h1, by simpa using h2⟩

set_option maxRecDepth 100000 in
theorem DailyCaps_fresh (id : String) :
    DailyCaps { ID := id, LoadIDs := [], Transactions := TxMap.empty } := by
  have hz : F64.gt (sumLoads F64.zero []) DailyFundLimit = false := by decide
  intro key
  exact ⟨Nat.zero_le _, hz⟩

theorem DailyCaps_of_tx (a b : CustomerAccount) (htx : b.Transactions = a.Transactions)
    (h : DailyCaps a) : DailyCaps b := by
  intro key
  rw [htx]
  exact h key

/-- The ledger map of an accepted load keeps the daily caps. -/
theorem DailyCaps_recorded (a b : CustomerAccount) (fund : Fund) (h : DailyCaps a)
    (hd : a.checkDailyLimit fund = none) (htx : b.Transactions = recordedTx a fund) :
    DailyCaps b := by
  obtain ⟨hlen, hsum⟩ := checkDailyLimit_none a fund hd
  intro key
  rw [htx]
  by_cases hk : key = fund.Time.Format
  · subst hk
    rw [recordedTx_get_same, sumLoads_append, List.length_append]
    exact ⟨by simpa using hlen, hsum⟩
  · rw [recordedTx_get_other a fund key hk]
    exact h key

theorem DailyCaps_accountFor (c : Cache) (fund : Fund) (h : CapsStore c) :
    DailyCaps (accountFor fund c) := by
  unfold accountFor
  cases hget : c.Get fund.CustomerID with
  | some x => exact h _ x hget
  | none => exact DailyCaps_fresh _

/-- The entry under the request's customer ID after an accepted load, when the
account read from it is filed under another ID: the account as it was, with
its ledger map as it was or with the request recorded. -/
theorem LoadFund_pass_misfiled (c : Cache) (fund : Fund)
    (hnew : fund.ID ∉ (accountFor fund c).LoadIDs)
    (hd : (accountFor fund c).checkDailyLimit fund = none)
    (hw : (accountFor fund c).checkWeeklyLimit fund = none)
    (hne : fund.CustomerID ≠ (accountFor fund c).ID) :
    ∃ x, (LoadFund fund c).2.Get fund.CustomerID = some x
      ∧ (x.Transactions = (accountFor fund c).Transactions
        ∨ x.Transactions = recordedTx (accountFor fund c) fund) := by
  have h1 := checkIfLoadExists_of_not_mem _ _ hnew
  have h2 : (seenAccount fund c).checkDailyLimit fund = none := hd
  have h3 : (seenAccount fund c).checkWeeklyLimit fund = none := hw
  unfold seenAccount at h2 h3
  have hfound := accountFor_found_of_ne fund c (fun e => hne e.symm)
  by_cases hlen : (accountFor fund c).Transactions.len = 0
  · simp only [LoadFund, h1, h2, h3, hlen, if_true]
    refine ⟨accountFor fund c, ?_, Or.inl rfl⟩
    rw [Cache.Get_Set_ne _ _ _ _ hne, Cache.Get_Set_ne _ _ _ _ hne]
    exact hfound
  · simp only [LoadFund, h1, h2, h3, hlen, if_false]
    refine ⟨{ accountFor fund c with Transactions := recordedTx (accountFor fund c) fund },
      ?_, Or.inr rfl⟩
    rw [Cache.Get_Set_ne _ _ _ _ hne, Cache.Get_writeTx_eq, Cache.Get_Set_ne _ _ _ _ hne, hfound]
    simp only [recordedTx, hlen, if_false]
    rfl

/-- A call of `LoadFund` keeps the daily caps of every stored account. -/
theorem CapsStore_LoadFund (c : Cache) (fund : Fund) (h : CapsStore c) :
    CapsStore (LoadFund fund c).2 := by
  have hacc := DailyCaps_accountFor c fund h
  intro k x hget
  rcases LoadFund_cases c fund with ⟨_, hsame⟩ | ⟨_, e, hrej⟩ | ⟨hnew, hd, hw⟩
  · rw [hsame] at hget
    exact h k x hget
  · rw [hrej] at hget
    by_cases hk : k = (accountFor fund c).ID
    · subst hk
      have hx : some (seenAccount fund c) = some x := by
        rw [← hget]
        exact (Cache.Get_Set_eq _ _ _).symm
      cases hx
      exact DailyCaps_of_tx _ _ rfl hacc
    · have hx : c.Get k = some x := by
        rw [← hget]
        exact (Cache.Get_Set_ne _ _ _ _ hk).symm
      exact h k x hx
  · obtain ⟨_, hwritten, hframe, _⟩ := LoadFund_of_pass c fund hnew hd hw
    by_cases hk : k = (accountFor fund c).ID
    · subst hk
      rw [hwritten] at hget
      cases hget
      exact DailyCaps_recorded _ _ fund hacc hd rfl
    · by_cases hk2 : k = fund.CustomerID
      · subst hk2
        obtain ⟨y, hy, htx⟩ := LoadFund_pass_misfiled c fund hnew hd hw hk
        rw [hy] at hget
        cases hget
        rcases htx with htx | htx
        · exact DailyCaps_of_tx _ _ htx hacc
        · exact DailyCaps_recorded _ _ fund hacc hd htx
      · rw [hframe k hk hk2] at hget
        exact h k x hget

theorem CapsStore_empty : CapsStore Cache.empty := by
  intro k a h
  simp [Cache.empty, Cache.Get] at h

theorem CapsStore_LoadFunds (funds : List Fund) (c : Cache) (h : CapsStore c) :
    CapsStore (LoadFunds funds c) := by
  induction funds generalizing c with
  | nil => exact h
  | cons fund rest ih => exact ih _ (CapsStore_LoadFund c fund h)

/-- C21, in the arithmetic of the code. `LoadFund` preserves the invariant that
every `Transactions` bucket of every stored account holds at most 3 loads
whose amounts, added as `float64` in the order recorded from the zero total,
give a total that is not greater than 5000.00, for requests of any sign of
amount. Hence after any sequence of `LoadFund` calls on an initially empty
store every bucket of every stored account holds at most 3 loads with a
`float64` total not greater than 5000.00, and at most 5000.00 when the total
is a number. -/
theorem LoadFund_preserves_daily_caps :
    (∀ (c : Cache) (fund : Fund),
      (∀ k a, c.Get k = some a → ∀ key,
        (a.Transactions.get key).length ≤ 3
        ∧ F64.gt (sumLoads F64.zero (a.Transactions.get key)) DailyFundLimit = false) →
      (∀ k a, (LoadFund fund c).2.Get k = some a → ∀ key,
        (a.Transactions.get key).length ≤ 3
        ∧ F64.gt (sumLoads F64.zero (a.Transactions.get key)) DailyFundLimit = false))
    ∧ (∀ (funds : List Fund) (k : String) (a : CustomerAccount) (key : String),
      (LoadFunds funds Cache.empty).Get k = some a →
        (a.Transactions.get key).length ≤ 3
        ∧ F64.gt (sumLoads F64.zero (a.Transactions.get key)) DailyFundLimit = false
        ∧ (sumLoads F64.zero (a.Transactions.get key) ≠ F64.nan →
            F64.le (sumLoads F64.zero (a.Transactions.get key)) DailyFundLimit = true)) := by
  constructor
  · intro c fund h
    exact CapsStore_LoadFund c fund h
  · intro funds k a key hget
    obtain ⟨hlen, hsum⟩ := CapsStore_LoadFunds funds Cache.empty CapsStore_empty k a hget key
    refine ⟨hlen, hsum, ?_⟩
    intro hnum
    have hlim : DailyFundLimit ≠ F64.nan := by
      rw [DailyFundLimit_eq]
      exact fun h => F64.noConfusion h
    rw [F64.le_iff_not_gt _ _ hnum hlim, hsum]
    rfl

set_option maxRecDepth 100000 in
/-- C21 at the loads 5000.00 and 0.0000000000001 of one day: the bucket holds
two loads and its `float64` total is 5000.00, not over the limit. -/
theorem LoadFund_preserves_daily_caps_witness :
    (LoadFunds capLoads Cache.empty).Get "18"
      = some ⟨"18", ["1", "2"], ⟨[(monday.Format, capLoads)]⟩⟩
    ∧ capLoads.length ≤ 3
    ∧ F64.gt (sumLoads F64.zero capLoads) DailyFundLimit = false
    ∧ F64.le (sumLoads F64.zero capLoads) DailyFundLimit = true :=
  ⟨by decide,
   (LoadFund_preserves_daily_caps.2 capLoads "18"
      ⟨"18", ["1", "2"], ⟨[(monday.Format, capLoads)]⟩⟩ monday.Format (by decide)).1,
   (LoadFund_preserves_daily_caps.2 capLoads "18"
      ⟨"18", ["1", "2"], ⟨[(monday.Format, capLoads)]⟩⟩ monday.Format (by decide)).2.1,
   (LoadFund_preserves_daily_caps.2 capLoads "18"
      ⟨"18", ["1", "2"], ⟨[(monday.Format, capLoads)]⟩⟩ monday.Format (by decide)).2.2
      (by decide)⟩

/-! ## C22: the keys of the store -/

/-- C22. `LoadFund` preserves the keying of the store and never changes the
owner of an account: if every entry of the store under a key k is an account
with ID = k, then the same holds after `LoadFund(request)`, every key other
than `request.CustomerID` keeps its entry (so no other key is written), and
every account stored before the call is stored under the same key after it,
with the same ID. -/
theorem LoadFund_keys (c : Cache) (fund : Fund) (h : WellKeyed c) :
    WellKeyed (LoadFund fund c).2
    ∧ (∀ k, k ≠ fund.CustomerID → (LoadFund fund c).2.Get k = c.Get k)
    ∧ (∀ k a, c.Get k = some a →
        ∃ b, (LoadFund fund c).2.Get k = some b ∧ b.ID = a.ID) := by
  have hid := accountFor_ID fund c (h fund.CustomerID)
  have hframe : ∀ k, k ≠ fund.CustomerID → (LoadFund fund c).2.Get k = c.Get k := by
    intro k hk
    exact LoadFund_frame c fund k (by rw [hid]; exact hk) hk
  refine ⟨WellKeyed_LoadFund c fund h, hframe, ?_⟩
  intro k a hget
  by_cases hk : k = fund.CustomerID
  · subst hk
    rcases LoadFund_written c fund with ⟨_, hsame⟩ | ⟨_, b, hb, hbid, _, _⟩
    · exact ⟨a, by rw [hsame]; exact hget, rfl⟩
    · rw [hid] at hb
      refine ⟨b, hb, ?_⟩
      rw [hbid, accountFor_of_get fund c a hget]
  · exact ⟨a, by rw [hframe k hk]; exact hget, rfl⟩

set_option maxRecDepth 100000 in
/-- C22 at a concrete input: the store holds customer 18 under the key 18; a
load of 2000.00 for customer 18 leaves an account with ID 18 under that key and
no entry under the key 7. -/
theorem LoadFund_keys_witness :
    WellKeyed (storeOf (dayAccount [F64.ofDecimal false 100000 2]))
    ∧ ((LoadFund (request (F64.ofDecimal false 200000 2) wednesday)
        (storeOf (dayAccount [F64.ofDecimal false 100000 2]))).2.Get "18").map
          (fun a => a.ID) = some "18"
    ∧ (LoadFund (request (F64.ofDecimal false 200000 2) wednesday)
        (storeOf (dayAccount [F64.ofDecimal false 100000 2]))).2.Get "7" = none :=
  ⟨WellKeyed_storeOf _, by decide,
   ((LoadFund_keys (storeOf (dayAccount [F64.ofDecimal false 100000 2]))
      (request (F64.ofDecimal false 200000 2) wednesday) (WellKeyed_storeOf _)).2.1 "7"
      (by decide)).trans (by rfl)⟩

/-! ## C11: requests of different customers, on the store with its map objects -/

set_option maxRecDepth 100000 in
/-- C11 fails on a store whose entries share a map object: in `sharedStore`
the accounts 18 and 19 are filed under their own IDs, a load of 2000.00 for
customer 18 on `tuesday` is accepted, and afterwards the entry of the key 19
shows that load in its `Transactions`, which it did not before. -/
theorem LoadFund_shared_map_changes_other_entry :
    WellKeyed sharedStore.view
    ∧ (sharedStore.view.Get "18").map (fun a => a.ID) = some "18"
    ∧ (sharedStore.view.Get "19").map (fun a => a.ID) = some "19"
    ∧ (ObjStore.LoadFund ⟨"2", "18", F64.ofDecimal false 200000 2, tuesday⟩ sharedStore).1
        = (false, none)
    ∧ (sharedStore.view.Get "19").map (fun a => a.Transactions.get tuesday.Format) = some []
    ∧ ((ObjStore.LoadFund ⟨"2", "18", F64.ofDecimal false 200000 2, tuesday⟩
          sharedStore).2.view.Get "19").map (fun a => a.Transactions.get tuesday.Format)
        = some [⟨"2", "18", F64.ofDecimal false 200000 2, tuesday⟩]
    ∧ (ObjStore.LoadFund ⟨"2", "18", F64.ofDecimal false 200000 2, tuesday⟩
          sharedStore).2.view.Get "19" ≠ sharedStore.view.Get "19" := by
  refine ⟨?_, by decide⟩
  intro k a h
  have h2 : (if k = "18" then some (⟨"18", ["1"], some 0⟩ : AccountRef)
      else if k = "19" then some ⟨"19", [], some 0⟩ else none).map sharedStore.deref
      = some a := h
  split_ifs at h2 with h18 h19
  · cases h2
    exact h18.symm
  · cases h2
    exact h19.symm
  · cases h2

/-! ## The store with its map objects and the store of accounts -/

theorem deref_accountFor (fund : Fund) (s : ObjStore) :
    s.deref (ObjStore.accountFor fund s) = accountFor fund s.view := by
  unfold ObjStore.accountFor accountFor
  show s.deref (match s.entries fund.CustomerID with
      | some x => x
      | none => { ID := fund.CustomerID, LoadIDs := [], Transactions := none })
    = match (s.entries fund.CustomerID).map s.deref with
      | some x => x
      | none => { ID := fund.CustomerID, LoadIDs := [], Transactions := TxMap.empty }
  cases s.entries fund.CustomerID <;> rfl

theorem objAccountFor_ID (fund : Fund) (s : ObjStore)
    (hkey : KeyedAt s.view fund.CustomerID) :
    (ObjStore.accountFor fund s).ID = fund.CustomerID := by
  have h := accountFor_ID fund s.view hkey
  rw [← deref_accountFor] at h
  exact h

/-- The map of a fresh value is the nil map; the map of a stored value is a map
object. -/
theorem objAccountFor_ref (fund : Fund) (s : ObjStore) (p : Nat)
    (h : (ObjStore.accountFor fund s).Transactions = some p) :
    s.Get fund.CustomerID = some (ObjStore.accountFor fund s) := by
  unfold ObjStore.accountFor at h ⊢
  cases hget : s.Get fund.CustomerID with
  | some x => rfl
  | none => rw [hget] at h; cases h

/-- The ways a call of `LoadFund` on the store with its map objects can go, in
terms of the account the store shows for the customer. -/
theorem objLoadFund_cases (fund : Fund) (s : ObjStore) :
    (fund.ID ∈ (accountFor fund s.view).LoadIDs
      ∧ ObjStore.LoadFund fund s = ((true, some ("loadID: " ++ fund.ID ++ " exists")), s))
    ∨ (fund.ID ∉ (accountFor fund s.view).LoadIDs
      ∧ ∃ err, ((accountFor fund s.view).checkDailyLimit fund = some err
          ∨ ((accountFor fund s.view).checkDailyLimit fund = none
            ∧ (accountFor fund s.view).checkWeeklyLimit fund = some err))
        ∧ ObjStore.LoadFund fund s
          = ((false, some err),
              s.Set (ObjStore.accountFor fund s).ID
                { ObjStore.accountFor fund s with
                  LoadIDs := (ObjStore.accountFor fund s).LoadIDs ++ [fund.ID] }))
    ∨ (fund.ID ∉ (accountFor fund s.view).LoadIDs
      ∧ (accountFor fund s.view).checkDailyLimit fund = none
      ∧ (accountFor fund s.view).checkWeeklyLimit fund = none
      ∧ (accountFor fund s.view).Transactions.len = 0
      ∧ ObjStore.LoadFund fund s
          = ((false, none),
              (((s.Set (ObjStore.accountFor fund s).ID
                { ObjStore.accountFor fund s with
                  LoadIDs := (ObjStore.accountFor fund s).LoadIDs ++ [fund.ID] }).make.writeMap
                s.next (TxMap.empty.set fund.Time.Format [fund])).Set
                (ObjStore.accountFor fund s).ID
                { ObjStore.accountFor fund s with
                  LoadIDs := (ObjStore.accountFor fund s).LoadIDs ++ [fund.ID],
                  Transactions := some s.next })))
    ∨ (fund.ID ∉ (accountFor fund s.view).LoadIDs
      ∧ (accountFor fund s.view).checkDailyLimit fund = none
      ∧ (accountFor fund s.view).checkWeeklyLimit fund = none
      ∧ (accountFor fund s.view).Transactions.len ≠ 0
      ∧ ∃ p, (ObjStore.accountFor fund s).Transactions = some p
        ∧ ObjStore.LoadFund fund s
          = ((false, none),
              ((s.Set (ObjStore.accountFor fund s).ID
                { ObjStore.accountFor fund s with
                  LoadIDs := (ObjStore.accountFor fund s).LoadIDs ++ [fund.ID] }).writeMap p
                ((s.maps p).set fund.Time.Format ((s.maps p).get fund.Time.Format ++ [fund]))).Set
                (ObjStore.accountFor fund s).ID
                { ObjStore.accountFor fund s with
                  LoadIDs := (ObjStore.accountFor fund s).LoadIDs ++ [fund.ID] })) := by
  have hd := deref_accountFor fund s
  have htx : (accountFor fund s.view).Transactions
      = s.mapOf (ObjStore.accountFor fund s).Transactions := by
    rw [← hd]
    rfl
  have hids : (accountFor fund s.view).LoadIDs = (ObjStore.accountFor fund s).LoadIDs := by
    rw [← hd]
    rfl
  by_cases hmem : fund.ID ∈ (accountFor fund s.view).LoadIDs
  · left
    refine ⟨hmem, ?_⟩
    have h1 := checkIfLoadExists_of_mem _ fund.ID hmem
    rw [← hd] at h1
    simp only [ObjStore.LoadFund, h1]
  · right
    have h1 := checkIfLoadExists_of_not_mem _ fund.ID hmem
    rw [← hd] at h1
    have hchk : ∀ (s1 : ObjStore), s1.maps = s.maps →
        s1.deref { ObjStore.accountFor fund s with
            LoadIDs := (ObjStore.accountFor fund s).LoadIDs ++ [fund.ID] }
          = { accountFor fund s.view with
              LoadIDs := (accountFor fund s.view).LoadIDs ++ [fund.ID] } := by
      intro s1 hm
      rw [← hd]
      unfold ObjStore.deref ObjStore.mapOf
      rw [hm]
    have hch := hchk (s.Set (ObjStore.accountFor fund s).ID
      { ObjStore.accountFor fund s with
        LoadIDs := (ObjStore.accountFor fund s).LoadIDs ++ [fund.ID] }) rfl
    cases hdl : (accountFor fund s.view).checkDailyLimit fund with
    | some e =>
      left
      refine ⟨hmem, e, Or.inl rfl, ?_⟩
      have h2 : CustomerAccount.checkDailyLimit ((s.Set (ObjStore.accountFor fund s).ID
          { ObjStore.accountFor fund s with
            LoadIDs := (ObjStore.accountFor fund s).LoadIDs ++ [fund.ID] }).deref
          { ObjStore.accountFor fund s with
            LoadIDs := (ObjStore.accountFor fund s).LoadIDs ++ [fund.ID] }) fund = some e := by
        rw [hch]
        exact hdl
      simp only [ObjStore.LoadFund, h1, h2]
    | none =>
      have h2 : CustomerAccount.checkDailyLimit ((s.Set (ObjStore.accountFor fund s).ID
          { ObjStore.accountFor fund s with
            LoadIDs := (ObjStore.accountFor fund s).LoadIDs ++ [fund.ID] }).deref
          { ObjStore.accountFor fund s with
            LoadIDs := (ObjStore.accountFor fund s).LoadIDs ++ [fund.ID] }) fund = none := by
        rw [hch]
        exact hdl
      cases hwl : (accountFor fund s.view).checkWeeklyLimit fund with
      | some e =>
        left
        refine ⟨hmem, e, Or.inr ⟨rfl, rfl⟩, ?_⟩
        have h3 : CustomerAccount.checkWeeklyLimit ((s.Set (ObjStore.accountFor fund s).ID
            { ObjStore.accountFor fund s with
              LoadIDs := (ObjStore.accountFor fund s).LoadIDs ++ [fund.ID] }).deref
            { ObjStore.accountFor fund s with
              LoadIDs := (ObjStore.accountFor fund s).LoadIDs ++ [fund.ID] }) fund = some e := by
          rw [hch]
          exact hwl
        simp only [ObjStore.LoadFund, h1, h2, h3]
      | none =>
        right
        have h3 : CustomerAccount.checkWeeklyLimit ((s.Set (ObjStore.accountFor fund s).ID
            { ObjStore.accountFor fund s with
              LoadIDs := (ObjStore.accountFor fund s).LoadIDs ++ [fund.ID] }).deref
            { ObjStore.accountFor fund s with
              LoadIDs := (ObjStore.accountFor fund s).LoadIDs ++ [fund.ID] }) fund = none := by
          rw [hch]
          exact hwl
        have hmap : (s.Set (ObjStore.accountFor fund s).ID
            { ObjStore.accountFor fund s with
              LoadIDs := (ObjStore.accountFor fund s).LoadIDs ++ [fund.ID] }).mapOf
            (ObjStore.accountFor fund s).Transactions
            = (accountFor fund s.view).Transactions := by
          rw [htx]
          rfl
        by_cases hlen : (accountFor fund s.view).Transactions.len = 0
        · left
          refine ⟨hmem, rfl, rfl, hlen, ?_⟩
          have hlen2 := hlen
          rw [← hmap] at hlen2
          simp only [ObjStore.LoadFund, h1, h2, h3, hlen2, if_true]
          simp only [ObjStore.make, ObjStore.Set, if_true]
        · right
          refine ⟨hmem, rfl, rfl, hlen, ?_⟩
          have hlen2 := hlen
          rw [← hmap] at hlen2
          have hex : ∃ p, (ObjStore.accountFor fund s).Transactions = some p := by
            cases hp : (ObjStore.accountFor fund s).Transactions with
            | none =>
              rw [htx, hp] at hlen
              exact absurd rfl hlen
            | some p => exact ⟨p, rfl⟩
          obtain ⟨p, hp⟩ := hex
          refine ⟨p, hp, ?_⟩
          simp only [ObjStore.LoadFund, h1, h2, h3, hlen2, if_false]
          simp only [hp]
          rfl

/-- An entry that is kept, with the map object it refers to kept, shows the
same account. -/
theorem view_of_entries_maps (s t : ObjStore) (k : String)
    (h1 : t.entries k = s.entries k)
    (h2 : ∀ a p, s.entries k = some a → a.Transactions = some p → t.maps p = s.maps p) :
    t.view.Get k = s.view.Get k := by
  show (t.entries k).map t.deref = (s.entries k).map s.deref
  rw [h1]
  cases he : s.entries k with
  | none => rfl
  | some a =>
    show some (t.deref a) = some (s.deref a)
    congr 1
    unfold ObjStore.deref ObjStore.mapOf
    cases hp : a.Transactions with
    | none => rfl
    | some p =>
      simp only
      rw [h2 a p he hp]

theorem view_Set_eq (s : ObjStore) (k : String) (x : AccountRef) :
    (s.Set k x).view.Get k = some ((s.Set k x).deref x) := by
  show ((s.Set k x).entries k).map (s.Set k x).deref = _
  simp [ObjStore.Set]

/-- What `LoadFund` on the store with its map objects returns, and the account
it leaves under the customer's key, are what `LoadFund` on the store of
accounts gives for the accounts shown, when the customer's account is filed
under its own ID. -/
theorem objLoadFund_view (fund : Fund) (s : ObjStore)
    (hkey : KeyedAt s.view fund.CustomerID) :
    (ObjStore.LoadFund fund s).1 = (LoadFund fund s.view).1
    ∧ (ObjStore.LoadFund fund s).2.view.Get fund.CustomerID
        = (LoadFund fund s.view).2.Get fund.CustomerID := by
  have hid := accountFor_ID fund s.view hkey
  have hoid := objAccountFor_ID fund s hkey
  have hd := deref_accountFor fund s
  have hseen : ∀ t : ObjStore, t.maps = s.maps →
      t.deref { ObjStore.accountFor fund s with
          LoadIDs := (ObjStore.accountFor fund s).LoadIDs ++ [fund.ID] }
        = seenAccount fund s.view := by
    intro t hm
    unfold seenAccount
    rw [← hd]
    unfold ObjStore.deref ObjStore.mapOf
    rw [hm]
  rcases objLoadFund_cases fund s with ⟨hmem, h⟩ | ⟨hnew, e, hchk, h⟩ |
      ⟨hnew, hdl, hwl, hlen, h⟩ | ⟨hnew, hdl, hwl, hlen, p, hp, h⟩
  · rw [h, LoadFund_of_seen s.view fund hmem]
    exact ⟨rfl, rfl⟩
  · have hval : LoadFund fund s.view
        = ((false, some e), s.view.Set (accountFor fund s.view).ID (seenAccount fund s.view)) := by
      rcases hchk with hdl | ⟨hdl, hwl⟩
      · exact LoadFund_of_daily s.view fund e hnew hdl
      · exact LoadFund_of_weekly s.view fund e hnew hdl hwl
    rw [h, hval, hid, hoid]
    refine ⟨rfl, ?_⟩
    show (ObjStore.Set _ _ _).view.Get _ = (Cache.Set _ _ _).Get _
    rw [view_Set_eq, Cache.Get_Set_eq]
    exact congrArg some (hseen _ rfl)
  · obtain ⟨hret, hstored, _, _⟩ := LoadFund_of_pass s.view fund hnew hdl hwl
    rw [hid] at hstored
    rw [h, hret, hstored, hoid]
    refine ⟨rfl, ?_⟩
    show (ObjStore.Set _ _ _).view.Get _ = _
    rw [view_Set_eq]
    congr 1
    unfold seenAccount recordedTx
    rw [if_pos hlen, ← hd]
    simp [ObjStore.deref, ObjStore.mapOf, ObjStore.Set, ObjStore.writeMap]
  · obtain ⟨hret, hstored, _, _⟩ := LoadFund_of_pass s.view fund hnew hdl hwl
    rw [hid] at hstored
    rw [h, hret, hstored, hoid]
    refine ⟨rfl, ?_⟩
    show (ObjStore.Set _ _ _).view.Get _ = _
    rw [view_Set_eq]
    congr 1
    unfold seenAccount recordedTx
    rw [if_neg hlen, ← hd]
    simp [ObjStore.deref, ObjStore.mapOf, ObjStore.Set, ObjStore.writeMap, hp]

/-- `LoadFund` on the store with its map objects leaves the account shown under
another key as it was, when the map object of that entry has been made and is
not the map object of the customer's entry. -/
theorem objLoadFund_frame (fund : Fund) (s : ObjStore) (k : String)
    (hkey : KeyedAt s.view fund.CustomerID) (hk : k ≠ fund.CustomerID)
    (hmade : ∀ a p, s.Get k = some a → a.Transactions = some p → p < s.next)
    (hapart : s.Apart fund.CustomerID k) :
    (ObjStore.LoadFund fund s).2.view.Get k = s.view.Get k := by
  have hoid := objAccountFor_ID fund s hkey
  rcases objLoadFund_cases fund s with ⟨hmem, h⟩ | ⟨hnew, e, hchk, h⟩ |
      ⟨hnew, hdl, hwl, hlen, h⟩ | ⟨hnew, hdl, hwl, hlen, p, hp, h⟩
  · rw [h]
  · rw [h, hoid]
    apply view_of_entries_maps
    · simp [ObjStore.Set, ObjStore.make, ObjStore.writeMap, hk]
    · intro a p _ _
      rfl
  · rw [h, hoid]
    apply view_of_entries_maps
    · simp [ObjStore.Set, ObjStore.make, ObjStore.writeMap, hk]
    · intro a p he hp
      have hlt := hmade a p he hp
      have hne : p ≠ s.next := Nat.ne_of_lt hlt
      simp [ObjStore.Set, ObjStore.writeMap, ObjStore.make, hne]
  · rw [h, hoid]
    apply view_of_entries_maps
    · simp [ObjStore.Set, ObjStore.make, ObjStore.writeMap, hk]
    · intro a q he hq
      have hget := objAccountFor_ref fund s p hp
      have hne : q ≠ p := by
        intro e
        rw [e] at hq
        exact hapart _ a p hget he hp hq
      simp [ObjStore.Set, ObjStore.writeMap, hne]

/-- The map addresses in the entries after a call of `LoadFund`: an address an
entry held before, or the address of the map object the call made, held by the
customer's entry; and no map object is unmade. -/
theorem objLoadFund_entries (fund : Fund) (s : ObjStore)
    (hkey : KeyedAt s.view fund.CustomerID) :
    s.next ≤ (ObjStore.LoadFund fund s).2.next
    ∧ ∀ k a p, (ObjStore.LoadFund fund s).2.Get k = some a → a.Transactions = some p →
        (∃ b, s.Get k = some b ∧ b.Transactions = some p)
        ∨ (k = fund.CustomerID ∧ p = s.next
            ∧ (ObjStore.LoadFund fund s).2.next = s.next + 1) := by
  have hoid := objAccountFor_ID fund s hkey
  have hold : ∀ k a p,
      (ObjStore.Set s fund.CustomerID
        { ObjStore.accountFor fund s with
          LoadIDs := (ObjStore.accountFor fund s).LoadIDs ++ [fund.ID] }).entries k = some a →
      a.Transactions = some p → ∃ b, s.Get k = some b ∧ b.Transactions = some p := by
    intro k a p hget hp
    by_cases hk : k = fund.CustomerID
    · subst hk
      simp only [ObjStore.Set, if_true] at hget
      cases hget
      exact ⟨_, objAccountFor_ref fund s p hp, hp⟩
    · simp only [ObjStore.Set, if_neg hk] at hget
      exact ⟨a, hget, hp⟩
  rcases objLoadFund_cases fund s with ⟨hmem, h⟩ | ⟨hnew, e, hchk, h⟩ |
      ⟨hnew, hdl, hwl, hlen, h⟩ | ⟨hnew, hdl, hwl, hlen, q, hq, h⟩
  · rw [h]
    exact ⟨Nat.le_refl _, fun k a p hget hp => Or.inl ⟨a, hget, hp⟩⟩
  · rw [h, hoid]
    exact ⟨Nat.le_refl _, fun k a p hget hp => Or.inl (hold k a p hget hp)⟩
  · rw [h, hoid]
    refine ⟨Nat.le_succ _, ?_⟩
    intro k a p hget hp
    by_cases hk : k = fund.CustomerID
    · right
      subst hk
      have ha : some ({ ObjStore.accountFor fund s with
          LoadIDs := (ObjStore.accountFor fund s).LoadIDs ++ [fund.ID],
          Transactions := some s.next } : AccountRef) = some a := by
        rw [← hget]
        simp [ObjStore.Set, ObjStore.Get]
      cases ha
      cases hp
      exact ⟨rfl, rfl, rfl⟩
    · left
      have hget2 : s.entries k = some a := by
        rw [← hget]
        simp [ObjStore.Set, ObjStore.Get, ObjStore.make, ObjStore.writeMap, hk]
      exact ⟨a, hget2, hp⟩
  · rw [h, hoid]
    refine ⟨Nat.le_refl _, ?_⟩
    intro k a p hget hp
    left
    apply hold k a p _ hp
    rw [← hget]
    by_cases hk : k = fund.CustomerID
    · subst hk
      simp [ObjStore.Set, ObjStore.Get]
    · simp [ObjStore.Set, ObjStore.Get, ObjStore.writeMap, hk]

/-- The store of accounts after `LoadFund` is the one the store with its map
objects shows after `LoadFund`, when accounts are filed under their own IDs,
every map object held has been made and no two entries share one. -/
theorem objLoadFund_refines (fund : Fund) (s : ObjStore)
    (hkeys : WellKeyed s.view) (hmade : s.Made) (hun : s.Unshared) :
    (ObjStore.LoadFund fund s).1 = (LoadFund fund s.view).1
    ∧ (ObjStore.LoadFund fund s).2.view = (LoadFund fund s.view).2 := by
  have hkey := hkeys fund.CustomerID
  obtain ⟨hret, hcust⟩ := objLoadFund_view fund s hkey
  refine ⟨hret, ?_⟩
  funext k
  show (ObjStore.LoadFund fund s).2.view.Get k = (LoadFund fund s.view).2.Get k
  by_cases hk : k = fund.CustomerID
  · rw [hk]
    exact hcust
  · rw [objLoadFund_frame fund s k hkey hk (hmade k) (hun _ _ (fun e => hk e.symm)),
      LoadFund_frame s.view fund k (by rw [accountFor_ID fund s.view hkey]; exact hk) hk]

/-- `LoadFund` keeps the store with its map objects in order: accounts filed
under their own IDs, every map object held made, none held by two entries. -/
theorem objLoadFund_unshared (fund : Fund) (s : ObjStore)
    (hkeys : WellKeyed s.view) (hmade : s.Made) (hun : s.Unshared) :
    WellKeyed (ObjStore.LoadFund fund s).2.view
    ∧ (ObjStore.LoadFund fund s).2.Made
    ∧ (ObjStore.LoadFund fund s).2.Unshared := by
  have hkey := hkeys fund.CustomerID
  obtain ⟨hnext, hent⟩ := objLoadFund_entries fund s hkey
  refine ⟨?_, ?_, ?_⟩
  · rw [(objLoadFund_refines fund s hkeys hmade hun).2]
    exact WellKeyed_LoadFund s.view fund hkeys
  · intro k a p hget hp
    rcases hent k a p hget hp with ⟨b, hb, hbp⟩ | ⟨_, hpn, hn⟩
    · exact Nat.lt_of_lt_of_le (hmade k b p hb hbp) hnext
    · rw [hpn, hn]
      exact Nat.lt_succ_self _
  · intro k j hkj a b p hka hjb hap hbp
    rcases hent k a p hka hap with ⟨a0, ha0, ha0p⟩ | ⟨hkx, hpn, _⟩
    · rcases hent j b p hjb hbp with ⟨b0, hb0, hb0p⟩ | ⟨_, hpn, _⟩
      · exact hun k j hkj a0 b0 p ha0 hb0 ha0p hb0p
      · have := hmade k a0 p ha0 ha0p
        rw [hpn] at this
        exact Nat.lt_irrefl _ this
    · rcases hent j b p hjb hbp with ⟨b0, hb0, hb0p⟩ | ⟨hjx, _, _⟩
      · have := hmade j b0 p hb0 hb0p
        rw [hpn] at this
        exact Nat.lt_irrefl _ this
      · exact hkj (hkx.trans hjx.symm)

theorem objStore_empty_unshared :
    WellKeyed ObjStore.empty.view ∧ ObjStore.empty.Made ∧ ObjStore.empty.Unshared := by
  refine ⟨?_, ?_, ?_⟩
  · intro k a h
    cases h
  · intro k a p h
    cases h
  · intro k j _ a b p h
    cases h

/-- Every store built by `LoadFund` calls from the empty store is in order, and
the store of accounts built by the same calls is what it shows. -/
theorem objLoadFunds_refines (funds : List Fund) (s : ObjStore)
    (hkeys : WellKeyed s.view) (hmade : s.Made) (hun : s.Unshared) :
    WellKeyed (ObjStore.LoadFunds funds s).view
    ∧ (ObjStore.LoadFunds funds s).Made
    ∧ (ObjStore.LoadFunds funds s).Unshared
    ∧ (ObjStore.LoadFunds funds s).view = LoadFunds funds s.view := by
  induction funds generalizing s with
  | nil => exact ⟨hkeys, hmade, hun, rfl⟩
  | cons fund rest ih =>
    obtain ⟨h1, h2, h3⟩ := objLoadFund_unshared fund s hkeys hmade hun
    obtain ⟨i1, i2, i3, i4⟩ := ih (ObjStore.LoadFund fund s).2 h1 h2 h3
    refine ⟨i1, i2, i3, ?_⟩
    show (ObjStore.LoadFunds rest (ObjStore.LoadFund fund s).2).view
      = LoadFunds rest (LoadFund fund s.view).2
    rw [i4, (objLoadFund_refines fund s hkeys hmade hun).2]

/-- C11, for stores whose entries share no map object. Requests for different
customers are independent: on the store with its map objects, when the account
of the request's customer X is filed under its own ID, `LoadFund` leaves the
account shown under every key other than X unchanged, provided the map object
of that entry has been made and is not the map object of the entry of X; and on
two stores that show the same account under X it returns the same pair and
leaves the same account shown under X. Every store built by `LoadFund` calls
from the empty store files accounts under their own IDs and has no map object
held by two entries, so that on it every key other than X keeps its account;
and the accounts it shows are those of the store of accounts built by the same
calls. -/
theorem LoadFund_independent_unshared :
    (∀ (s : ObjStore) (fund : Fund) (k : String),
      KeyedAt s.view fund.CustomerID → k ≠ fund.CustomerID →
      (∀ a p, s.Get k = some a → a.Transactions = some p → p < s.next) →
      s.Apart fund.CustomerID k →
      (ObjStore.LoadFund fund s).2.view.Get k = s.view.Get k)
    ∧ (∀ (s1 s2 : ObjStore) (fund : Fund),
      KeyedAt s1.view fund.CustomerID → KeyedAt s2.view fund.CustomerID →
      s1.view.Get fund.CustomerID = s2.view.Get fund.CustomerID →
      (ObjStore.LoadFund fund s1).1 = (ObjStore.LoadFund fund s2).1
      ∧ (ObjStore.LoadFund fund s1).2.view.Get fund.CustomerID
          = (ObjStore.LoadFund fund s2).2.view.Get fund.CustomerID)
    ∧ (∀ funds : List Fund,
      WellKeyed (ObjStore.LoadFunds funds ObjStore.empty).view
      ∧ (ObjStore.LoadFunds funds ObjStore.empty).Made
      ∧ (ObjStore.LoadFunds funds ObjStore.empty).Unshared
      ∧ (ObjStore.LoadFunds funds ObjStore.empty).view = LoadFunds funds Cache.empty)
    ∧ (∀ (funds : List Fund) (fund : Fund) (k : String), k ≠ fund.CustomerID →
      (ObjStore.LoadFund fund (ObjStore.LoadFunds funds ObjStore.empty)).2.view.Get k
        = (ObjStore.LoadFunds funds ObjStore.empty).view.Get k) := by
  have hreach : ∀ funds : List Fund,
      WellKeyed (ObjStore.LoadFunds funds ObjStore.empty).view
      ∧ (ObjStore.LoadFunds funds ObjStore.empty).Made
      ∧ (ObjStore.LoadFunds funds ObjStore.empty).Unshared
      ∧ (ObjStore.LoadFunds funds ObjStore.empty).view = LoadFunds funds Cache.empty := by
    intro funds
    exact objLoadFunds_refines funds ObjStore.empty objStore_empty_unshared.1
      objStore_empty_unshared.2.1 objStore_empty_unshared.2.2
  refine ⟨fun s fund k hkey hk hmade hapart => objLoadFund_frame fund s k hkey hk hmade hapart,
    ?_, hreach, ?_⟩
  · intro s1 s2 fund hk1 hk2 hget
    obtain ⟨r1, v1⟩ := objLoadFund_view fund s1 hk1
    obtain ⟨r2, v2⟩ := objLoadFund_view fund s2 hk2
    have hacc : accountFor fund s1.view = accountFor fund s2.view := by
      simp only [accountFor, hget]
    have hid := accountFor_ID fund s1.view hk1
    have h := LoadFund_of_account s1.view s2.view fund hacc (by rw [hid]; exact hget)
    rw [hid] at h
    rw [r1, r2, v1, v2]
    exact h
  · intro funds fund k hk
    obtain ⟨hkeys, hmade, hun, _⟩ := hreach funds
    exact objLoadFund_frame fund _ k (hkeys fund.CustomerID) hk (hmade k)
      (hun _ _ (fun e => hk e.symm))

set_option maxRecDepth 100000 in
/-- C11 at `apartStore`, where the entries 18 and 19 hold map objects of their
own: the load of 2000.00 for customer 18 on `tuesday` is accepted and the
account shown under the key 19 is as before. -/
theorem LoadFund_independent_unshared_witness :
    (ObjStore.LoadFund ⟨"2", "18", F64.ofDecimal false 200000 2, tuesday⟩ apartStore).1
        = (false, none)
    ∧ (ObjStore.LoadFund ⟨"2", "18", F64.ofDecimal false 200000 2, tuesday⟩
          apartStore).2.view.Get "19" = apartStore.view.Get "19" :=
  ⟨by decide,
   LoadFund_independent_unshared.1 apartStore
     ⟨"2", "18", F64.ofDecimal false 200000 2, tuesday⟩ "19"
     (fun a h => by
       have h2 : some (apartStore.deref ⟨"18", ["1"], some 0⟩) = some a := h
       cases h2
       rfl)
     (by decide)
     (fun a p h hp => by
       have h2 : some (⟨"19", [], some 1⟩ : AccountRef) = some a := h
       cases h2
       cases hp
       exact Nat.lt_succ_self 1)
     (fun a b p ha hb hap hbp => by
       have h2 : some (⟨"18", ["1"], some 0⟩ : AccountRef) = some a := ha
       have h3 : some (⟨"19", [], some 1⟩ : AccountRef) = some b := hb
       cases h2
       cases h3
       cases hap
       cases hbp)⟩

end VelocityLimits
